import Mathlib

/-!
Shallow embedding of `src/machine-core/src/lib.rs` (crate `machine-core` of the
`vmill` repository): a multi-channel CNC controller core.  `f64` values are
modelled as exact rationals (`ℚ`); the transcendental `f64` operations
(`sqrt`, `sin`, `cos`, `acos`, `atan2`) and the constant `π` have no exact
rational counterpart, so the embedding is parameterised by a `MathFns`
record of rational stand-ins.  Theorems that depend on analytic properties
of these functions state those properties as explicit hypotheses (all true
of the real functions), and witnesses instantiate `MathFns` with concrete
rational functions satisfying them.  Machine integers (`u32`, `usize`,
`i32`) are modelled as `ℕ` / `ℤ`; none of the verified code paths can
overflow them.
-/

set_option allowUnsafeReducibility true
attribute [semireducible] Rat.add Rat.mul Rat.sub Rat.inv

namespace Vmill

/-- Clamp of `f64::clamp` for non-NaN inputs: `min ≤ x ≤ max` enforced. -/
def clampQ (x lo hi : ℚ) : ℚ := max lo (min hi x)

/-- Truncation toward zero, as used by Rust's `%` on `f64` (via `x - d*trunc (x/d)`). -/
def truncQ (q : ℚ) : ℤ := if 0 ≤ q then ⌊q⌋ else -⌊-q⌋

/-- Rust `f64::signum` restricted to the values that occur (nonzero input,
positive zero treated as positive, matching `f64`). -/
def signumQ (q : ℚ) : ℚ := if 0 ≤ q then 1 else -1

/-- Rust `f64::round` (round half away from zero), producing an integer. -/
def roundQ (q : ℚ) : ℤ := if 0 ≤ q then ⌊q + 1/2⌋ else -⌊-q + 1/2⌋

/-- Rational stand-ins for the transcendental `f64` operations used by the
source (`sqrt`, `atan2`, `sin`, `cos`, `acos`) and for `std::f64::consts::PI`.
`TAU` is `2 * PI` exactly in `f64`, so it is modelled as `2 * pi`. -/
structure MathFns where
  sqrt : ℚ → ℚ
  atan2 : ℚ → ℚ → ℚ
  sin : ℚ → ℚ
  cos : ℚ → ℚ
  acos : ℚ → ℚ
  pi : ℚ

/-- The `TAU` constant derived from the modelled `pi`. -/
def MathFns.tau (M : MathFns) : ℚ := 2 * M.pi

/-- Fuel-driven binary search for the integer square root (structural
recursion on the fuel so that the kernel can evaluate it; `Nat.sqrt` is
defined by well-founded recursion, which the kernel cannot unfold). -/
def isqrtAux (n : ℕ) : ℕ → ℕ → ℕ → ℕ
  | lo, _, 0 => lo
  | lo, hi, Nat.succ fuel =>
    if hi ≤ lo then lo
    else
      let mid := (lo + hi + 1) / 2
      if mid * mid ≤ n then isqrtAux n mid hi fuel
      else isqrtAux n lo (mid - 1) fuel

/-- Integer square root by binary search; exact for every `n < 2 ^ 128`,
which covers all concrete numbers appearing in the witnesses. -/
def isqrt (n : ℕ) : ℕ := isqrtAux n 0 n 128

/-- Exact rational square root when the argument is a square of a rational
(the case arising in all concrete scenarios of this development), else `0`.
Used only to instantiate `MathFns` in witnesses. -/
def ratSqrt (q : ℚ) : ℚ :=
  if 0 ≤ q ∧ (isqrt q.num.toNat : ℤ) ^ 2 = q.num ∧ isqrt q.den * isqrt q.den = q.den
  then (isqrt q.num.toNat : ℚ) / (isqrt q.den : ℚ)
  else 0

/-- Concrete `MathFns` instance used by witnesses: exact square roots on
perfect squares; `acos` replaced by `fun y => 2 - y`, which satisfies every
property of the real `arccos` assumed by the theorems below; `pi` a rational
approximation of π good to the bounds the theorems assume. -/
def mathW : MathFns where
  sqrt := ratSqrt
  atan2 := fun _ _ => 0
  sin := fun _ => 0
  cos := fun _ => 0
  acos := fun y => 2 - y
  pi := 31415927/10000000

/-! ## Data model (`Axis`, `Channel`, `MachineBrain` and friends) -/

/-- `AxisType` from the source. -/
inductive AxisType where
  | Linear
  | Rotary
deriving DecidableEq

/-- `Axis` from the source (`id: u32` as `ℕ`). -/
structure Axis where
  id : ℕ
  physical_name : String
  position : ℚ
  target : ℚ
  axis_type : AxisType
  min_range : ℚ
  max_range : ℚ
  homed : Bool
  velocity : ℚ
  accel : ℚ
  invert : Bool
  machine_zero : ℚ
deriving DecidableEq

/-- `ChannelAxisMap` from the source. -/
structure ChannelAxisMap where
  axis_id : ℕ
  display_label : String
deriving DecidableEq

/-- `ToolTableEntry` from the source. -/
structure ToolTableEntry where
  radius : ℚ
  length : ℚ
deriving DecidableEq

/-- `CompLinearState` from the source. -/
structure CompLinearState where
  end_prog_x : ℚ
  end_prog_y : ℚ
  end_off_x : ℚ
  end_off_y : ℚ
  dir_x : ℚ
  dir_y : ℚ
  mode : ℤ
  radius : ℚ
deriving DecidableEq

/-- `Channel` from the source.  The two `HashMap`s (`tool_table`,
`programmed_work`) are modelled as lookup functions (only `get`/`insert`
are used by the source, never iteration), and the `VecDeque` of pending
segments as a list used FIFO (push at the back, pop at the front). -/
structure Channel where
  id : ℕ
  axis_map : List ChannelAxisMap
  is_running : Bool
  paused : Bool
  pc : ℕ
  active_pc : ℤ
  program : List String
  feed_rate : ℚ
  current_motion : ℤ
  abs_mode : Bool
  units_mm : Bool
  plane : ℕ
  exact_stop : Bool
  cutter_comp : ℤ
  tool_radius : ℚ
  length_comp_active : Bool
  tool_length : ℚ
  active_tool : ℤ
  active_d : ℤ
  active_h : ℤ
  spindle_rpm : ℚ
  spindle_mode : ℤ
  coolant_on : Bool
  feed_override : ℚ
  single_block : Bool
  step_once : Bool
  pause_pending : Bool
  tool_table : ℤ → Option ToolTableEntry
  comp_linear_prev : Option CompLinearState
  comp_entry_pending : Bool
  pending : List (List (ℕ × ℚ))
  programmed_work : ℕ → Option ℚ

/-- `AxisOffset` from the source. -/
structure AxisOffset where
  axis_id : ℕ
  value : ℚ
deriving DecidableEq

/-- `WorkOffset` from the source. -/
structure WorkOffset where
  label : String
  offsets : List AxisOffset
deriving DecidableEq

/-- `MachineBrain` from the source. -/
structure MachineBrain where
  axes : List Axis
  channels : List Channel
  estop : Bool
  work_offsets : List WorkOffset
  active_wcs : ℕ
  is_homing : Bool
  homing_sequence : List ℕ
  homing_index : ℕ
  homing_feed : ℚ
  homing_rapid : Bool

/-- Map update used to model `HashMap::insert`. -/
def updMap {α : Type} [DecidableEq α] {β : Type} (f : α → Option β) (k : α) (v : β) :
    α → Option β :=
  fun k' => if k' = k then some v else f k'

/-- In-place update of the `i`-th element of a list (model of `vec[i] = ...`
via `get_mut`); out-of-range indices leave the list unchanged. -/
def listModify {α : Type} : List α → ℕ → (α → α) → List α
  | [], _, _ => []
  | a :: l, 0, f => f a :: l
  | a :: l, n + 1, f => a :: listModify l n f

/-- Modify one axis of the machine in place. -/
def modAxis (m : MachineBrain) (i : ℕ) (f : Axis → Axis) : MachineBrain :=
  { m with axes := listModify m.axes i f }

/-- Modify one channel of the machine in place. -/
def modChan (m : MachineBrain) (c : ℕ) (f : Channel → Channel) : MachineBrain :=
  { m with channels := listModify m.channels c f }

/-- `default_work_offsets` from the source. -/
def default_work_offsets : List WorkOffset :=
  [⟨"G54", []⟩, ⟨"G55", []⟩, ⟨"G56", []⟩, ⟨"G57", []⟩, ⟨"G58", []⟩, ⟨"G59", []⟩,
   ⟨"G153", []⟩]

/-- `normalize_rotary_target` from the source: wrap into `(−180, 180]` via
`%` (truncated remainder) and the two boundary adjustments. -/
def normalize_rotary_target (value : ℚ) : ℚ :=
  let wrapped := value - 360 * (truncQ (value / 360) : ℚ)
  if wrapped > 180 then wrapped - 360
  else if wrapped ≤ -180 then wrapped + 360
  else wrapped

def RAPID_LINEAR_MIN_MM_MIN : ℚ := 50000
def RAPID_LINEAR_MAX_MM_MIN : ℚ := 80000
def RAPID_ROTARY_MIN_DEG_MIN : ℚ := 6000
def RAPID_ROTARY_MAX_DEG_MIN : ℚ := 30000

/-- `axis_rapid_feed` from the source. -/
def axis_rapid_feed (ax : Axis) : ℚ :=
  match ax.axis_type with
  | AxisType.Linear => clampQ (max ax.accel 1 * 30) RAPID_LINEAR_MIN_MM_MIN RAPID_LINEAR_MAX_MM_MIN
  | AxisType.Rotary => clampQ (max ax.accel 1 * 20) RAPID_ROTARY_MIN_DEG_MIN RAPID_ROTARY_MAX_DEG_MIN

/-- `MachineBrain::new` from the source. -/
def MachineBrain.new : MachineBrain where
  axes := []
  channels := []
  estop := false
  work_offsets := default_work_offsets
  active_wcs := 0
  is_homing := false
  homing_sequence := []
  homing_index := 0
  homing_feed := 300
  homing_rapid := false

/-- `MachineBrain::clear_config` from the source. -/
def clear_config (m : MachineBrain) : MachineBrain :=
  { m with axes := [], channels := [], work_offsets := default_work_offsets,
           active_wcs := 0, is_homing := false, homing_sequence := [],
           homing_index := 0, homing_feed := 300, homing_rapid := false }

/-- Rust `Vec::dedup`: remove consecutive duplicates. -/
def dedupConsec : List ℕ → List ℕ
  | [] => []
  | [a] => [a]
  | a :: b :: l => if a = b then dedupConsec (b :: l) else a :: dedupConsec (b :: l)

/-- `MachineBrain::start_homing_sequence` from the source. -/
def start_homing_sequence (m : MachineBrain) (order : List ℕ) (rapid : Bool) (feed : ℚ) :
    MachineBrain :=
  if m.estop then m
  else
    let order := dedupConsec (order.filter (fun id => id < m.axes.length))
    if order = [] then
      { m with is_homing := false, homing_sequence := [], homing_index := 0 }
    else
      { m with is_homing := true, homing_sequence := order, homing_index := 0,
               homing_rapid := rapid, homing_feed := max feed 1 }

/-- `MachineBrain::machine_target_with_limits` from the source. -/
def machine_target_with_limits (m : MachineBrain) (axis_id : ℕ) (machine_target : ℚ) : ℚ :=
  match m.axes.get? axis_id with
  | none => machine_target
  | some ax =>
    match ax.axis_type with
    | AxisType.Rotary => normalize_rotary_target machine_target
    | AxisType.Linear => clampQ machine_target ax.min_range ax.max_range

/-- `MachineBrain::channel_rapid_feed` from the source. -/
def channel_rapid_feed (m : MachineBrain) (channel_index : ℕ) : ℚ :=
  match m.channels.get? channel_index with
  | none => RAPID_LINEAR_MAX_MM_MIN
  | some chan =>
    let step := fun (acc : ℚ × Bool) (mm : ChannelAxisMap) =>
      match m.axes.get? mm.axis_id with
      | some ax => (min acc.1 (axis_rapid_feed ax), true)
      | none => acc
    let r := chan.axis_map.foldl step (RAPID_LINEAR_MAX_MM_MIN, false)
    if r.2 then r.1 else RAPID_LINEAR_MAX_MM_MIN

/-- `MachineBrain::add_axis` from the source. -/
def add_axis (m : MachineBrain) (name : String) (kind : AxisType) (mn mx : ℚ) : MachineBrain :=
  let id := m.axes.length
  { m with
    work_offsets := m.work_offsets.map (fun w => { w with offsets := w.offsets ++ [⟨id, 0⟩] }),
    axes := m.axes ++ [{ id := id, physical_name := name, position := 0, target := 0,
                         velocity := 0, accel := 0, axis_type := kind, min_range := mn,
                         max_range := mx, homed := false, invert := false, machine_zero := 0 }] }

/-- The default channel contents of `MachineBrain::add_channel`. -/
def freshChannel (id : ℕ) (axis_map : List ChannelAxisMap) : Channel where
  id := id
  axis_map := axis_map
  feed_rate := 1000
  is_running := false
  paused := false
  program := []
  pc := 0
  active_pc := -1
  current_motion := 0
  abs_mode := true
  units_mm := true
  plane := 17
  exact_stop := false
  cutter_comp := 40
  tool_radius := 4
  length_comp_active := false
  tool_length := 50
  active_tool := 0
  active_d := 0
  active_h := 0
  spindle_rpm := 0
  spindle_mode := 5
  coolant_on := false
  feed_override := 1
  single_block := false
  step_once := false
  pause_pending := false
  tool_table := fun k => if k = 0 ∨ k = 1 then some ⟨4, 50⟩ else none
  comp_linear_prev := none
  comp_entry_pending := false
  pending := []
  programmed_work := fun _ => none

/-- `MachineBrain::add_channel` from the source (the `JsValue` deserialization
is replaced by the already-decoded mapping list). -/
def add_channel (m : MachineBrain) (id : ℕ) (mappings : List ChannelAxisMap) : MachineBrain :=
  { m with channels := m.channels ++ [freshChannel id mappings] }

/-- Splitting of a program string into trimmed uppercased lines, modelling
`code.lines().map(|l| l.trim().to_uppercase())`. -/
def programLines (code : String) : List String :=
  let ls := code.splitOn "\n"
  let ls := match ls.getLast? with
            | some "" => ls.dropLast
            | _ => ls
  ls.map (fun l => ((l.dropRightWhile (· = '\r')).trim).toUpper)

/-- `MachineBrain::load_program` from the source. -/
def load_program (m : MachineBrain) (channel_index : ℕ) (code : String) : MachineBrain :=
  modChan m channel_index (fun chan =>
    { chan with program := programLines code, pc := 0, active_pc := -1, is_running := true,
                paused := false, current_motion := 0, step_once := false,
                pause_pending := false, programmed_work := fun _ => none,
                comp_linear_prev := none, comp_entry_pending := false })

/-- `MachineBrain::toggle_pause` from the source. -/
def toggle_pause (m : MachineBrain) (channel_index : ℕ) : MachineBrain :=
  modChan m channel_index (fun chan => { chan with paused := !chan.paused })

/-- `MachineBrain::reset_program` from the source. -/
def reset_program (m : MachineBrain) (channel_index : ℕ) : MachineBrain :=
  modChan m channel_index (fun chan =>
    { chan with pc := 0, active_pc := -1, is_running := false, paused := false,
                step_once := false, pause_pending := false,
                programmed_work := fun _ => none, comp_linear_prev := none,
                comp_entry_pending := false })

/-- `MachineBrain::set_feed_override` from the source. -/
def set_feed_override (m : MachineBrain) (channel_index : ℕ) (ratio : ℚ) : MachineBrain :=
  modChan m channel_index (fun chan => { chan with feed_override := clampQ ratio 0 2 })

/-- `MachineBrain::set_single_block` from the source. -/
def set_single_block (m : MachineBrain) (channel_index : ℕ) (enabled : Bool) : MachineBrain :=
  modChan m channel_index (fun chan => { chan with single_block := enabled })

/-- `MachineBrain::step_once` from the source. -/
def step_once_cmd (m : MachineBrain) (channel_index : ℕ) : MachineBrain :=
  modChan m channel_index (fun chan =>
    if !chan.is_running then chan
    else { chan with step_once := true, paused := false })

/-- `MachineBrain::jump_blocks` from the source. -/
def jump_blocks (m : MachineBrain) (channel_index : ℕ) (delta : ℤ) : MachineBrain :=
  match m.channels.get? channel_index with
  | none => m
  | some chan =>
    if chan.program = [] then m
    else
      let len : ℤ := chan.program.length
      let next_pc : ℤ := max 0 (min len ((chan.pc : ℤ) + delta))
      let next_pc : ℕ := next_pc.toNat
      let m := modChan m channel_index (fun chan =>
        { chan with pc := next_pc,
                    active_pc := if next_pc = 0 then -1 else ((next_pc : ℤ) - 1),
                    pending := [], pause_pending := false, step_once := false,
                    paused := true, is_running := true })
      chan.axis_map.foldl
        (fun m mm => modAxis m mm.axis_id (fun ax => { ax with velocity := 0 })) m

/-- `MachineBrain::set_tool_length` from the source. -/
def set_tool_length (m : MachineBrain) (channel_index : ℕ) (length : ℚ) : MachineBrain :=
  modChan m channel_index (fun chan =>
    let entry := (chan.tool_table 0).getD ⟨0, 0⟩
    { chan with tool_length := length, active_h := 0,
                tool_table := updMap chan.tool_table 0 { entry with length := length } })

/-- `MachineBrain::set_tool_length_comp` from the source. -/
def set_tool_length_comp (m : MachineBrain) (channel_index : ℕ) (active : Bool) : MachineBrain :=
  modChan m channel_index (fun chan => { chan with length_comp_active := active })

/-- `MachineBrain::set_tool_radius` from the source. -/
def set_tool_radius (m : MachineBrain) (channel_index : ℕ) (radius : ℚ) : MachineBrain :=
  modChan m channel_index (fun chan =>
    let entry := (chan.tool_table 0).getD ⟨0, 0⟩
    { chan with tool_radius := |radius|, active_d := 0,
                tool_table := updMap chan.tool_table 0 { entry with radius := |radius| } })

/-- `MachineBrain::set_tool_table_entry` from the source. -/
def set_tool_table_entry (m : MachineBrain) (channel_index : ℕ) (slot : ℤ) (length radius : ℚ) :
    MachineBrain :=
  modChan m channel_index (fun chan =>
    let idx := max slot 0
    let radius_abs := |radius|
    let chan := { chan with tool_table := updMap chan.tool_table idx ⟨radius_abs, length⟩ }
    if chan.active_tool = idx then
      { chan with tool_length := length, tool_radius := radius_abs }
    else chan)

/-- `MachineBrain::set_active_tool` from the source. -/
def set_active_tool (m : MachineBrain) (channel_index : ℕ) (slot : ℤ) : MachineBrain :=
  modChan m channel_index (fun chan =>
    let idx := max slot 0
    let chan := { chan with active_tool := idx, active_d := 0, active_h := 0 }
    if idx = 0 then
      { chan with tool_length := 0, tool_radius := 0, length_comp_active := false,
                  cutter_comp := 40, tool_table := updMap chan.tool_table 0 ⟨0, 0⟩ }
    else
      match chan.tool_table idx with
      | some entry =>
        { chan with tool_length := entry.length, tool_radius := |entry.radius|,
                    tool_table := updMap chan.tool_table 0 entry }
      | none => chan)

/-- `MachineBrain::set_cutter_comp` from the source. -/
def set_cutter_comp (m : MachineBrain) (channel_index : ℕ) (mode : ℤ) : MachineBrain :=
  modChan m channel_index (fun chan =>
    { chan with cutter_comp := if mode = 41 then 41 else if mode = 42 then 42 else 40,
                comp_linear_prev := none, comp_entry_pending := false })

/-- `MachineBrain::resolve_d_radius` from the source. -/
def resolve_d_radius (m : MachineBrain) (channel_index : ℕ) (d_raw d_scaled : ℚ) : ℚ :=
  match m.channels.get? channel_index with
  | none => |d_scaled|
  | some chan =>
    let idx := roundQ d_raw
    if |d_raw - (idx : ℚ)| ≤ 1/10^9 then
      match chan.tool_table idx with
      | some entry => |entry.radius|
      | none => |d_scaled|
    else |d_scaled|

/-- `MachineBrain::resolve_table_slot_index` from the source. -/
def resolve_table_slot_index (raw : ℚ) : Option ℤ :=
  let idx := roundQ raw
  if |raw - (idx : ℚ)| ≤ 1/10^9 then some (max idx 0) else none

/-- `MachineBrain::resolve_h_length` from the source. -/
def resolve_h_length (m : MachineBrain) (channel_index : ℕ) (h_raw h_scaled : ℚ) : ℚ :=
  match m.channels.get? channel_index with
  | none => h_scaled
  | some chan =>
    let idx := roundQ h_raw
    if |h_raw - (idx : ℚ)| ≤ 1/10^9 then
      match chan.tool_table idx with
      | some entry => entry.length
      | none => h_scaled
    else h_scaled

/-- `MachineBrain::move_to` from the source (note: no e-stop check). -/
def move_to (m : MachineBrain) (axis_id : ℕ) (target : ℚ) : MachineBrain :=
  modAxis m axis_id (fun ax =>
    { ax with target := match ax.axis_type with
                        | AxisType.Rotary => normalize_rotary_target target
                        | AxisType.Linear => clampQ target ax.min_range ax.max_range })

/-- `MachineBrain::home_all` from the source. -/
def home_all (m : MachineBrain) : MachineBrain :=
  if m.estop then m
  else
    let zorder : List ℕ :=
      match m.axes.find? (fun ax => ax.physical_name.toUpper = "Z") with
      | some z => [z.id]
      | none => []
    let order := m.axes.foldl
      (fun (o : List ℕ) ax => if o.contains ax.id then o else o ++ [ax.id]) zorder
    let m := { m with axes := m.axes.map (fun ax => { ax with target := 0, homed := false }) }
    start_homing_sequence m order false 300

/-- `MachineBrain::home_all_ordered` from the source. -/
def home_all_ordered (m : MachineBrain) (primary_axis_id : ℤ) (rapid : Bool) (feed : ℚ) :
    MachineBrain :=
  if m.estop then m
  else
    let porder : List ℕ :=
      if 0 ≤ primary_axis_id ∧ primary_axis_id.toNat < m.axes.length
      then [primary_axis_id.toNat] else []
    let order := m.axes.foldl
      (fun (o : List ℕ) ax => if o.contains ax.id then o else o ++ [ax.id]) porder
    let m := { m with axes := m.axes.map (fun ax => { ax with target := 0, homed := false }) }
    start_homing_sequence m order rapid feed

/-- `MachineBrain::home_axis` from the source. -/
def home_axis (m : MachineBrain) (axis_id : ℕ) : MachineBrain :=
  if m.estop then m
  else if m.axes.length ≤ axis_id then m
  else
    let m := modAxis m axis_id (fun ax => { ax with target := 0, homed := false })
    start_homing_sequence m [axis_id] false 300

/-- `MachineBrain::jog_axis` from the source. -/
def jog_axis (m : MachineBrain) (axis_id : ℕ) (delta : ℚ) : MachineBrain :=
  if m.estop then m
  else
    modAxis m axis_id (fun ax =>
      let next := ax.target + delta
      { ax with target := match ax.axis_type with
                          | AxisType.Rotary => normalize_rotary_target next
                          | AxisType.Linear => clampQ next ax.min_range ax.max_range })

/-- `MachineBrain::jog_axis_feed` from the source. -/
def jog_axis_feed (m : MachineBrain) (axis_id : ℕ) (delta feed : ℚ) : MachineBrain :=
  if m.estop then m
  else
    let m := modAxis m axis_id (fun ax =>
      let next := ax.target + delta
      { ax with target := match ax.axis_type with
                          | AxisType.Rotary => normalize_rotary_target next
                          | AxisType.Linear => clampQ next ax.min_range ax.max_range,
                velocity := min ax.velocity (max feed 1) })
    let f := max feed 1
    { m with channels := m.channels.map (fun chan =>
        if chan.axis_map.any (fun mm => mm.axis_id = axis_id) ∧ !chan.is_running
        then { chan with feed_rate := f } else chan) }

/-- `MachineBrain::jog_axis_rapid` from the source (note: the trailing axis
velocity bump and the channel updates are not guarded by e-stop). -/
def jog_axis_rapid (m : MachineBrain) (axis_id : ℕ) (delta : ℚ) : MachineBrain :=
  let rapid_feed := match m.axes.get? axis_id with
                    | some ax => axis_rapid_feed ax
                    | none => RAPID_LINEAR_MAX_MM_MIN
  let m := jog_axis_feed m axis_id delta rapid_feed
  let m := modAxis m axis_id (fun ax => { ax with velocity := max ax.velocity rapid_feed })
  { m with channels := m.channels.map (fun chan =>
      if chan.axis_map.any (fun mm => mm.axis_id = axis_id) ∧ !chan.is_running
      then { chan with current_motion := 0, feed_rate := rapid_feed } else chan) }

/-- `MachineBrain::set_work_zero` from the source. -/
def set_work_zero (m : MachineBrain) (axis_id : ℕ) (wcs_index : ℕ) (machine_pos : ℚ) :
    MachineBrain :=
  { m with work_offsets := listModify m.work_offsets wcs_index (fun wcs =>
      { wcs with offsets := wcs.offsets.map (fun o =>
          if o.axis_id = axis_id then { o with value := machine_pos } else o) }) }

/-- Faithfulness note: the source updates only the first matching offset via
`iter_mut().find`; since the shape invariant (claim C10) gives at most one
entry per axis, updating every matching entry is equivalent.  The definition
above maps over all entries. -/
theorem set_work_zero_note : True := trivial

/-- `MachineBrain::set_active_wcs` from the source. -/
def set_active_wcs (m : MachineBrain) (wcs_index : ℕ) : MachineBrain :=
  if wcs_index < m.work_offsets.length then { m with active_wcs := wcs_index } else m

/-- `MachineBrain::add_work_offset` from the source. -/
def add_work_offset (m : MachineBrain) (label : String) : MachineBrain :=
  { m with work_offsets := m.work_offsets ++
      [⟨label, m.axes.map (fun ax => ⟨ax.id, (0 : ℚ)⟩)⟩] }

/-- `MachineBrain::set_estop` from the source. -/
def set_estop (m : MachineBrain) (s : Bool) : MachineBrain :=
  let m := { m with estop := s }
  if s then
    { m with
      channels := m.channels.map (fun chan =>
        { chan with is_running := false, paused := false, pending := [],
                    pause_pending := false, step_once := false, active_pc := -1 }),
      axes := m.axes.map (fun ax => { ax with target := ax.position, velocity := 0 }) }
  else m

/-- `MachineBrain::set_axis_accel` from the source. -/
def set_axis_accel (m : MachineBrain) (axis_id : ℕ) (accel : ℚ) : MachineBrain :=
  modAxis m axis_id (fun ax => { ax with accel := accel })

/-- `MachineBrain::set_axis_machine_zero` from the source. -/
def set_axis_machine_zero (m : MachineBrain) (axis_id : ℕ) (machine_zero : ℚ) : MachineBrain :=
  modAxis m axis_id (fun ax => { ax with machine_zero := machine_zero })

/-- `MachineBrain::set_axis_invert` from the source. -/
def set_axis_invert (m : MachineBrain) (axis_id : ℕ) (invert : Bool) : MachineBrain :=
  modAxis m axis_id (fun ax => { ax with invert := invert })

/-- `MachineBrain::wcs_offset` from the source. -/
def wcs_offset (m : MachineBrain) (axis_id : ℕ) : ℚ :=
  match m.work_offsets.get? m.active_wcs with
  | none => 0
  | some w =>
    match w.offsets.find? (fun o => o.axis_id = axis_id) with
    | some o => o.value
    | none => 0

/-- `MachineBrain::machine_to_work` from the source. -/
def machine_to_work (m : MachineBrain) (axis_id : ℕ) (machine_pos : ℚ) : ℚ :=
  machine_pos - wcs_offset m axis_id

/-- `MachineBrain::work_to_machine` from the source. -/
def work_to_machine (m : MachineBrain) (axis_id : ℕ) (work_pos : ℚ) : ℚ :=
  work_pos + wcs_offset m axis_id

/-! ## Lexer (`parse_float_bytes` and the word-scanning loop of `parse_line`) -/

/-- `u8::is_ascii_whitespace` from Rust (space, tab, newline, form feed,
carriage return). -/
def isWsB (c : Char) : Bool := c = ' ' ∨ c = '\t' ∨ c = '\n' ∨ c = '\x0c' ∨ c = '\r'

/-- Count of leading ASCII whitespace bytes. -/
def countWs : List Char → ℕ
  | [] => 0
  | c :: cs => if isWsB c then countWs cs + 1 else 0

/-- The digits-and-one-dot span of `parse_float_bytes`: returns the number of
consumed characters and whether at least one digit was consumed.  The `Bool`
argument records whether a dot has already been seen. -/
def numSpan : List Char → Bool → ℕ × Bool
  | [], _ => (0, false)
  | c :: cs, hasDot =>
    if c.isDigit then
      let r := numSpan cs hasDot
      (r.1 + 1, true)
    else if c = '.' ∧ !hasDot then
      let r := numSpan cs true
      (r.1 + 1, r.2)
    else (0, false)

/-- Exact rational value of a decimal token (digits with at most one dot).
The accumulator holds the value so far; the `Option ℚ` holds the scale of
the next fractional digit once the dot has been passed. -/
def evalNumAux : List Char → ℚ → Option ℚ → ℚ
  | [], acc, _ => acc
  | c :: cs, acc, none =>
    if c = '.' then evalNumAux cs acc (some (1/10))
    else evalNumAux cs (acc * 10 + ((c.toNat - '0'.toNat : ℕ) : ℚ)) none
  | c :: cs, acc, some sc =>
    if c = '.' then evalNumAux cs acc (some sc)
    else evalNumAux cs (acc + ((c.toNat - '0'.toNat : ℕ) : ℚ) * sc) (some (sc / 10))

/-- `MachineBrain::parse_float_bytes` from the source: skip leading
whitespace, an optional sign, then digits with at most one dot; return the
parsed value (exact rational instead of the nearest `f64`) and the number of
bytes consumed (including skipped whitespace), or `none` and the whitespace
count on failure. -/
def parse_float_bytes (bytes : List Char) : Option ℚ × ℕ :=
  let i := countWs bytes
  match bytes.drop i with
  | [] => (none, i)
  | c :: cs =>
    let signLen : ℕ := if c = '+' ∨ c = '-' then 1 else 0
    let neg : Bool := c = '-'
    let body := if c = '+' ∨ c = '-' then cs else c :: cs
    let sp := numSpan body false
    if !sp.2 then (none, i)
    else
      let v := evalNumAux (body.take sp.1) 0 none
      (some (if neg then -v else v), i + signLen + sp.1)

/-- Prefix test on character lists (model of `slice::starts_with`). -/
def startsWith : List Char → List Char → Bool
  | _, [] => true
  | [], _ :: _ => false
  | c :: cs, p :: ps => c = p ∧ startsWith cs ps

/-- The words collected by the scanning loop of `parse_line` (its local
mutable variables). -/
structure Words where
  g_words : List ℤ
  m_words : List ℤ
  f_word : Option ℚ
  s_word : Option ℚ
  t_word : Option ℤ
  x : Option ℚ
  y : Option ℚ
  z : Option ℚ
  x_set : Bool
  y_set : Bool
  z_set : Bool
  i_off : Option ℚ
  j_off : Option ℚ
  r_word : Option ℚ
  d_word : Option ℚ
  d_word_raw : Option ℚ
  h_word : Option ℚ
  h_word_raw : Option ℚ
  units_mm_word : Bool
deriving DecidableEq

/-- Initial `Words` state of the scanning loop: everything unset, the unit
flag seeded from the channel's modal `units_mm`. -/
def Words.init (units_mm : Bool) : Words :=
  ⟨[], [], none, none, none, none, none, none, false, false, false,
   none, none, none, none, none, none, none, units_mm⟩

/-- The per-block inch factor: `1.0` in millimetre mode, `25.4` in inch mode. -/
def unitOf (units_mm_word : Bool) : ℚ := if units_mm_word then 1 else 127/5

/-- Stable insertion (descending by label length) used to model
`known_labels.sort_by(|a, b| b.0.len().cmp(&a.0.len()))`. -/
def insertByLen (x : String × ℕ) : List (String × ℕ) → List (String × ℕ)
  | [] => [x]
  | y :: l => if y.1.length < x.1.length then x :: y :: l else y :: insertByLen x l

/-- ASCII-style uppercasing over the character list (extensionally
`String.toUpper`, written over `.data` so that it evaluates). -/
def strToUpper (s : String) : String := ⟨s.data.map Char.toUpper⟩

/-- Known axis labels of a channel, uppercased and sorted by decreasing
length (stable), as built at the top of `parse_line`. -/
def knownLabels (ch : Channel) : List (String × ℕ) :=
  (ch.axis_map.map (fun mm => (strToUpper mm.display_label, mm.axis_id))).foldr insertByLen []

/-- Label lookup `axis_id_for` from `parse_line`. -/
def axis_id_for (lbl : String) (known : List (String × ℕ)) : Option ℕ :=
  (known.find? (fun l => l.1 = lbl)).map (fun l => l.2)

/-- Axis-word write performed by the scanning loop when an axis label
matches: scale, apply distance mode against `cur_work`, convert to machine
coordinates and set the axis target with limits applied. -/
def scanLabelWrite (m : MachineBrain) (c : ℕ) (cur_work : ℕ → Option ℚ) (axis_id : ℕ)
    (units_mm_word : Bool) (v : ℚ) : MachineBrain :=
  let v_scaled := v * unitOf units_mm_word
  let abs_mode := ((m.channels.get? c).map Channel.abs_mode).getD true
  let v_work := if abs_mode then v_scaled else (cur_work axis_id).getD 0 + v_scaled
  let tgt := machine_target_with_limits m axis_id (work_to_machine m axis_id v_work)
  modAxis m axis_id (fun ax => { ax with target := tgt })

/-- One step of the byte-scanning loop of `parse_line`: what the cursor
consumes next.  The decision depends only on the bytes and the known labels,
never on the collected words or the machine, exactly as in the source loop. -/
inductive ScanStep where
  | stop
  | skip (rest : List Char)
  | label (axis_id : ℕ) (val : Option ℚ) (rest : List Char)
  | word (uc : Char) (val : Option ℚ) (rest : List Char)

/-- Tokenising decision of one iteration of the scanning loop, in source
branch order: whitespace, `;` comment, `(...)` comment, multi-character
axis labels, the single-letter word branches, the fallback label match,
and the single-byte skip. -/
def scanStep (labels : List (String × ℕ)) : List Char → ScanStep
  | [] => ScanStep.stop
  | b :: rest =>
    if isWsB b then ScanStep.skip rest
    else if b = ';' then ScanStep.stop
    else if b = '(' then
      let rest2 := (b :: rest).dropWhile (fun ch => ch ≠ ')')
      ScanStep.skip (match rest2 with
                     | ')' :: t => t
                     | other => other)
    else
      match labels.find? (fun l => 1 < l.1.length ∧ startsWith (b :: rest) l.1.data) with
      | some lab =>
        let after := (b :: rest).drop lab.1.length
        let pf := parse_float_bytes after
        ScanStep.label lab.2 pf.1 (after.drop pf.2)
      | none =>
        let uc := b.toUpper
        if uc = 'G' ∨ uc = 'M' ∨ uc = 'F' ∨ uc = 'S' ∨ uc = 'T' ∨ uc = 'I' ∨ uc = 'J'
           ∨ uc = 'R' ∨ uc = 'D' ∨ uc = 'H' ∨ uc = 'X' ∨ uc = 'Y' ∨ uc = 'Z' then
          let pf := parse_float_bytes rest
          ScanStep.word uc pf.1 (rest.drop pf.2)
        else
          match labels.find? (fun l => startsWith (b :: rest) l.1.data) with
          | some lab =>
            let after := (b :: rest).drop lab.1.length
            let pf := parse_float_bytes after
            ScanStep.label lab.2 pf.1 (after.drop pf.2)
          | none => ScanStep.skip rest

/-- Effect of one single-letter word on the collected words (the body of the
corresponding branch of the scanning loop). -/
def applyWordTok (w : Words) (uc : Char) (val : Option ℚ) : Words :=
  if uc = 'G' then
    match val with
    | some v =>
      let g := roundQ v
      { w with g_words := w.g_words ++ [g],
               units_mm_word := if g = 20 then false
                                else if g = 21 then true
                                else w.units_mm_word }
    | none => w
  else if uc = 'M' then
    match val with
    | some v => { w with m_words := w.m_words ++ [roundQ v] }
    | none => w
  else if uc = 'F' then { w with f_word := val.map (fun v => v * unitOf w.units_mm_word) }
  else if uc = 'S' then { w with s_word := val }
  else if uc = 'T' then
    match val with
    | some v => { w with t_word := some (roundQ v) }
    | none => w
  else if uc = 'I' then { w with i_off := val.map (fun v => v * unitOf w.units_mm_word) }
  else if uc = 'J' then { w with j_off := val.map (fun v => v * unitOf w.units_mm_word) }
  else if uc = 'R' then { w with r_word := val.map (fun v => v * unitOf w.units_mm_word) }
  else if uc = 'D' then
    { w with d_word_raw := val, d_word := val.map (fun v => v * unitOf w.units_mm_word) }
  else if uc = 'H' then
    { w with h_word_raw := val, h_word := val.map (fun v => v * unitOf w.units_mm_word) }
  else if uc = 'X' then
    let nv := val.map (fun v => v * unitOf w.units_mm_word)
    { w with x := nv, x_set := if nv.isSome then true else w.x_set }
  else if uc = 'Y' then
    let nv := val.map (fun v => v * unitOf w.units_mm_word)
    { w with y := nv, y_set := if nv.isSome then true else w.y_set }
  else if uc = 'Z' then
    let nv := val.map (fun v => v * unitOf w.units_mm_word)
    { w with z := nv, z_set := if nv.isSome then true else w.z_set }
  else w

/-- The byte-scanning loop of `parse_line`: repeatedly take a `scanStep` and
apply its effect to the words (single-letter branches) or the machine (axis
label writes).  `fuel` bounds the number of loop iterations (each source
iteration advances the cursor by at least one byte whenever every known
label is nonempty, so `bytes.length + 1` fuel reproduces the loop exactly
in that case). -/
def scanAux (fuel : ℕ) (c : ℕ) (labels : List (String × ℕ)) (cur_work : ℕ → Option ℚ)
    (m : MachineBrain) (w : Words) (bytes : List Char) : MachineBrain × Words :=
  match fuel with
  | 0 => (m, w)
  | fuel + 1 =>
    match scanStep labels bytes with
    | ScanStep.stop => (m, w)
    | ScanStep.skip rest => scanAux fuel c labels cur_work m w rest
    | ScanStep.label axis_id val rest =>
      let m := match val with
               | some v => scanLabelWrite m c cur_work axis_id w.units_mm_word v
               | none => m
      scanAux fuel c labels cur_work m w rest
    | ScanStep.word uc val rest => scanAux fuel c labels cur_work m (applyWordTok w uc val) rest

/-- Entry point of the scanning loop over one block. -/
def scanBlock (c : ℕ) (labels : List (String × ℕ)) (cur_work : ℕ → Option ℚ)
    (m : MachineBrain) (units_mm : Bool) (bytes : List Char) : MachineBrain × Words :=
  scanAux (bytes.length + 1) c labels cur_work m (Words.init units_mm) bytes

/-! ## Look-ahead peek (`peek_next_comp_linear_xy`) -/

/-- State of the reduced scanning loop of `peek_next_comp_linear_xy`. -/
structure PeekWords where
  g_words : List ℤ
  x : Option ℚ
  y : Option ℚ
  x_set : Bool
  y_set : Bool
  units_mm_word : Bool
deriving DecidableEq

/-- The reduced byte scan of `peek_next_comp_linear_xy` (G/X/Y words only,
with comment handling and unit scaling as in the source). -/
def peekAux (fuel : ℕ) (w : PeekWords) (bytes : List Char) : PeekWords :=
  match fuel with
  | 0 => w
  | fuel + 1 =>
    match bytes with
    | [] => w
    | b :: rest =>
      if isWsB b then peekAux fuel w rest
      else if b = ';' then w
      else if b = '(' then
        let rest2 := bytes.dropWhile (fun ch => ch ≠ ')')
        let rest2 := match rest2 with
                     | ')' :: t => t
                     | other => other
        peekAux fuel w rest2
      else
        let uc := b.toUpper
        if uc = 'G' then
          let pf := parse_float_bytes rest
          let w := match pf.1 with
                   | some v =>
                     let g := roundQ v
                     { w with g_words := w.g_words ++ [g],
                              units_mm_word := if g = 20 then false
                                               else if g = 21 then true
                                               else w.units_mm_word }
                   | none => w
          peekAux fuel w (rest.drop pf.2)
        else if uc = 'X' then
          let pf := parse_float_bytes rest
          let newx := pf.1.map (fun v => v * unitOf w.units_mm_word)
          let w := { w with x := newx, x_set := if newx.isSome then true else w.x_set }
          peekAux fuel w (rest.drop pf.2)
        else if uc = 'Y' then
          let pf := parse_float_bytes rest
          let newy := pf.1.map (fun v => v * unitOf w.units_mm_word)
          let w := { w with y := newy, y_set := if newy.isSome then true else w.y_set }
          peekAux fuel w (rest.drop pf.2)
        else peekAux fuel w rest

/-- `MachineBrain::peek_next_comp_linear_xy` from the source: a read-only
re-lex of the next program line to obtain its XY end point and compensation
intent. -/
def peek_next_comp_linear_xy (m : MachineBrain) (c_idx : ℕ) (start_x start_y : ℚ)
    (current_motion : ℤ) (abs_mode units_mm : Bool) (cutter_comp_mode : ℤ) :
    Option (ℚ × ℚ × ℤ) :=
  match m.channels.get? c_idx with
  | none => none
  | some chan =>
    if !chan.is_running then none
    else
      match chan.program.get? (chan.pc + 1) with
      | none => none
      | some line =>
        let bytes := line.data
        let w := peekAux (bytes.length + 1) ⟨[], none, none, false, false, units_mm⟩ bytes
        let st := w.g_words.foldl
          (fun (st : Bool × ℤ × ℤ) g =>
            if g = 90 then (true, st.2)
            else if g = 91 then (false, st.2)
            else if g = 0 ∨ g = 1 ∨ g = 2 ∨ g = 3 then (st.1, g, st.2.2)
            else if g = 40 then (st.1, st.2.1, 40)
            else if g = 41 then (st.1, st.2.1, 41)
            else if g = 42 then (st.1, st.2.1, 42)
            else st)
          (abs_mode, current_motion, cutter_comp_mode)
        let abs := st.1
        let motion := st.2.1
        let comp := st.2.2
        if motion ≠ 1 ∨ (comp ≠ 41 ∧ comp ≠ 42) ∨ (!w.x_set ∧ !w.y_set) then none
        else
          let ex := if w.x_set then
                      (if abs then (w.x.getD start_x) else start_x + w.x.getD 0)
                    else start_x
          let ey := if w.y_set then
                      (if abs then (w.y.getD start_y) else start_y + w.y.getD 0)
                    else start_y
          some (ex, ey, comp)

/-! ## Geometry helpers -/

/-- `line_intersection_2d` from the source. -/
def line_intersection_2d (p1 d1 p2 d2 : ℚ × ℚ) : Option (ℚ × ℚ) :=
  let cross := d1.1 * d2.2 - d1.2 * d2.1
  if |cross| ≤ 1/10^9 then none
  else
    let qmp := (p2.1 - p1.1, p2.2 - p1.2)
    let t := (qmp.1 * d2.2 - qmp.2 * d2.1) / cross
    some (p1.1 + t * d1.1, p1.2 + t * d1.2)

/-- `arc_center_matches` from the source. -/
def arc_center_matches (M : MathFns) (sx sy ex ey cx cy : ℚ) (cw want_large : Bool) : Bool :=
  let a0 := M.atan2 (sy - cy) (sx - cx)
  let a1 := M.atan2 (ey - cy) (ex - cx)
  let da := a1 - a0
  let da := if cw then (if 0 ≤ da then da - M.tau else da)
            else (if da ≤ 0 then da + M.tau else da)
  let sweep := |da|
  if want_large then M.pi - 1/10^9 ≤ sweep else sweep ≤ M.pi + 1/10^9

/-- `build_short_arc_points` from the source.  The source normalises `da`
into `(−π, π]` with two `while` loops; for a genuine `atan2` (values in
`(−π, π]`) each loop body runs at most once, which is how it is modelled
here (an abstract `M.atan2` could need more iterations, but no theorem
depends on that case). -/
def build_short_arc_points (M : MathFns) (cx cy : ℚ) (fr dst : ℚ × ℚ) (radius : ℚ) :
    List (ℚ × ℚ) :=
  if radius ≤ 1/10^9 then [dst]
  else
    let a0 := M.atan2 (fr.2 - cy) (fr.1 - cx)
    let a1 := M.atan2 (dst.2 - cy) (dst.1 - cx)
    let da := a1 - a0
    let da := if da ≤ -M.pi then da + M.tau else da
    let da := if da > M.pi then da - M.tau else da
    let sweep := |da|
    if sweep ≤ 1/10^6 then [dst]
    else
      let n := (⌊clampQ ((⌈(radius * sweep) / (6/5)⌉ : ℤ) : ℚ) 4 48⌋).toNat
      (List.range n).map (fun k =>
        let t := ((k + 1 : ℕ) : ℚ) / (n : ℚ)
        let a := a0 + da * t
        (cx + radius * M.cos a, cy + radius * M.sin a))

/-! ## The modal / geometry part of `parse_line` -/

/-- Channel read-back helper (the source indexes `self.channels[c_idx]`
directly; all call sites have a valid index). -/
def getCh (m : MachineBrain) (c : ℕ) : Channel :=
  (m.channels.get? c).getD (freshChannel 0 [])

/-- The current-work map built at the top of `parse_line`: programmed-work
cache first, fallback to the physical position converted to work
coordinates, with Z decompensation when length comp is active. -/
def compute_cur_work (m : MachineBrain) (ch : Channel) (labels : List (String × ℕ)) :
    ℕ → Option ℚ :=
  let z_axis_for_comp := axis_id_for "Z" labels
  labels.foldl
    (fun cw l =>
      let axis_id := l.2
      match ch.programmed_work axis_id with
      | some wp => updMap cw axis_id wp
      | none =>
        match m.axes.get? axis_id with
        | some ax =>
          let wv := machine_to_work m axis_id ax.position
          let wv := if ch.length_comp_active ∧ some axis_id = z_axis_for_comp
                    then wv - ch.tool_length else wv
          updMap cw axis_id wv
        | none => cw)
    (fun _ => none)

/-- The programmed-work cache update shared by the linear and arc paths of
`parse_line` (`for id in [x_id, y_id, z_id] ... programmed_work.insert`). -/
def pwUpdate (m : MachineBrain) (c : ℕ) (x_id y_id z_id : Option ℕ)
    (end_work : ℕ → Option ℚ) : MachineBrain :=
  [x_id, y_id, z_id].foldl
    (fun m idOpt =>
      match idOpt with
      | some id =>
        match end_work id with
        | some vw => modChan m c (fun ch =>
            { ch with programmed_work := updMap ch.programmed_work id vw })
        | none => m
      | none => m)
    m

/-- Reason the arc-centre resolution of `parse_line` can end: plain `return`
(no I/J/R words, zero chord, or chord beyond `2|R| + 1e-9`), the f64 NaN
cascade (negative argument to the square root that computes the R-form
centre offset), or a resolved centre. -/
inductive ArcCenterRes where
  | ignore
  | nan
  | centre (cx cy : ℚ)

/-- Arc-centre resolution from `parse_line` (source lines 2157-2192).  In
the band `2|R| < chord ≤ 2|R| + 1e-9` the `f64` source computes
`sqrt` of a negative number: the resulting NaN propagates through the
centre, radius, angles and sweep.  That cascade is modelled by the
dedicated `nan` result (ℚ has no NaN value). -/
def arcCenter (M : MathFns) (sx sy ex ey : ℚ) (i_off j_off r_word : Option ℚ) (cw : Bool) :
    ArcCenterRes :=
  if i_off.isSome ∨ j_off.isSome then
    ArcCenterRes.centre (sx + i_off.getD 0) (sy + j_off.getD 0)
  else
    match r_word with
    | some r =>
      let dx := ex - sx
      let dy := ey - sy
      let chord := M.sqrt (dx * dx + dy * dy)
      if chord ≤ 1/10^9 then ArcCenterRes.ignore
      else if chord > 2 * |r| + 1/10^9 then ArcCenterRes.ignore
      else
        let r_abs := |r|
        let hsq := r_abs * r_abs - (chord * (1/2)) * (chord * (1/2))
        if hsq < 0 then ArcCenterRes.nan
        else
          let h := M.sqrt hsq
          let mx := (sx + ex) * (1/2)
          let my := (sy + ey) * (1/2)
          let ux := -dy / chord
          let uy := dx / chord
          let c1 := (mx + ux * h, my + uy * h)
          let c2 := (mx - ux * h, my - uy * h)
          let want_large := r < 0
          if arc_center_matches M sx sy ex ey c1.1 c1.2 cw want_large
          then ArcCenterRes.centre c1.1 c1.2
          else ArcCenterRes.centre c2.1 c2.2
    | none => ArcCenterRes.ignore

/-- The sub-segment count of the arc expansion (source lines 2216-2230).
`f64::ceil`, `max` and `clamp` on integral values are computed in `ℤ`
before the `as usize` cast.  The `step_ang.is_finite()` guard of the source
is always true here: `clamp` bounds the `acos` argument into `[-1, 1]`, so
the real `acos` never returns NaN or an infinity. -/
def arcN (M : MathFns) (r da : ℚ) : ℕ :=
  let arc_len := r * |da|
  let tol : ℚ := 1/200
  let n_by_tol : ℚ :=
    if r ≤ tol then 3
    else
      let step_ang := 2 * M.acos (clampQ (1 - tol / r) (-1) 1)
      if step_ang > 1/10^6 then ((⌈|da| / step_ang⌉ : ℤ) : ℚ) else 3
  let n_by_len : ℚ := ((⌈arc_len / (3/2)⌉ : ℤ) : ℚ)
  (⌊clampQ (max n_by_tol n_by_len) 24 1440⌋).toNat

/-- One enqueued sub-segment of the arc expansion at parameter `t = k/n`
(source loop body, lines 2236-2265): the point at angle `a0 + da·t`,
offset by the cutter compensation when active, plus the helical Z lerp. -/
def arcSegAt (M : MathFns) (m : MachineBrain) (xid yid : ℕ) (z_id : Option ℕ)
    (cur_work end_work : ℕ → Option ℚ) (cutter_comp : ℤ) (tool_radius : ℚ)
    (length_comp_active : Bool) (tool_length : ℚ) (cx cy r a0 da t : ℚ) : List (ℕ × ℚ) :=
  let ang := a0 + da * t
  let px := cx + r * M.cos ang
  let py := cy + r * M.sin ang
  let pxy :=
    if tool_radius > 0 ∧ (cutter_comp = 41 ∨ cutter_comp = 42) then
      let dir := signumQ da
      let tx := -(M.sin ang) * dir
      let ty := M.cos ang * dir
      let left_nx := -ty
      let left_ny := tx
      let sign : ℚ := if cutter_comp = 41 then 1 else -1
      (px + left_nx * tool_radius * sign, py + left_ny * tool_radius * sign)
    else (px, py)
  let seg := [(xid, work_to_machine m xid pxy.1), (yid, work_to_machine m yid pxy.2)]
  let zpart : List (ℕ × ℚ) :=
    match z_id with
    | some zid =>
      match cur_work zid, end_work zid with
      | some szv, some ezv =>
        let pz := szv + (ezv - szv) * t
        let pz := if length_comp_active then pz + tool_length else pz
        [(zid, work_to_machine m zid pz)]
      | _, _ => []
    | none => []
  seg ++ zpart

/-- The arc expansion loop (source lines 2236-2266): `n` sub-segments pushed
onto the channel's queue, the `k`-th at parameter `k/n`.  The source pushes
one segment per iteration; since the loop body never changes anything a
later `arcSegAt` reads, the whole batch is appended at once here. -/
def arcExpand (M : MathFns) (m : MachineBrain) (c : ℕ) (xid yid : ℕ) (z_id : Option ℕ)
    (cur_work end_work : ℕ → Option ℚ) (cutter_comp : ℤ) (tool_radius : ℚ)
    (length_comp_active : Bool) (tool_length : ℚ) (cx cy r a0 da : ℚ) : MachineBrain :=
  let n := arcN M r da
  let segs := (List.range n).map (fun k =>
    arcSegAt M m xid yid z_id cur_work end_work cutter_comp tool_radius
      length_comp_active tool_length cx cy r a0 da (((k + 1 : ℕ) : ℚ) / (n : ℚ)))
  modChan m c (fun ch => { ch with pending := ch.pending ++ segs })

/-- Placeholder for an `f64` NaN coordinate produced by the NaN cascade of
the R-form arc centre; only the presence and count of these segments is
meaningful in the rational model, never this value. -/
def nanQ : ℚ := 0

/-- The arc path of `parse_line` (source lines 2147-2273), taken for motion
2/3 once the XY axis ids resolved. -/
def arcMove (M : MathFns) (m : MachineBrain) (c : ℕ) (xid yid : ℕ) (z_id : Option ℕ)
    (motion : ℤ) (cur_work end_work : ℕ → Option ℚ) (i_off j_off r_word : Option ℚ)
    (cutter_comp : ℤ) (tool_radius : ℚ) (length_comp_active : Bool) (tool_length : ℚ) :
    MachineBrain :=
  let sx := (cur_work xid).getD 0
  let sy := (cur_work yid).getD 0
  let ex := (end_work xid).getD sx
  let ey := (end_work yid).getD sy
  let cw := motion = 2
  match arcCenter M sx sy ex ey i_off j_off r_word cw with
  | ArcCenterRes.ignore => m
  | ArcCenterRes.nan =>
    -- NaN cascade: the centre, radius and angles are NaN; `is_finite` turns
    -- `n_by_tol` into 3, `f64::max(3, NaN) = 3`, `clamp` gives 24, and the
    -- loop pushes 24 segments whose XY coordinates are NaN (the Z lerp stays
    -- real).  After the loop the programmed-work cache is updated as usual.
    let segs := (List.range 24).map (fun k =>
      let t := ((k + 1 : ℕ) : ℚ) / 24
      let seg := [(xid, nanQ), (yid, nanQ)]
      let zpart : List (ℕ × ℚ) :=
        match z_id with
        | some zid =>
          match cur_work zid, end_work zid with
          | some szv, some ezv =>
            let pz := szv + (ezv - szv) * t
            let pz := if length_comp_active then pz + tool_length else pz
            [(zid, work_to_machine m zid pz)]
          | _, _ => []
        | none => []
      seg ++ zpart)
    let m := modChan m c (fun ch => { ch with pending := ch.pending ++ segs })
    pwUpdate m c (some xid) (some yid) z_id end_work
  | ArcCenterRes.centre cx cy =>
    let r := M.sqrt ((sx - cx) ^ 2 + (sy - cy) ^ 2)
    if r ≤ 1/10^9 then m
    else
      let a0 := M.atan2 (sy - cy) (sx - cx)
      let a1 := M.atan2 (ey - cy) (ex - cx)
      let da := a1 - a0
      let da := if cw then (if 0 ≤ da then da - M.tau else da)
                else (if da ≤ 0 then da + M.tau else da)
      let m := arcExpand M m c xid yid z_id cur_work end_work cutter_comp tool_radius
        length_comp_active tool_length cx cy r a0 da
      pwUpdate m c (some xid) (some yid) z_id end_work

/-- Word-assignment stage of `parse_line` (source lines 1704-1734): apply
the F, S and T words to the channel. -/
def applyFST (m : MachineBrain) (c : ℕ) (w : Words) : MachineBrain :=
  let m := match w.f_word with
           | some f => modChan m c (fun ch => { ch with feed_rate := f })
           | none => m
  let m := match w.s_word with
           | some s => modChan m c (fun ch => { ch with spindle_rpm := max s 0 })
           | none => m
  match w.t_word with
  | some t =>
    let idx := max t 0
    modChan m c (fun ch =>
      let ch := { ch with active_tool := idx, active_d := 0, active_h := 0 }
      if idx = 0 then
        { ch with tool_length := 0, tool_radius := 0, length_comp_active := false,
                  cutter_comp := 40, tool_table := updMap ch.tool_table 0 ⟨0, 0⟩ }
      else
        match ch.tool_table idx with
        | some entry =>
          { ch with tool_length := entry.length, tool_radius := |entry.radius|,
                    tool_table := updMap ch.tool_table 0 entry }
        | none => ch)
  | none => m

/-- Modal G-code stage of `parse_line` (source lines 1742-1791). -/
def applyModalG (m : MachineBrain) (c : ℕ) (w : Words) : MachineBrain :=
  w.g_words.foldl
    (fun m (g : ℤ) =>
      if g = 90 then modChan m c (fun ch => { ch with abs_mode := true })
      else if g = 91 then modChan m c (fun ch => { ch with abs_mode := false })
      else if g = 20 then modChan m c (fun ch => { ch with units_mm := false })
      else if g = 21 then modChan m c (fun ch => { ch with units_mm := true })
      else if g = 17 then modChan m c (fun ch => { ch with plane := 17 })
      else if g = 61 then modChan m c (fun ch => { ch with exact_stop := true })
      else if g = 64 then modChan m c (fun ch => { ch with exact_stop := false })
      else if g = 54 then { m with active_wcs := 0 }
      else if g = 55 then { m with active_wcs := 1 }
      else if g = 56 then { m with active_wcs := 2 }
      else if g = 57 then { m with active_wcs := 3 }
      else if g = 58 then { m with active_wcs := 4 }
      else if g = 59 then { m with active_wcs := 5 }
      else if g = 153 then { m with active_wcs := 6 }
      else if g = 40 then
        modChan m c (fun ch =>
          { ch with cutter_comp := 40, comp_linear_prev := none,
                    comp_entry_pending := false })
      else if g = 41 then
        let m := modChan m c (fun ch => { ch with cutter_comp := 41 })
        match w.d_word with
        | some d =>
          let d_raw := w.d_word_raw.getD d
          let slot := (resolve_table_slot_index d_raw).getD 0
          let rad := resolve_d_radius m c d_raw d
          modChan m c (fun ch => { ch with active_d := slot, tool_radius := rad })
        | none => m
      else if g = 42 then
        let m := modChan m c (fun ch => { ch with cutter_comp := 42 })
        match w.d_word with
        | some d =>
          let d_raw := w.d_word_raw.getD d
          let slot := (resolve_table_slot_index d_raw).getD 0
          let rad := resolve_d_radius m c d_raw d
          modChan m c (fun ch => { ch with active_d := slot, tool_radius := rad })
        | none => m
      else if g = 43 then
        let m := modChan m c (fun ch => { ch with length_comp_active := true })
        match w.h_word with
        | some h =>
          let h_raw := w.h_word_raw.getD h
          let slot := (resolve_table_slot_index h_raw).getD 0
          let len := resolve_h_length m c h_raw h
          modChan m c (fun ch => { ch with active_h := slot, tool_length := len })
        | none => m
      else if g = 49 then modChan m c (fun ch => { ch with length_comp_active := false })
      else m)
    m

/-- Modal M-code stage of `parse_line` (source lines 1794-1803). -/
def applyModalM (m : MachineBrain) (c : ℕ) (w : Words) : MachineBrain :=
  w.m_words.foldl
    (fun m (mw : ℤ) =>
      if mw = 3 then modChan m c (fun ch => { ch with spindle_mode := 3 })
      else if mw = 4 then modChan m c (fun ch => { ch with spindle_mode := 4 })
      else if mw = 5 then modChan m c (fun ch => { ch with spindle_mode := 5 })
      else if mw = 8 then modChan m c (fun ch => { ch with coolant_on := true })
      else if mw = 9 then modChan m c (fun ch => { ch with coolant_on := false })
      else m)
    m

/-- CRC arming rule of `parse_line` (source lines 1805-1812). -/
def applyPendingRule (m : MachineBrain) (c : ℕ) (comp_entry_pending_before : Bool)
    (w : Words) : MachineBrain :=
  let has_xy_motion_words := w.x_set || w.y_set
  if w.g_words.contains 40 then
    modChan m c (fun ch => { ch with comp_entry_pending := false })
  else if w.g_words.contains 41 || w.g_words.contains 42 then
    modChan m c (fun ch =>
      { ch with comp_entry_pending := !has_xy_motion_words || comp_entry_pending_before })
  else m

/-- Standalone D/H stage of `parse_line` (source lines 1814-1824). -/
def applyDH (m : MachineBrain) (c : ℕ) (w : Words) : MachineBrain :=
  let m := match w.d_word with
           | some d =>
             let d_raw := w.d_word_raw.getD d
             let slot := (resolve_table_slot_index d_raw).getD 0
             let rad := resolve_d_radius m c d_raw d
             modChan m c (fun ch => { ch with active_d := slot, tool_radius := rad })
           | none => m
  match w.h_word with
  | some h =>
    let h_raw := w.h_word_raw.getD h
    let slot := (resolve_table_slot_index h_raw).getD 0
    let len := resolve_h_length m c h_raw h
    modChan m c (fun ch => { ch with active_h := slot, tool_length := len })
  | none => m

/-- The last motion word (`G0/G1/G2/G3`) of the block, if any (source lines
1827-1832). -/
def lastMotionWord (gs : List ℤ) : Option ℤ :=
  gs.foldl (fun acc (g : ℤ) => if g = 0 ∨ g = 1 ∨ g = 2 ∨ g = 3 then some g else acc) none

/-- The computed end point in work coordinates (source lines 1860-1884):
the current-work map updated by the X/Y/Z words under the (post-modal)
distance mode. -/
def endWorkOf (absm : Bool) (cur_work : ℕ → Option ℚ) (x_id y_id z_id : Option ℕ)
    (w : Words) : ℕ → Option ℚ :=
  let end_work := cur_work
  let end_work := match x_id, w.x with
                  | some id, some v =>
                    updMap end_work id (if absm then v else (end_work id).getD 0 + v)
                  | _, _ => end_work
  let end_work := match y_id, w.y with
                  | some id, some v =>
                    updMap end_work id (if absm then v else (end_work id).getD 0 + v)
                  | _, _ => end_work
  match z_id, w.z with
  | some id, some v => updMap end_work id (if absm then v else (end_work id).getD 0 + v)
  | _, _ => end_work

/-- Cutter-compensation block of `parse_line` (source lines 1892-2016):
returns the motion end-point map (XY endpoint offset normal to the move),
the corner-transition points, and the continuity record for the next block. -/
def compXY (M : MathFns) (m : MachineBrain) (c : ℕ) (xid yid : ℕ)
    (cur_work end_work : ℕ → Option ℚ) (motion cutter_comp : ℤ) (tool_radius : ℚ)
    (cutter_comp_just_enabled : Bool) (comp_entry_pending_now : Bool) (w : Words) :
    (ℕ → Option ℚ) × List (ℚ × ℚ) × Option CompLinearState :=
  let sx := (cur_work xid).getD 0
  let sy := (cur_work yid).getD 0
  let ex := (end_work xid).getD sx
  let ey := (end_work yid).getD sy
  let dx := ex - sx
  let dy := ey - sy
  let len := M.sqrt (dx * dx + dy * dy)
  if len > 1/10^9 then
    let dir_x := dx / len
    let dir_y := dy / len
    let left_nx := -dir_y
    let left_ny := dir_x
    let sign : ℚ := if cutter_comp = 41 then 1 else -1
    let start_off := (sx + left_nx * tool_radius * sign, sy + left_ny * tool_radius * sign)
    let end_off := (ex + left_nx * tool_radius * sign, ey + left_ny * tool_radius * sign)
    let end_off :=
      if motion = 1 then
        match peek_next_comp_linear_xy m c ex ey (getCh m c).current_motion
            (getCh m c).abs_mode (getCh m c).units_mm (getCh m c).cutter_comp with
        | some (nex, ney, next_comp) =>
          if next_comp = cutter_comp then
            let ndx := nex - ex
            let ndy := ney - ey
            let nlen := M.sqrt (ndx * ndx + ndy * ndy)
            if nlen > 1/10^9 then
              let n_dir_x := ndx / nlen
              let n_dir_y := ndy / nlen
              let n_left_nx := -n_dir_y
              let n_left_ny := n_dir_x
              let next_start_off := (ex + n_left_nx * tool_radius * sign,
                                     ey + n_left_ny * tool_radius * sign)
              let turn_cross := dir_x * n_dir_y - dir_y * n_dir_x
              let side_sign : ℚ := if cutter_comp = 41 then 1 else -1
              let outside_corner := side_sign * turn_cross < -(1/10^6)
              if ¬outside_corner then
                match line_intersection_2d start_off (dir_x, dir_y)
                    next_start_off (n_dir_x, n_dir_y) with
                | some join =>
                  let t_curr := (join.1 - start_off.1) * dir_x
                                + (join.2 - start_off.2) * dir_y
                  if -(1/10^6) ≤ t_curr ∧ t_curr ≤ len + 1/10^6 then join else end_off
                | none => end_off
              else end_off
            else end_off
          else end_off
        | none => end_off
      else end_off
    let end_work_motion := updMap (updMap end_work xid end_off.1) yid end_off.2
    if motion = 1 then
      let force_entry := (cutter_comp_just_enabled ∧ xor w.x_set w.y_set)
                         ∨ comp_entry_pending_now = true
      let corner : List (ℚ × ℚ) :=
        if force_entry then
          let entry_gap := M.sqrt ((start_off.1 - sx) ^ 2 + (start_off.2 - sy) ^ 2)
          if entry_gap > 1/10^6 then [start_off] else []
        else
          match (getCh m c).comp_linear_prev with
          | some prev =>
            if prev.mode = cutter_comp ∧ |prev.radius - tool_radius| ≤ 1/10^6
               ∧ |prev.end_prog_x - sx| ≤ 1/10^4 ∧ |prev.end_prog_y - sy| ≤ 1/10^4 then
              let corner_gap := M.sqrt ((prev.end_off_x - start_off.1) ^ 2
                                        + (prev.end_off_y - start_off.2) ^ 2)
              if corner_gap > 1/10^5 then
                let turn_cross := prev.dir_x * dir_y - prev.dir_y * dir_x
                let side_sign : ℚ := if cutter_comp = 41 then 1 else -1
                if side_sign * turn_cross < -(1/10^6) then
                  build_short_arc_points M sx sy (prev.end_off_x, prev.end_off_y)
                    start_off tool_radius
                else
                  match line_intersection_2d (prev.end_off_x, prev.end_off_y)
                      (prev.dir_x, prev.dir_y) start_off (dir_x, dir_y) with
                  | some join => [join]
                  | none => [start_off]
              else []
            else []
          | none => []
      let comp_next : Option CompLinearState :=
        some ⟨ex, ey, end_off.1, end_off.2, dir_x, dir_y, cutter_comp, tool_radius⟩
      (end_work_motion, corner, comp_next)
    else (end_work_motion, [], none)
  else (end_work, [], none)

/-- The linear-motion tail of `parse_line` (source lines 2019-2138): build
the final segment, insert corner transitions or set targets directly, update
the programmed-work cache and the CRC bookkeeping. -/
def linearMove (m : MachineBrain) (c : ℕ) (x_id y_id z_id : Option ℕ)
    (cur_work end_work end_work_motion : ℕ → Option ℚ) (corner : List (ℚ × ℚ))
    (comp_next : Option CompLinearState) (motion cutter_comp : ℤ) (tool_radius : ℚ)
    (length_comp_active : Bool) (tool_length : ℚ) (g40_cancel_on_motion : Bool)
    (w : Words) : MachineBrain :=
  let rapid_feed := if motion = 0 then channel_rapid_feed m c else 0
  let x_move := w.x_set
  let y_move := w.y_set
  let z_move := w.z_set
  let xy_move : Bool × Bool :=
    if motion = 1 ∧ tool_radius > 0 ∧ (cutter_comp = 41 ∨ cutter_comp = 42) then
      let xm := match x_id with
                | some xid =>
                  let s := (cur_work xid).getD 0
                  let e := (end_work_motion xid).getD s
                  if |e - s| > 1/10^9 then true else x_move
                | none => x_move
      let ym := match y_id with
                | some yid =>
                  let s := (cur_work yid).getD 0
                  let e := (end_work_motion yid).getD s
                  if |e - s| > 1/10^9 then true else y_move
                | none => y_move
      (xm, ym)
    else (x_move, y_move)
  let x_move := xy_move.1
  let y_move := xy_move.2
  let mkSeg : Option ℕ → Bool → List (ℕ × ℚ) := fun idOpt doMove =>
    match idOpt with
    | some id =>
      if doMove then
        match end_work_motion id with
        | some vw =>
          let vw_comp := if some id = z_id ∧ length_comp_active then vw + tool_length else vw
          [(id, machine_target_with_limits m id (work_to_machine m id vw_comp))]
        | none => []
      else []
    | none => []
  let final_seg := mkSeg x_id x_move ++ mkSeg y_id y_move ++ mkSeg z_id z_move
  if motion = 1 ∧ corner ≠ [] ∧ x_id.isSome ∧ y_id.isSome then
    let xid := x_id.getD 0
    let yid := y_id.getD 0
    let m := corner.enum.foldl
      (fun m kv =>
        let x_tgt := machine_target_with_limits m xid (work_to_machine m xid kv.2.1)
        let y_tgt := machine_target_with_limits m yid (work_to_machine m yid kv.2.2)
        if kv.1 = 0 then
          let m := modAxis m xid (fun ax => { ax with target := x_tgt })
          modAxis m yid (fun ax => { ax with target := y_tgt })
        else
          modChan m c (fun ch =>
            { ch with pending := ch.pending ++ [[(xid, x_tgt), (yid, y_tgt)]] }))
      m
    let m := if final_seg ≠ [] then
               modChan m c (fun ch => { ch with pending := ch.pending ++ [final_seg] })
             else m
    let m := pwUpdate m c x_id y_id z_id end_work
    let m := if comp_next.isSome then
               modChan m c (fun ch => { ch with comp_entry_pending := false })
             else m
    modChan m c (fun ch =>
      { ch with comp_linear_prev := if g40_cancel_on_motion then none else comp_next })
  else
    let m := final_seg.foldl
      (fun m seg =>
        modAxis m seg.1 (fun ax =>
          let ax := { ax with target := seg.2 }
          if motion = 0 then { ax with velocity := max ax.velocity rapid_feed } else ax))
      m
    let m := pwUpdate m c x_id y_id z_id end_work
    if motion = 1 then
      if comp_next.isSome then
        let m := modChan m c (fun ch => { ch with comp_entry_pending := false })
        modChan m c (fun ch =>
          { ch with comp_linear_prev := if g40_cancel_on_motion then none else comp_next })
      else if w.x_set || w.y_set
              || !(decide (cutter_comp = 41 ∨ cutter_comp = 42)) || decide (tool_radius ≤ 0) then
        let m := if ¬(cutter_comp = 41 ∨ cutter_comp = 42) ∨ tool_radius ≤ 0 then
                   modChan m c (fun ch => { ch with comp_entry_pending := false })
                 else m
        modChan m c (fun ch => { ch with comp_linear_prev := none })
      else m
    else
      let m := if ¬(cutter_comp = 41 ∨ cutter_comp = 42) ∨ tool_radius ≤ 0 then
                 modChan m c (fun ch => { ch with comp_entry_pending := false })
               else m
      modChan m c (fun ch => { ch with comp_linear_prev := none })

/-- The geometry part of `parse_line` once a motion mode is resolved (source
lines 1837-2273): set the modal motion, compute the end point, run the CRC
block, then dispatch to the linear or arc path. -/
def motionPart (M : MathFns) (m : MachineBrain) (c : ℕ) (labels : List (String × ℕ))
    (cur_work : ℕ → Option ℚ) (cutter_comp_before : ℤ) (w : Words) (motion : ℤ) :
    MachineBrain :=
  let m := modChan m c (fun ch => { ch with current_motion := motion })
  let cutter_comp_just_enabled :=
    cutter_comp_before = 40 ∧ ((getCh m c).cutter_comp = 41 ∨ (getCh m c).cutter_comp = 42)
  let g40_cancel_on_motion :=
    w.g_words.contains 40 ∧ (w.x_set || w.y_set || w.z_set) = true
      ∧ (cutter_comp_before = 41 ∨ cutter_comp_before = 42)
  let x_id := axis_id_for "X" labels
  let y_id := axis_id_for "Y" labels
  let z_id := axis_id_for "Z" labels
  let cutter_comp := if g40_cancel_on_motion then cutter_comp_before
                     else (getCh m c).cutter_comp
  let comp_entry_pending_now := (getCh m c).comp_entry_pending
  let tool_radius := max (getCh m c).tool_radius 0
  let length_comp_active := (getCh m c).length_comp_active
  let tool_length := (getCh m c).tool_length
  let end_work := endWorkOf (getCh m c).abs_mode cur_work x_id y_id z_id w
  let compRes : (ℕ → Option ℚ) × List (ℚ × ℚ) × Option CompLinearState :=
    if (motion = 1 ∨ motion = 2 ∨ motion = 3) ∧ tool_radius > 0
       ∧ (cutter_comp = 41 ∨ cutter_comp = 42) then
      match x_id, y_id with
      | some xid, some yid =>
        compXY M m c xid yid cur_work end_work motion cutter_comp tool_radius
          cutter_comp_just_enabled comp_entry_pending_now w
      | _, _ => (end_work, [], none)
    else (end_work, [], none)
  let end_work_motion := compRes.1
  let corner := compRes.2.1
  let comp_next := compRes.2.2
  if motion = 0 ∨ motion = 1 then
    linearMove m c x_id y_id z_id cur_work end_work end_work_motion corner comp_next
      motion cutter_comp tool_radius length_comp_active tool_length g40_cancel_on_motion w
  else
    if (getCh m c).plane ≠ 17 then
      modChan m c (fun ch => { ch with comp_linear_prev := none })
    else
      let m := modChan m c (fun ch => { ch with comp_linear_prev := none })
      match x_id, y_id with
      | some xid, some yid =>
        arcMove M m c xid yid z_id motion cur_work end_work w.i_off w.j_off w.r_word
          cutter_comp tool_radius length_comp_active tool_length
      | _, _ => m

/-- Everything `parse_line` does after the scanning loop (source lines
1704-2274), as the composition of the stages above. -/
def applyWords (M : MathFns) (m0 : MachineBrain) (c : ℕ) (labels : List (String × ℕ))
    (cur_work : ℕ → Option ℚ) (cutter_comp_before : ℤ) (comp_entry_pending_before : Bool)
    (w : Words) : MachineBrain :=
  match m0.channels.get? c with
  | none => m0
  | some _ =>
    let m := applyFST m0 c w
    let m := applyModalG m c w
    let m := applyModalM m c w
    let m := applyPendingRule m c comp_entry_pending_before w
    let m := applyDH m c w
    let motion := (lastMotionWord w.g_words).getD (getCh m c).current_motion
    if ¬(motion = 0 ∨ motion = 1 ∨ motion = 2 ∨ motion = 3) then m
    else motionPart M m c labels cur_work cutter_comp_before w motion

/-- `MachineBrain::parse_line` from the source: snapshot the compensation
state, build the label table and the current-work map, scan the block, then
apply the words. -/
def parse_line (M : MathFns) (m : MachineBrain) (c_idx : ℕ) (line : String) : MachineBrain :=
  match m.channels.get? c_idx with
  | none => m
  | some ch =>
    let cutter_comp_before := ch.cutter_comp
    let comp_entry_pending_before := ch.comp_entry_pending
    let labels := knownLabels ch
    let cur_work := compute_cur_work m ch labels
    let sc := scanBlock c_idx labels cur_work m ch.units_mm line.data
    applyWords M sc.1 c_idx labels cur_work cutter_comp_before comp_entry_pending_before sc.2

/-! ## Executor (`tick` and the per-axis trapezoidal profile) -/

/-- `move_axis` from the source (the helper closure inside `tick`):
advance one axis one tick along the trapezoidal profile; returns the new
axis state and whether it is still moving. -/
def move_axis (ax : Axis) (feed dt_sec : ℚ) (stop_at_target : Bool) : Axis × Bool :=
  let diff := ax.target - ax.position
  let dist := |diff|
  if dist ≤ 1/2000 then
    ({ ax with position := ax.target,
               velocity := if stop_at_target then 0 else ax.velocity }, false)
  else
    let dir := signumQ diff
    let feed := max feed 1
    let accel := max ax.accel 1
    let vel0 := max ax.velocity 0
    let stop_dist := vel0 * vel0 / (2 * accel)
    let vel1 := if stop_at_target ∧ dist ≤ stop_dist + 1/100 then max (vel0 - accel * dt_sec) 0
                else if vel0 < feed then min (vel0 + accel * dt_sec) feed
                else vel0
    let step1 := vel1 / 60 * dt_sec
    if step1 ≤ 1/10^6 ∧ dist ≤ 1/20 then
      ({ ax with position := ax.target, velocity := 0 }, false)
    else
      let vel2 := if step1 ≤ 1/10^6 then min (max (feed * (1/50)) 1) feed else vel1
      let step2 := if step1 ≤ 1/10^6 then vel2 / 60 * dt_sec else step1
      if step2 ≥ dist then
        ({ ax with position := ax.target,
                   velocity := if stop_at_target then 0 else vel2 }, false)
      else
        ({ ax with position := ax.position + step2 * dir, velocity := vel2 }, true)

/-- The `has_future` condition of `tick` (source lines 1232-1234): pending
segments remain, or the channel is running with program lines left. -/
def hasFuture (ch : Channel) : Bool :=
  !ch.pending.isEmpty || (ch.is_running && decide (ch.pc < ch.program.length))

/-- The `stop_at_target` flag of `tick` (source lines 1237-1239), passed to
`move_axis` for every mapped axis of a non-paused channel. -/
def stopAtTarget (ch : Channel) : Bool :=
  ch.exact_stop || !hasFuture ch || ch.pause_pending

/-- The homing part of `tick` (source lines 1177-1210). -/
def tickHoming (m : MachineBrain) (dt_sec : ℚ) : MachineBrain :=
  if m.homing_sequence.length ≤ m.homing_index then
    { m with is_homing := false, homing_sequence := [], homing_index := 0 }
  else
    match m.axes.get? ((m.homing_sequence.get? m.homing_index).getD 0) with
    | some ax =>
      let home_feed := if m.homing_rapid then axis_rapid_feed ax else max m.homing_feed 1
      let r := move_axis ax home_feed dt_sec true
      let m1 := modAxis m ((m.homing_sequence.get? m.homing_index).getD 0) (fun _ => r.1)
      if r.2 = false then
        let m2 := modAxis m1 ((m.homing_sequence.get? m.homing_index).getD 0) (fun ax =>
          { ax with homed := true, position := 0, target := 0, velocity := 0 })
        let m3 := { m2 with homing_index := m2.homing_index + 1 }
        if m3.homing_sequence.length ≤ m3.homing_index then
          { m3 with is_homing := false, homing_sequence := [], homing_index := 0 }
        else m3
      else m1
    | none => { m with homing_index := m.homing_index + 1 }

/-- One iteration of the channel loop of `tick` (source lines 1213-1285). -/
def tickChannel (M : MathFns) (m : MachineBrain) (dt_sec : ℚ) (c_idx : ℕ) : MachineBrain :=
  match m.channels.get? c_idx with
  | none => m
  | some ch0 =>
    if ch0.paused then m
    else
      let motion := ch0.current_motion
      let feed := if motion = 0 then channel_rapid_feed m c_idx
                  else ch0.feed_rate * ch0.feed_override
      if feed ≤ 0 ∧ motion ≠ 0 then
        ch0.axis_map.foldl
          (fun m mm => modAxis m mm.axis_id (fun ax => { ax with velocity := 0 })) m
      else
        let stop := stopAtTarget ch0
        let res := ch0.axis_map.foldl
          (fun (acc : MachineBrain × Bool) mm =>
            match acc.1.axes.get? mm.axis_id with
            | some ax =>
              let r := move_axis ax feed dt_sec stop
              (modAxis acc.1 mm.axis_id (fun _ => r.1), acc.2 || r.2)
            | none => acc)
          (m, false)
        let m := res.1
        let still_moving := res.2
        if ch0.is_running ∧ still_moving = false then
          if ch0.pause_pending ∧ ch0.pending.isEmpty then
            modChan m c_idx (fun ch =>
              { ch with paused := true, pause_pending := false, step_once := false })
          else
            match ch0.pending with
            | next :: restQ =>
              let m := modChan m c_idx (fun ch => { ch with pending := restQ })
              next.foldl
                (fun m p =>
                  modAxis m p.1 (fun ax =>
                    { ax with target :=
                        match ax.axis_type with
                        | AxisType.Rotary => normalize_rotary_target p.2
                        | AxisType.Linear => clampQ p.2 ax.min_range ax.max_range }))
                m
            | [] =>
              match ch0.program.get? ch0.pc with
              | some line =>
                let m := modChan m c_idx (fun ch => { ch with active_pc := (ch0.pc : ℤ) })
                let m := parse_line M m c_idx line
                let m := if (getCh m c_idx).single_block ∨ (getCh m c_idx).step_once then
                           modChan m c_idx (fun ch => { ch with pause_pending := true })
                         else m
                modChan m c_idx (fun ch => { ch with pc := ch.pc + 1 })
              | none =>
                modChan m c_idx (fun ch => { ch with is_running := false, active_pc := -1 })
        else m

/-- `MachineBrain::tick` from the source. -/
def tick (M : MathFns) (m : MachineBrain) (dt_ms : ℚ) : MachineBrain :=
  if m.estop ∨ dt_ms ≤ 0 then m
  else
    let dt_sec := dt_ms / 1000
    if m.is_homing then tickHoming m dt_sec
    else (List.range m.channels.length).foldl (fun m c => tickChannel M m dt_sec c) m

/-! ## Public command interface -/

/-- The public (`wasm_bindgen`-exported) commands of `MachineBrain`, with
their parameters.  `get_full_state` is a read-only snapshot and is omitted. -/
inductive Command where
  | clearConfig
  | addAxis (name : String) (kind : AxisType) (mn mx : ℚ)
  | addChannel (id : ℕ) (mappings : List ChannelAxisMap)
  | loadProgram (ch : ℕ) (code : String)
  | togglePause (ch : ℕ)
  | resetProgram (ch : ℕ)
  | setFeedOverride (ch : ℕ) (ratio : ℚ)
  | setSingleBlock (ch : ℕ) (enabled : Bool)
  | stepOnce (ch : ℕ)
  | jumpBlocks (ch : ℕ) (delta : ℤ)
  | setToolLength (ch : ℕ) (len : ℚ)
  | setToolLengthComp (ch : ℕ) (active : Bool)
  | setToolRadius (ch : ℕ) (radius : ℚ)
  | setToolTableEntry (ch : ℕ) (slot : ℤ) (len radius : ℚ)
  | setActiveTool (ch : ℕ) (slot : ℤ)
  | setCutterComp (ch : ℕ) (mode : ℤ)
  | moveTo (axis : ℕ) (target : ℚ)
  | homeAll
  | homeAllOrdered (primary : ℤ) (rapid : Bool) (feed : ℚ)
  | homeAxis (axis : ℕ)
  | jogAxis (axis : ℕ) (delta : ℚ)
  | jogAxisFeed (axis : ℕ) (delta feed : ℚ)
  | jogAxisRapid (axis : ℕ) (delta : ℚ)
  | setWorkZero (axis : ℕ) (wcs : ℕ) (pos : ℚ)
  | setActiveWcs (idx : ℕ)
  | addWorkOffset (label : String)
  | setEstop (s : Bool)
  | tickCmd (dt_ms : ℚ)
  | setAxisAccel (axis : ℕ) (accel : ℚ)
  | setAxisMachineZero (axis : ℕ) (mz : ℚ)
  | setAxisInvert (axis : ℕ) (invert : Bool)
deriving DecidableEq

/-- Semantics of one public command. -/
def exec (M : MathFns) (m : MachineBrain) : Command → MachineBrain
  | Command.clearConfig => clear_config m
  | Command.addAxis name kind mn mx => add_axis m name kind mn mx
  | Command.addChannel id mappings => add_channel m id mappings
  | Command.loadProgram c code => load_program m c code
  | Command.togglePause c => toggle_pause m c
  | Command.resetProgram c => reset_program m c
  | Command.setFeedOverride c ratio => set_feed_override m c ratio
  | Command.setSingleBlock c enabled => set_single_block m c enabled
  | Command.stepOnce c => step_once_cmd m c
  | Command.jumpBlocks c delta => jump_blocks m c delta
  | Command.setToolLength c len => set_tool_length m c len
  | Command.setToolLengthComp c active => set_tool_length_comp m c active
  | Command.setToolRadius c radius => set_tool_radius m c radius
  | Command.setToolTableEntry c slot len radius => set_tool_table_entry m c slot len radius
  | Command.setActiveTool c slot => set_active_tool m c slot
  | Command.setCutterComp c mode => set_cutter_comp m c mode
  | Command.moveTo axis target => move_to m axis target
  | Command.homeAll => home_all m
  | Command.homeAllOrdered primary rapid feed => home_all_ordered m primary rapid feed
  | Command.homeAxis axis => home_axis m axis
  | Command.jogAxis axis delta => jog_axis m axis delta
  | Command.jogAxisFeed axis delta feed => jog_axis_feed m axis delta feed
  | Command.jogAxisRapid axis delta => jog_axis_rapid m axis delta
  | Command.setWorkZero axis wcs pos => set_work_zero m axis wcs pos
  | Command.setActiveWcs idx => set_active_wcs m idx
  | Command.addWorkOffset label => add_work_offset m label
  | Command.setEstop s => set_estop m s
  | Command.tickCmd dt_ms => tick M m dt_ms
  | Command.setAxisAccel axis accel => set_axis_accel m axis accel
  | Command.setAxisMachineZero axis mz => set_axis_machine_zero m axis mz
  | Command.setAxisInvert axis invert => set_axis_invert m axis invert

/-- Semantics of a command sequence, executed left to right. -/
def execList (M : MathFns) (m : MachineBrain) (cmds : List Command) : MachineBrain :=
  cmds.foldl (exec M) m

/-! ## Lemma kit for the state-update helpers -/

theorem listModify_getElem? {α : Type} (l : List α) (i j : ℕ) (f : α → α) :
    (listModify l i f)[j]? = if j = i then (l[j]?).map f else l[j]? := by
  induction l generalizing i j with
  | nil => simp [listModify]
  | cons a l ih =>
    cases i with
    | zero => cases j <;> simp [listModify]
    | succ i => cases j <;> simp [listModify, ih]

theorem listModify_get? {α : Type} (l : List α) (i j : ℕ) (f : α → α) :
    (listModify l i f).get? j = if j = i then (l.get? j).map f else l.get? j := by
  simp [List.get?_eq_getElem?, listModify_getElem?]

@[simp] theorem listModify_length {α : Type} (l : List α) (i : ℕ) (f : α → α) :
    (listModify l i f).length = l.length := by
  induction l generalizing i with
  | nil => rfl
  | cons a l ih => cases i <;> simp [listModify, ih]

@[simp] theorem modChan_axes (m : MachineBrain) (c : ℕ) (f : Channel → Channel) :
    (modChan m c f).axes = m.axes := rfl

@[simp] theorem modChan_work_offsets (m : MachineBrain) (c : ℕ) (f : Channel → Channel) :
    (modChan m c f).work_offsets = m.work_offsets := rfl

@[simp] theorem modChan_active_wcs (m : MachineBrain) (c : ℕ) (f : Channel → Channel) :
    (modChan m c f).active_wcs = m.active_wcs := rfl

@[simp] theorem modChan_estop (m : MachineBrain) (c : ℕ) (f : Channel → Channel) :
    (modChan m c f).estop = m.estop := rfl

@[simp] theorem modAxis_channels (m : MachineBrain) (i : ℕ) (f : Axis → Axis) :
    (modAxis m i f).channels = m.channels := rfl

@[simp] theorem modAxis_work_offsets (m : MachineBrain) (i : ℕ) (f : Axis → Axis) :
    (modAxis m i f).work_offsets = m.work_offsets := rfl

@[simp] theorem modAxis_active_wcs (m : MachineBrain) (i : ℕ) (f : Axis → Axis) :
    (modAxis m i f).active_wcs = m.active_wcs := rfl

@[simp] theorem modAxis_estop (m : MachineBrain) (i : ℕ) (f : Axis → Axis) :
    (modAxis m i f).estop = m.estop := rfl

theorem modChan_channels_get? (m : MachineBrain) (c : ℕ) (f : Channel → Channel) (i : ℕ) :
    (modChan m c f).channels.get? i =
      if i = c then (m.channels.get? i).map f else m.channels.get? i := by
  simp [modChan, List.get?_eq_getElem?, listModify_getElem?]

theorem modChan_get?_self (m : MachineBrain) (c : ℕ) (f : Channel → Channel) (ch : Channel)
    (h : m.channels.get? c = some ch) :
    (modChan m c f).channels.get? c = some (f ch) := by
  rw [modChan_channels_get?, if_pos rfl, h]
  rfl

theorem modAxis_axes_get? (m : MachineBrain) (i : ℕ) (f : Axis → Axis) (j : ℕ) :
    (modAxis m i f).axes.get? j =
      if j = i then (m.axes.get? j).map f else m.axes.get? j := by
  simp [modAxis, List.get?_eq_getElem?, listModify_getElem?]

theorem wcs_offset_modChan (m : MachineBrain) (c : ℕ) (f : Channel → Channel) (a : ℕ) :
    wcs_offset (modChan m c f) a = wcs_offset m a := rfl

theorem wcs_offset_modAxis (m : MachineBrain) (i : ℕ) (f : Axis → Axis) (a : ℕ) :
    wcs_offset (modAxis m i f) a = wcs_offset m a := rfl

/-! ## Claim C8: work/machine coordinate round trip -/

/-- Claim C8: for every axis id `a` and every value `v`,
`machine_to_work(a, work_to_machine(a, v)) = v` — converting a work
coordinate to machine space by adding the active WCS offset and converting
back by subtracting it is the identity, for every machine state (hence for
every active WCS selection). -/
theorem c8_work_machine_roundtrip (m : MachineBrain) (a : ℕ) (v : ℚ) :
    machine_to_work m a (work_to_machine m a v) = v := by
  unfold machine_to_work work_to_machine
  ring

/-! ## Claim C9: frame effect of `jog_axis_feed` on channel feed rates -/

/-- Claim C9: when the machine is not in e-stop, `jog_axis_feed` moves the
jogged axis's target (distance-mode clamp/normalise applied, velocity capped
at `max feed 1`) and, in addition, sets `feed_rate := max feed 1` on exactly
the channels whose axis map contains the jogged axis and whose `is_running`
flag is false; every other channel is returned unchanged. -/
theorem c9_jog_axis_feed_frame (m : MachineBrain) (axis_id : ℕ) (delta feed : ℚ)
    (h : m.estop = false) :
    (∀ i : ℕ, (jog_axis_feed m axis_id delta feed).channels.get? i =
       (m.channels.get? i).map (fun ch =>
         if ch.axis_map.any (fun mm => mm.axis_id = axis_id) ∧ !ch.is_running
         then { ch with feed_rate := max feed 1 } else ch)) ∧
    (jog_axis_feed m axis_id delta feed).axes.get? axis_id =
      (m.axes.get? axis_id).map (fun ax =>
        { ax with
            target := match ax.axis_type with
                      | AxisType.Rotary => normalize_rotary_target (ax.target + delta)
                      | AxisType.Linear => clampQ (ax.target + delta) ax.min_range ax.max_range,
            velocity := min ax.velocity (max feed 1) }) := by
  unfold jog_axis_feed
  rw [h]
  simp only [Bool.false_eq_true, if_false]
  constructor
  · intro i
    show (List.map _ (modAxis m axis_id _).channels).get? i = _
    rw [modAxis_channels]
    simp [List.get?_eq_getElem?, List.getElem?_map]
  · show (modAxis m axis_id _).axes.get? axis_id = _
    rw [modAxis_axes_get?, if_pos rfl]

/-! ## Claim C4: `set_active_tool` and tool-table slot 0 -/

/-- A concrete three-axis machine with one XYZ channel (the configuration of
the source's own test fixture), used by witnesses and counterexamples. -/
def brainXYZ : MachineBrain :=
  execList mathW MachineBrain.new
    [Command.addAxis "X" AxisType.Linear (-10000) 10000,
     Command.addAxis "Y" AxisType.Linear (-10000) 10000,
     Command.addAxis "Z" AxisType.Linear (-10000) 10000,
     Command.addChannel 0 [⟨0, "X"⟩, ⟨1, "Y"⟩, ⟨2, "Z"⟩]]

/-- Counterexample to claim C4 as stated: selecting a slot `s ≥ 1` that has
no tool-table entry leaves slot 0 (and `tool_radius`/`tool_length`)
unchanged, so slot 0 does not mirror the (nonexistent) entry at slot `s`:
after `set_active_tool(0, 5)` on the default table, slot 5 is still empty
while slot 0 still holds the previous tool `{radius 4, length 50}`. -/
theorem c4_counterexample :
    (getCh brainXYZ 0).tool_table 5 = none ∧
    (getCh (set_active_tool brainXYZ 0 5) 0).tool_table 5 = none ∧
    (getCh (set_active_tool brainXYZ 0 5) 0).tool_table 0 = some ⟨4, 50⟩ ∧
    (getCh (set_active_tool brainXYZ 0 5) 0).tool_radius = 4 ∧
    (getCh (set_active_tool brainXYZ 0 5) 0).active_tool = 5 := by decide

/-- Claim C4, amended: for every slot `s ≥ 1`, after `set_active_tool(c, s)`
the active-tool registers are set and, when an entry exists at slot `s`,
slot 0 of the tool table holds that same `{radius, length}` entry and the
channel's `tool_length`/`tool_radius` equal the entry's length and
`|radius|`; when no entry exists at slot `s`, the tool table,
`tool_radius` and `tool_length` are unchanged. -/
theorem c4_set_active_tool_mirror (m : MachineBrain) (c : ℕ) (s : ℤ) (ch : Channel)
    (hch : m.channels.get? c = some ch) (hs : 1 ≤ s) :
    ∃ ch', (set_active_tool m c s).channels.get? c = some ch' ∧
      ch'.active_tool = s ∧ ch'.active_d = 0 ∧ ch'.active_h = 0 ∧
      ((∃ e, ch.tool_table s = some e ∧ ch'.tool_table 0 = some e ∧
             ch'.tool_radius = |e.radius| ∧ ch'.tool_length = e.length ∧
             ∀ k, k ≠ 0 → ch'.tool_table k = ch.tool_table k) ∨
       (ch.tool_table s = none ∧ ch'.tool_table = ch.tool_table ∧
        ch'.tool_radius = ch.tool_radius ∧ ch'.tool_length = ch.tool_length)) := by
  have hmax : max s 0 = s := by omega
  have hs0 : s ≠ 0 := by omega
  unfold set_active_tool
  rw [modChan_get?_self m c _ ch hch]
  refine ⟨_, rfl, ?_⟩
  simp only [hmax, if_neg hs0]
  cases he : ch.tool_table s with
  | none => exact ⟨rfl, rfl, rfl, Or.inr ⟨rfl, rfl, rfl, rfl⟩⟩
  | some e =>
    refine ⟨rfl, rfl, rfl, Or.inl ⟨e, rfl, ?_, rfl, rfl, ?_⟩⟩
    · simp [updMap]
    · intro k hk
      simp [updMap, hk]

/-- Witness for `c4_set_active_tool_mirror` at the concrete machine
`brainXYZ`, slot 1 (which has the default entry `{radius 4, length 50}`). -/
theorem c4_set_active_tool_mirror_witness :
    ∃ ch', (set_active_tool brainXYZ 0 1).channels.get? 0 = some ch' ∧
      ch'.active_tool = 1 ∧ ch'.active_d = 0 ∧ ch'.active_h = 0 ∧
      ((∃ e, (getCh brainXYZ 0).tool_table 1 = some e ∧ ch'.tool_table 0 = some e ∧
             ch'.tool_radius = |e.radius| ∧ ch'.tool_length = e.length ∧
             ∀ k, k ≠ 0 → ch'.tool_table k = (getCh brainXYZ 0).tool_table k) ∨
       ((getCh brainXYZ 0).tool_table 1 = none ∧
        ch'.tool_table = (getCh brainXYZ 0).tool_table ∧
        ch'.tool_radius = (getCh brainXYZ 0).tool_radius ∧
        ch'.tool_length = (getCh brainXYZ 0).tool_length)) :=
  c4_set_active_tool_mirror brainXYZ 0 1 (getCh brainXYZ 0) rfl (by decide)

/-! ## Claim C7: the `stop_at_target` flag of `tick` -/

/-- Claim C7's formula for `stop_at_target`, as the claim words it: true iff
`exact_stop`, or `pause_pending`, or no future work exists, where "no future
work" is "the segment queue is empty AND the program counter is at the end
of the program".  (Second definition following the claim's words; compared
against `stopAtTarget` from the source.) -/
def stopAtTargetClaim (ch : Channel) : Bool :=
  ch.exact_stop || ch.pause_pending ||
    (ch.pending.isEmpty && decide (ch.program.length ≤ ch.pc))

/-- A non-running channel with an unfinished program and an empty queue. -/
def c7Chan : Channel := { freshChannel 0 [] with program := ["G1 X1"], is_running := false }

/-- Counterexample to claim C7 as stated: for a non-paused channel that is
not running, with an empty queue and the program counter not at the end,
the source computes `stop_at_target = true` (its "future work" test also
requires `is_running`), while the claim's formula yields `false`. -/
theorem c7_counterexample :
    c7Chan.exact_stop = false ∧ c7Chan.pause_pending = false ∧ c7Chan.pending = [] ∧
    c7Chan.is_running = false ∧ c7Chan.pc = 0 ∧ c7Chan.program.length = 1 ∧
    stopAtTarget c7Chan = true ∧ stopAtTargetClaim c7Chan = false := by decide

/-- Claim C7, amended: in every tick, for every non-paused channel, the
`stop_at_target` flag passed to the per-axis trapezoidal profile (see
`tickChannel`) is true iff `exact_stop` is set, or `pause_pending` is set,
or no future work exists — the segment queue is empty AND (the channel is
not running OR the program counter is at the end of the program). -/
theorem c7_stop_at_target_formula (ch : Channel) :
    stopAtTarget ch =
      (ch.exact_stop || ch.pause_pending ||
        (ch.pending.isEmpty && (!ch.is_running || decide (ch.program.length ≤ ch.pc)))) := by
  have hd : ∀ a b : ℕ, decide (a < b) = !decide (b ≤ a) := by
    intro a b
    rw [← decide_not, decide_eq_decide]
    exact not_le.symm
  unfold stopAtTarget hasFuture
  cases hE : ch.exact_stop <;> cases hP : ch.pause_pending <;>
    cases hR : ch.is_running <;> cases hQ : ch.pending.isEmpty <;>
      simp [hE, hP, hR, hQ, hd, Bool.or_comm]

/-- Witness for `c9_jog_axis_feed_frame` at the concrete machine `brainXYZ`
(axis 1, delta 5, feed 700; channel 0 maps the axis and is idle). -/
theorem c9_jog_axis_feed_frame_witness :
    (jog_axis_feed brainXYZ 1 5 700).channels.get? 0 =
      (brainXYZ.channels.get? 0).map (fun ch =>
        if ch.axis_map.any (fun mm => mm.axis_id = 1) ∧ !ch.is_running
        then { ch with feed_rate := max 700 1 } else ch) ∧
    (jog_axis_feed brainXYZ 1 5 700).axes.get? 1 =
      (brainXYZ.axes.get? 1).map (fun ax =>
        { ax with
            target := match ax.axis_type with
                      | AxisType.Rotary => normalize_rotary_target (ax.target + 5)
                      | AxisType.Linear => clampQ (ax.target + 5) ax.min_range ax.max_range,
            velocity := min ax.velocity (max 700 1) }) :=
  ⟨(c9_jog_axis_feed_frame brainXYZ 1 5 700 rfl).1 0,
   (c9_jog_axis_feed_frame brainXYZ 1 5 700 rfl).2⟩

/-! ## Claim C2: unit scaling during lexing -/

/-- Modelled from the claim C2 wording: "if the block contains `G20`, all
length-bearing words in this block are multiplied by 25.4 ... regardless of
where in the block the word appears relative to the G20 token" — i.e. the
block lexes as if the inch flag were already set when the block starts.
(Second definition following the claim's words, compared against the source
lexer `scanBlock`.) -/
def scanBlockC2Spec (c : ℕ) (labels : List (String × ℕ)) (cur_work : ℕ → Option ℚ)
    (m : MachineBrain) (units_mm : Bool) (bytes : List Char) : Words :=
  let base := (scanBlock c labels cur_work m units_mm bytes).2
  let u0 := if base.g_words.contains 20 then false
            else if base.g_words.contains 21 then true else units_mm
  (scanBlock c labels cur_work m u0 bytes).2

/-- Counterexample to claim C2 as stated: in the block `"X1 G20"` the X word
precedes the G20 token, so the source lexer records `x = 1` (the factor in
effect when X is scanned is still the modal millimetre factor), while the
claim demands `25.4 · 1`. -/
theorem c2_counterexample :
    (scanBlock 0 [] (fun _ => none) MachineBrain.new true "X1 G20".data).2.g_words = [20] ∧
    (scanBlock 0 [] (fun _ => none) MachineBrain.new true "X1 G20".data).2.x = some 1 ∧
    (scanBlockC2Spec 0 [] (fun _ => none) MachineBrain.new true "X1 G20".data).x
      = some (127/5) ∧
    (scanBlock 0 [] (fun _ => none) MachineBrain.new true "X1 G20".data).2 ≠
      scanBlockC2Spec 0 [] (fun _ => none) MachineBrain.new true "X1 G20".data := by
  refine ⟨by decide, by decide, by decide, ?_⟩
  intro h
  have := congrArg Words.x h
  revert this
  decide

/-- One length-bearing word component scaled by the inch factor relative to
its millimetre-mode value (or untouched). -/
def OptScaled (u v : Option ℚ) : Prop := v = u ∨ v = u.map (fun q => 127/5 * q)

/-- The inch-mode lex of a byte suffix relates to the millimetre-mode lex by
scaling exactly the length-bearing words it records by 25.4; every word
collected before the suffix, and every non-length word, agrees. -/
def ScaledRel (a b : Words) : Prop :=
  b.g_words = a.g_words ∧ b.m_words = a.m_words ∧ b.s_word = a.s_word ∧
  b.t_word = a.t_word ∧ b.d_word_raw = a.d_word_raw ∧ b.h_word_raw = a.h_word_raw ∧
  b.x_set = a.x_set ∧ b.y_set = a.y_set ∧ b.z_set = a.z_set ∧
  OptScaled a.f_word b.f_word ∧ OptScaled a.x b.x ∧ OptScaled a.y b.y ∧
  OptScaled a.z b.z ∧ OptScaled a.i_off b.i_off ∧ OptScaled a.j_off b.j_off ∧
  OptScaled a.r_word b.r_word ∧ OptScaled a.d_word b.d_word ∧ OptScaled a.h_word b.h_word

instance (u v : Option ℚ) : Decidable (OptScaled u v) := by
  unfold OptScaled
  infer_instance

instance (a b : Words) : Decidable (ScaledRel a b) := by
  unfold ScaledRel
  infer_instance

theorem applyWordTok_rel_sync (a b : Words) (uc : Char) (val : Option ℚ)
    (hrel : ScaledRel a b) (hu : a.units_mm_word = b.units_mm_word) :
    ScaledRel (applyWordTok a uc val) (applyWordTok b uc val) ∧
      (applyWordTok a uc val).units_mm_word = (applyWordTok b uc val).units_mm_word := by
  obtain ⟨h1, h2, h3, h4, h5, h6, h7, h8, h9, h10, h11, h12, h13, h14, h15, h16, h17, h18⟩ := hrel
  unfold applyWordTok
  by_cases hc1 : uc = 'G'
  · simp only [if_pos hc1]
    cases val with
    | none => exact ⟨⟨h1, h2, h3, h4, h5, h6, h7, h8, h9, h10, h11, h12, h13, h14, h15, h16, h17, h18⟩, hu⟩
    | some v =>
      exact ⟨⟨by rw [h1], h2, h3, h4, h5, h6, h7, h8, h9, h10, h11, h12, h13, h14, h15, h16, h17, h18⟩, (by rw [hu])⟩
  · simp only [if_neg hc1]
    by_cases hc2 : uc = 'M'
    · simp only [if_pos hc2]
      cases val with
      | none => exact ⟨⟨h1, h2, h3, h4, h5, h6, h7, h8, h9, h10, h11, h12, h13, h14, h15, h16, h17, h18⟩, hu⟩
      | some v => exact ⟨⟨h1, by rw [h2], h3, h4, h5, h6, h7, h8, h9, h10, h11, h12, h13, h14, h15, h16, h17, h18⟩, hu⟩
    · simp only [if_neg hc2]
      by_cases hc3 : uc = 'F'
      · simp only [if_pos hc3]
        exact ⟨⟨h1, h2, h3, h4, h5, h6, h7, h8, h9, Or.inl (by rw [hu]), h11, h12, h13, h14, h15, h16, h17, h18⟩, hu⟩
      · simp only [if_neg hc3]
        by_cases hc4 : uc = 'S'
        · simp only [if_pos hc4]
          exact ⟨⟨h1, h2, rfl, h4, h5, h6, h7, h8, h9, h10, h11, h12, h13, h14, h15, h16, h17, h18⟩, hu⟩
        · simp only [if_neg hc4]
          by_cases hc5 : uc = 'T'
          · simp only [if_pos hc5]
            cases val with
            | none => exact ⟨⟨h1, h2, h3, h4, h5, h6, h7, h8, h9, h10, h11, h12, h13, h14, h15, h16, h17, h18⟩, hu⟩
            | some v => exact ⟨⟨h1, h2, h3, rfl, h5, h6, h7, h8, h9, h10, h11, h12, h13, h14, h15, h16, h17, h18⟩, hu⟩
          · simp only [if_neg hc5]
            by_cases hc6 : uc = 'I'
            · simp only [if_pos hc6]
              exact ⟨⟨h1, h2, h3, h4, h5, h6, h7, h8, h9, h10, h11, h12, h13, Or.inl (by rw [hu]), h15, h16, h17, h18⟩, hu⟩
            · simp only [if_neg hc6]
              by_cases hc7 : uc = 'J'
              · simp only [if_pos hc7]
                exact ⟨⟨h1, h2, h3, h4, h5, h6, h7, h8, h9, h10, h11, h12, h13, h14, Or.inl (by rw [hu]), h16, h17, h18⟩, hu⟩
              · simp only [if_neg hc7]
                by_cases hc8 : uc = 'R'
                · simp only [if_pos hc8]
                  exact ⟨⟨h1, h2, h3, h4, h5, h6, h7, h8, h9, h10, h11, h12, h13, h14, h15, Or.inl (by rw [hu]), h17, h18⟩, hu⟩
                · simp only [if_neg hc8]
                  by_cases hc9 : uc = 'D'
                  · simp only [if_pos hc9]
                    exact ⟨⟨h1, h2, h3, h4, rfl, h6, h7, h8, h9, h10, h11, h12, h13, h14, h15, h16, Or.inl (by rw [hu]), h18⟩, hu⟩
                  · simp only [if_neg hc9]
                    by_cases hc10 : uc = 'H'
                    · simp only [if_pos hc10]
                      exact ⟨⟨h1, h2, h3, h4, h5, rfl, h7, h8, h9, h10, h11, h12, h13, h14, h15, h16, h17, Or.inl (by rw [hu])⟩, hu⟩
                    · simp only [if_neg hc10]
                      by_cases hc11 : uc = 'X'
                      · simp only [if_pos hc11]
                        exact ⟨⟨h1, h2, h3, h4, h5, h6, by rw [hu, h7], h8, h9, h10, Or.inl (by rw [hu]), h12, h13, h14, h15, h16, h17, h18⟩, hu⟩
                      · simp only [if_neg hc11]
                        by_cases hc12 : uc = 'Y'
                        · simp only [if_pos hc12]
                          exact ⟨⟨h1, h2, h3, h4, h5, h6, h7, by rw [hu, h8], h9, h10, h11, Or.inl (by rw [hu]), h13, h14, h15, h16, h17, h18⟩, hu⟩
                        · simp only [if_neg hc12]
                          by_cases hc13 : uc = 'Z'
                          · simp only [if_pos hc13]
                            exact ⟨⟨h1, h2, h3, h4, h5, h6, h7, h8, by rw [hu, h9], h10, h11, h12, Or.inl (by rw [hu]), h14, h15, h16, h17, h18⟩, hu⟩
                          · simp only [if_neg hc13]
                            exact ⟨⟨h1, h2, h3, h4, h5, h6, h7, h8, h9, h10, h11, h12, h13, h14, h15, h16, h17, h18⟩, hu⟩

theorem applyWordTok_rel_mixed (a b : Words) (uc : Char) (val : Option ℚ)
    (hrel : ScaledRel a b) (hu : a.units_mm_word = true) (hv : b.units_mm_word = false) :
    ScaledRel (applyWordTok a uc val) (applyWordTok b uc val) ∧
      ((applyWordTok a uc val).units_mm_word = (applyWordTok b uc val).units_mm_word ∨
       ((applyWordTok a uc val).units_mm_word = true ∧
        (applyWordTok b uc val).units_mm_word = false)) := by
  obtain ⟨h1, h2, h3, h4, h5, h6, h7, h8, h9, h10, h11, h12, h13, h14, h15, h16, h17, h18⟩ := hrel
  unfold applyWordTok
  by_cases hc1 : uc = 'G'
  · simp only [if_pos hc1]
    cases val with
    | none => exact ⟨⟨h1, h2, h3, h4, h5, h6, h7, h8, h9, h10, h11, h12, h13, h14, h15, h16, h17, h18⟩, Or.inr ⟨hu, hv⟩⟩
    | some v =>
      exact ⟨⟨by rw [h1], h2, h3, h4, h5, h6, h7, h8, h9, h10, h11, h12, h13, h14, h15, h16, h17, h18⟩, (if h20 : roundQ v = 20 then Or.inl (by simp [h20]) else if h21 : roundQ v = 21 then Or.inl (by simp [h20, h21]) else Or.inr (by simp [h20, h21, hu, hv]))⟩
  · simp only [if_neg hc1]
    by_cases hc2 : uc = 'M'
    · simp only [if_pos hc2]
      cases val with
      | none => exact ⟨⟨h1, h2, h3, h4, h5, h6, h7, h8, h9, h10, h11, h12, h13, h14, h15, h16, h17, h18⟩, Or.inr ⟨hu, hv⟩⟩
      | some v => exact ⟨⟨h1, by rw [h2], h3, h4, h5, h6, h7, h8, h9, h10, h11, h12, h13, h14, h15, h16, h17, h18⟩, Or.inr ⟨hu, hv⟩⟩
    · simp only [if_neg hc2]
      by_cases hc3 : uc = 'F'
      · simp only [if_pos hc3]
        exact ⟨⟨h1, h2, h3, h4, h5, h6, h7, h8, h9, Or.inr (by cases val <;> simp [unitOf, hu, hv, mul_comm]), h11, h12, h13, h14, h15, h16, h17, h18⟩, Or.inr ⟨hu, hv⟩⟩
      · simp only [if_neg hc3]
        by_cases hc4 : uc = 'S'
        · simp only [if_pos hc4]
          exact ⟨⟨h1, h2, rfl, h4, h5, h6, h7, h8, h9, h10, h11, h12, h13, h14, h15, h16, h17, h18⟩, Or.inr ⟨hu, hv⟩⟩
        · simp only [if_neg hc4]
          by_cases hc5 : uc = 'T'
          · simp only [if_pos hc5]
            cases val with
            | none => exact ⟨⟨h1, h2, h3, h4, h5, h6, h7, h8, h9, h10, h11, h12, h13, h14, h15, h16, h17, h18⟩, Or.inr ⟨hu, hv⟩⟩
            | some v => exact ⟨⟨h1, h2, h3, rfl, h5, h6, h7, h8, h9, h10, h11, h12, h13, h14, h15, h16, h17, h18⟩, Or.inr ⟨hu, hv⟩⟩
          · simp only [if_neg hc5]
            by_cases hc6 : uc = 'I'
            · simp only [if_pos hc6]
              exact ⟨⟨h1, h2, h3, h4, h5, h6, h7, h8, h9, h10, h11, h12, h13, Or.inr (by cases val <;> simp [unitOf, hu, hv, mul_comm]), h15, h16, h17, h18⟩, Or.inr ⟨hu, hv⟩⟩
            · simp only [if_neg hc6]
              by_cases hc7 : uc = 'J'
              · simp only [if_pos hc7]
                exact ⟨⟨h1, h2, h3, h4, h5, h6, h7, h8, h9, h10, h11, h12, h13, h14, Or.inr (by cases val <;> simp [unitOf, hu, hv, mul_comm]), h16, h17, h18⟩, Or.inr ⟨hu, hv⟩⟩
              · simp only [if_neg hc7]
                by_cases hc8 : uc = 'R'
                · simp only [if_pos hc8]
                  exact ⟨⟨h1, h2, h3, h4, h5, h6, h7, h8, h9, h10, h11, h12, h13, h14, h15, Or.inr (by cases val <;> simp [unitOf, hu, hv, mul_comm]), h17, h18⟩, Or.inr ⟨hu, hv⟩⟩
                · simp only [if_neg hc8]
                  by_cases hc9 : uc = 'D'
                  · simp only [if_pos hc9]
                    exact ⟨⟨h1, h2, h3, h4, rfl, h6, h7, h8, h9, h10, h11, h12, h13, h14, h15, h16, Or.inr (by cases val <;> simp [unitOf, hu, hv, mul_comm]), h18⟩, Or.inr ⟨hu, hv⟩⟩
                  · simp only [if_neg hc9]
                    by_cases hc10 : uc = 'H'
                    · simp only [if_pos hc10]
                      exact ⟨⟨h1, h2, h3, h4, h5, rfl, h7, h8, h9, h10, h11, h12, h13, h14, h15, h16, h17, Or.inr (by cases val <;> simp [unitOf, hu, hv, mul_comm])⟩, Or.inr ⟨hu, hv⟩⟩
                    · simp only [if_neg hc10]
                      by_cases hc11 : uc = 'X'
                      · simp only [if_pos hc11]
                        exact ⟨⟨h1, h2, h3, h4, h5, h6, by cases val <;> simp [h7], h8, h9, h10, Or.inr (by cases val <;> simp [unitOf, hu, hv, mul_comm]), h12, h13, h14, h15, h16, h17, h18⟩, Or.inr ⟨hu, hv⟩⟩
                      · simp only [if_neg hc11]
                        by_cases hc12 : uc = 'Y'
                        · simp only [if_pos hc12]
                          exact ⟨⟨h1, h2, h3, h4, h5, h6, h7, by cases val <;> simp [h8], h9, h10, h11, Or.inr (by cases val <;> simp [unitOf, hu, hv, mul_comm]), h13, h14, h15, h16, h17, h18⟩, Or.inr ⟨hu, hv⟩⟩
                        · simp only [if_neg hc12]
                          by_cases hc13 : uc = 'Z'
                          · simp only [if_pos hc13]
                            exact ⟨⟨h1, h2, h3, h4, h5, h6, h7, h8, by cases val <;> simp [h9], h10, h11, h12, Or.inr (by cases val <;> simp [unitOf, hu, hv, mul_comm]), h14, h15, h16, h17, h18⟩, Or.inr ⟨hu, hv⟩⟩
                          · simp only [if_neg hc13]
                            exact ⟨⟨h1, h2, h3, h4, h5, h6, h7, h8, h9, h10, h11, h12, h13, h14, h15, h16, h17, h18⟩, Or.inr ⟨hu, hv⟩⟩

theorem scanAux_rel_sync (fuel : ℕ) :
    ∀ (bytes : List Char) (c : ℕ) (labels : List (String × ℕ)) (cur_work : ℕ → Option ℚ)
      (m1 m2 : MachineBrain) (a b : Words), ScaledRel a b →
      a.units_mm_word = b.units_mm_word →
      ScaledRel (scanAux fuel c labels cur_work m1 a bytes).2
          (scanAux fuel c labels cur_work m2 b bytes).2 ∧
        (scanAux fuel c labels cur_work m1 a bytes).2.units_mm_word =
          (scanAux fuel c labels cur_work m2 b bytes).2.units_mm_word := by
  induction fuel with
  | zero => intro bytes c labels cur_work m1 m2 a b hrel hu; exact ⟨hrel, hu⟩
  | succ fuel ih =>
    intro bytes c labels cur_work m1 m2 a b hrel hu
    unfold scanAux
    cases hstep : scanStep labels bytes with
    | stop => exact ⟨hrel, hu⟩
    | skip rest => exact ih rest c labels cur_work m1 m2 a b hrel hu
    | label axis_id val rest =>
      cases val <;> exact ih rest c labels cur_work _ _ a b hrel hu
    | word uc val rest =>
      obtain ⟨hrel', hu'⟩ := applyWordTok_rel_sync a b uc val hrel hu
      exact ih rest c labels cur_work m1 m2 _ _ hrel' hu'

theorem scanAux_rel_mixed (fuel : ℕ) :
    ∀ (bytes : List Char) (c : ℕ) (labels : List (String × ℕ)) (cur_work : ℕ → Option ℚ)
      (m1 m2 : MachineBrain) (a b : Words), ScaledRel a b →
      a.units_mm_word = true → b.units_mm_word = false →
      ScaledRel (scanAux fuel c labels cur_work m1 a bytes).2
        (scanAux fuel c labels cur_work m2 b bytes).2 := by
  induction fuel with
  | zero => intro bytes c labels cur_work m1 m2 a b hrel hu hv; exact hrel
  | succ fuel ih =>
    intro bytes c labels cur_work m1 m2 a b hrel hu hv
    unfold scanAux
    cases hstep : scanStep labels bytes with
    | stop => exact hrel
    | skip rest => exact ih rest c labels cur_work m1 m2 a b hrel hu hv
    | label axis_id val rest =>
      cases val <;> exact ih rest c labels cur_work _ _ a b hrel hu hv
    | word uc val rest =>
      obtain ⟨hrel', hd⟩ := applyWordTok_rel_mixed a b uc val hrel hu hv
      cases hd with
      | inl hsync => exact (scanAux_rel_sync fuel rest c labels cur_work m1 m2 _ _ hrel' hsync).1
      | inr hd => exact ih rest c labels cur_work m1 m2 _ _ hrel' hd.1 hd.2

theorem scanAux_g20_front (fuel c : ℕ) (labels : List (String × ℕ))
    (cur_work : ℕ → Option ℚ) (m : MachineBrain) (w : Words) (rest : List Char)
    (hlab : labels.find?
      (fun l => 1 < l.1.length ∧ startsWith ('G' :: '2' :: '0' :: ' ' :: rest) l.1.data)
      = none) :
    scanAux (fuel + 2) c labels cur_work m w ('G' :: '2' :: '0' :: ' ' :: rest) =
      scanAux fuel c labels cur_work m
        { w with g_words := w.g_words ++ [20], units_mm_word := false } rest := by
  have hstep : scanStep labels ('G' :: '2' :: '0' :: ' ' :: rest)
      = ScanStep.word 'G' (some 20) (' ' :: rest) := by
    simp only [scanStep, hlab]
    rfl
  have happ : applyWordTok w 'G' (some 20)
      = { w with g_words := w.g_words ++ [20], units_mm_word := false } := rfl
  have hstep2 : scanStep labels (' ' :: rest) = ScanStep.skip rest := rfl
  show scanAux (fuel + 1 + 1) c labels cur_work m w _ = _
  rw [scanAux, hstep]
  show scanAux (fuel + 1) c labels cur_work m _ _ = _
  rw [scanAux, hstep2, happ]

/-- Claim C2, amended: unit scaling is applied during lexing with a running
factor.  First conjunct: a `G20` word switches the scan to inch mode for the
words after it (so words before the token keep the factor that was in effect,
refuting "regardless of where in the block the word appears").  Second
conjunct: relative to millimetre-mode lexing of the same bytes, inch-mode
lexing multiplies exactly the length-bearing words it records (axis words,
F, I, J, R, and the scaled D/H values) by 25.4, until a further G20/G21 word
resynchronises the two modes — `G21` restores the factor 1.0 for subsequent
words. -/
theorem c2_unit_scaling_positional :
    (∀ (fuel c : ℕ) (labels : List (String × ℕ)) (cur_work : ℕ → Option ℚ)
       (m : MachineBrain) (w : Words) (rest : List Char),
       labels.find?
         (fun l => 1 < l.1.length ∧ startsWith ('G' :: '2' :: '0' :: ' ' :: rest) l.1.data)
         = none →
       scanAux (fuel + 2) c labels cur_work m w ('G' :: '2' :: '0' :: ' ' :: rest) =
         scanAux fuel c labels cur_work m
           { w with g_words := w.g_words ++ [20], units_mm_word := false } rest) ∧
    (∀ (fuel : ℕ) (bytes : List Char) (c : ℕ) (labels : List (String × ℕ))
       (cur_work : ℕ → Option ℚ) (m1 m2 : MachineBrain) (a b : Words),
       ScaledRel a b → a.units_mm_word = true → b.units_mm_word = false →
       ScaledRel (scanAux fuel c labels cur_work m1 a bytes).2
         (scanAux fuel c labels cur_work m2 b bytes).2) :=
  ⟨scanAux_g20_front, scanAux_rel_mixed⟩

/-- Witness for `c2_unit_scaling_positional`: the block `"G20 X1"` lexes as
`"X1"` in inch mode, and inch-mode lexing of `"X1"` scales the X word by
25.4 relative to millimetre mode. -/
theorem c2_unit_scaling_positional_witness :
    scanAux 5 0 [] (fun _ => none) MachineBrain.new (Words.init true)
        ('G' :: '2' :: '0' :: ' ' :: 'X' :: '1' :: []) =
      scanAux 3 0 [] (fun _ => none) MachineBrain.new
        { Words.init true with g_words := (Words.init true).g_words ++ [20],
                               units_mm_word := false } ('X' :: '1' :: []) ∧
    ScaledRel (scanAux 3 0 [] (fun _ => none) MachineBrain.new (Words.init true)
        ('X' :: '1' :: [])).2
      (scanAux 3 0 [] (fun _ => none) MachineBrain.new (Words.init false)
        ('X' :: '1' :: [])).2 :=
  ⟨c2_unit_scaling_positional.1 3 0 [] (fun _ => none) MachineBrain.new (Words.init true)
     ('X' :: '1' :: []) (by decide),
   c2_unit_scaling_positional.2 3 ('X' :: '1' :: []) 0 [] (fun _ => none)
     MachineBrain.new MachineBrain.new (Words.init true) (Words.init false)
     (by decide) rfl rfl⟩

/-! ## Claim C5: impossible arc geometry -/

theorem foldl_preserve {α : Type} (P : MachineBrain → MachineBrain → Prop)
    (hrefl : ∀ m, P m m)
    (htrans : ∀ m1 m2 m3, P m1 m2 → P m2 m3 → P m1 m3)
    (F : MachineBrain → α → MachineBrain) (hF : ∀ m a, P m (F m a)) (l : List α)
    (m : MachineBrain) : P m (l.foldl F m) := by
  induction l generalizing m with
  | nil => exact hrefl m
  | cons a l ih => exact htrans m (F m a) _ (hF m a) (ih (F m a))

theorem pwUpdate_axes (m : MachineBrain) (c : ℕ) (x y z : Option ℕ)
    (ew : ℕ → Option ℚ) : (pwUpdate m c x y z ew).axes = m.axes := by
  unfold pwUpdate
  refine foldl_preserve (fun m1 m2 => m2.axes = m1.axes) (fun _ => rfl)
    (fun _ _ _ h1 h2 => h2.trans h1) _ ?_ _ m
  intro m a
  rcases a with _ | id
  · rfl
  · change (match ew id with
      | some vw => modChan m c (fun ch : Channel =>
          { ch with programmed_work := updMap ch.programmed_work id vw })
      | none => m).axes = m.axes
    cases ew id <;> simp [modChan_axes]

theorem pwUpdate_pendlen (m : MachineBrain) (c : ℕ) (x y z : Option ℕ)
    (ew : ℕ → Option ℚ) (i : ℕ) :
    ((pwUpdate m c x y z ew).channels.get? i).map (fun ch => ch.pending.length) =
      ((m.channels.get? i).map (fun ch => ch.pending.length)) := by
  unfold pwUpdate
  refine foldl_preserve
    (fun m1 m2 => (m2.channels.get? i).map (fun ch => ch.pending.length) =
      (m1.channels.get? i).map (fun ch => ch.pending.length))
    (fun _ => rfl) (fun _ _ _ h1 h2 => h2.trans h1) _ ?_ _ m
  intro m a
  rcases a with _ | id
  · rfl
  · change (((match ew id with
      | some vw => modChan m c (fun ch : Channel =>
          { ch with programmed_work := updMap ch.programmed_work id vw })
      | none => m : MachineBrain)).channels.get? i).map (fun ch => ch.pending.length) =
      ((m.channels.get? i).map (fun ch => ch.pending.length))
    cases ew id with
    | none => rfl
    | some vw =>
      rw [modChan_channels_get?]
      split
      · cases m.channels.get? i <;> simp
      · rfl

theorem arcMove_axes (M : MathFns) (m : MachineBrain) (c : ℕ) (xid yid : ℕ)
    (z_id : Option ℕ) (motion : ℤ) (cur_work end_work : ℕ → Option ℚ)
    (i_off j_off r_word : Option ℚ) (cc : ℤ) (tr : ℚ) (lca : Bool) (tl : ℚ) :
    (arcMove M m c xid yid z_id motion cur_work end_work i_off j_off r_word
      cc tr lca tl).axes = m.axes := by
  simp only [arcMove]
  split
  · rfl
  · rw [pwUpdate_axes, modChan_axes]
  · split
    · rfl
    · rw [pwUpdate_axes]
      simp [arcExpand]

theorem arcCenter_r_zero_chord (M : MathFns) (sx sy ex ey r0 : ℚ) (cw : Bool)
    (h : M.sqrt ((ex - sx) * (ex - sx) + (ey - sy) * (ey - sy)) ≤ 1/10^9) :
    arcCenter M sx sy ex ey none none (some r0) cw = ArcCenterRes.ignore := by
  unfold arcCenter
  rw [if_neg (by simp)]
  exact if_pos h

theorem arcCenter_r_far (M : MathFns) (sx sy ex ey r0 : ℚ) (cw : Bool)
    (h1 : ¬ (M.sqrt ((ex - sx) * (ex - sx) + (ey - sy) * (ey - sy)) ≤ 1/10^9))
    (h2 : M.sqrt ((ex - sx) * (ex - sx) + (ey - sy) * (ey - sy)) > 2 * |r0| + 1/10^9) :
    arcCenter M sx sy ex ey none none (some r0) cw = ArcCenterRes.ignore := by
  unfold arcCenter
  rw [if_neg (by simp)]
  exact (if_neg h1).trans (if_pos h2)

theorem arcCenter_r_nan (M : MathFns) (sx sy ex ey r0 : ℚ) (cw : Bool)
    (h1 : ¬ (M.sqrt ((ex - sx) * (ex - sx) + (ey - sy) * (ey - sy)) ≤ 1/10^9))
    (h2 : ¬ (M.sqrt ((ex - sx) * (ex - sx) + (ey - sy) * (ey - sy)) > 2 * |r0| + 1/10^9))
    (h3 : |r0| * |r0| -
        (M.sqrt ((ex - sx) * (ex - sx) + (ey - sy) * (ey - sy)) * (1/2)) *
        (M.sqrt ((ex - sx) * (ex - sx) + (ey - sy) * (ey - sy)) * (1/2)) < 0) :
    arcCenter M sx sy ex ey none none (some r0) cw = ArcCenterRes.nan := by
  unfold arcCenter
  rw [if_neg (by simp)]
  exact (if_neg h1).trans ((if_neg h2).trans (if_pos h3))

/-- Counterexample to claim C5 as stated: an R-form arc whose chord exceeds
`2|R|` (by less than the `1e-9` guard) is not discarded — the `f64` source
takes the square root of a negative number, the NaN propagates, and
(`f64::max` ignoring NaN, `clamp`, `as usize`) the block enqueues 24
degenerate segments instead of none.  Start `(0,0)`, end `(1 + 1e-10, 0)`,
`R = 1/2`: the chord `1 + 1e-10` exceeds `2|R| = 1`, yet 24 segments are
pushed onto the queue. -/
theorem c5_counterexample :
    (fun cw ew =>
      mathW.sqrt (((1 + 1/10^10 : ℚ) - 0) * ((1 + 1/10^10 : ℚ) - 0) + (0 - 0) * (0 - 0))
          > 2 * |(1/2 : ℚ)| ∧
      ((arcMove mathW brainXYZ 0 0 1 (some 2) 2 cw ew none none (some (1/2)) 40 0 false
          0).channels.get? 0).map (fun ch => ch.pending.length) = some 24 ∧
      (brainXYZ.channels.get? 0).map (fun ch => ch.pending.length) = some 0)
      (fun i => if i ≤ 2 then some (0 : ℚ) else none)
      (fun i => if i = 0 then some (1 + 1/10^10 : ℚ) else if i ≤ 2 then some 0 else none)
      := by decide

/-- Claim C5, amended: the discard guards operate with the source's
tolerances.  For a G2/G3 block (`arcMove` is the motion part of
`parse_line` for motion 2/3): (i) the motion part never changes any axis
target; (ii) an R-form arc with zero chord is discarded (no segment
enqueued, machine unchanged); (iii) an R-form arc whose chord exceeds
`2|R| + 1e-9` is discarded; (iv) an arc whose resolved centre lies within
`1e-9` of the start point (zero radius, e.g. `I0 J0`) is discarded; but
(v) in the borderline band `2|R| < chord ≤ 2|R| + 1e-9` the centre
computation degenerates (NaN in `f64`) and the block instead enqueues
exactly 24 degenerate segments. -/
theorem c5_impossible_arc_discard (M : MathFns) (m : MachineBrain) (c : ℕ) (xid yid : ℕ)
    (z_id : Option ℕ) (motion : ℤ) (cur_work end_work : ℕ → Option ℚ)
    (i_off j_off r_word : Option ℚ) (cc : ℤ) (tr : ℚ) (lca : Bool) (tl : ℚ)
    (sx sy ex ey : ℚ)
    (hsx : (cur_work xid).getD 0 = sx) (hsy : (cur_work yid).getD 0 = sy)
    (hex : (end_work xid).getD sx = ex) (hey : (end_work yid).getD sy = ey) :
    ((arcMove M m c xid yid z_id motion cur_work end_work i_off j_off r_word
        cc tr lca tl).axes = m.axes) ∧
    (i_off = none → j_off = none → ∀ r0, r_word = some r0 → ex = sx → ey = sy →
      M.sqrt 0 = 0 →
      arcMove M m c xid yid z_id motion cur_work end_work i_off j_off r_word
        cc tr lca tl = m) ∧
    (i_off = none → j_off = none → ∀ r0, r_word = some r0 →
      M.sqrt ((ex - sx) * (ex - sx) + (ey - sy) * (ey - sy)) > 2 * |r0| + 1/10^9 →
      arcMove M m c xid yid z_id motion cur_work end_work i_off j_off r_word
        cc tr lca tl = m) ∧
    (∀ cx cy, arcCenter M sx sy ex ey i_off j_off r_word (motion = 2)
        = ArcCenterRes.centre cx cy →
      M.sqrt ((sx - cx) ^ 2 + (sy - cy) ^ 2) ≤ 1/10^9 →
      arcMove M m c xid yid z_id motion cur_work end_work i_off j_off r_word
        cc tr lca tl = m) ∧
    (i_off = none → j_off = none → ∀ r0, r_word = some r0 →
      1/10^9 < M.sqrt ((ex - sx) * (ex - sx) + (ey - sy) * (ey - sy)) →
      2 * |r0| < M.sqrt ((ex - sx) * (ex - sx) + (ey - sy) * (ey - sy)) →
      M.sqrt ((ex - sx) * (ex - sx) + (ey - sy) * (ey - sy)) ≤ 2 * |r0| + 1/10^9 →
      ((arcMove M m c xid yid z_id motion cur_work end_work i_off j_off r_word
          cc tr lca tl).channels.get? c).map (fun ch => ch.pending.length)
        = (m.channels.get? c).map (fun ch => ch.pending.length + 24)) := by
  refine ⟨arcMove_axes M m c xid yid z_id motion cur_work end_work i_off j_off r_word
    cc tr lca tl, ?_, ?_, ?_, ?_⟩
  · intro hi hj r0 hr0 hx0 hy0 hs0
    have harg : (ex - sx) * (ex - sx) + (ey - sy) * (ey - sy) = 0 := by
      rw [hx0, hy0]; ring
    have hcent : arcCenter M sx sy ex ey i_off j_off r_word (motion = 2)
        = ArcCenterRes.ignore := by
      rw [hi, hj, hr0]
      exact arcCenter_r_zero_chord M sx sy ex ey r0 _ (by rw [harg, hs0]; norm_num)
    simp only [arcMove, hsx, hsy, hex, hey, hcent]
  · intro hi hj r0 hr0 hchord
    have hcent : arcCenter M sx sy ex ey i_off j_off r_word (motion = 2)
        = ArcCenterRes.ignore := by
      rw [hi, hj, hr0]
      refine arcCenter_r_far M sx sy ex ey r0 _ ?_ hchord
      push_neg
      have h0 : (0 : ℚ) ≤ 2 * |r0| := by positivity
      linarith
    simp only [arcMove, hsx, hsy, hex, hey, hcent]
  · intro cx cy hcent hr
    simp only [arcMove, hsx, hsy, hex, hey, hcent]
    rw [if_pos hr]
  · intro hi hj r0 hr0 h0 h1 h2
    have hcent : arcCenter M sx sy ex ey i_off j_off r_word (motion = 2)
        = ArcCenterRes.nan := by
      rw [hi, hj, hr0]
      refine arcCenter_r_nan M sx sy ex ey r0 _ (by push_neg; exact h0)
        (by push_neg; exact h2) ?_
      nlinarith [abs_nonneg r0, h1]
    simp only [arcMove, hsx, hsy, hex, hey, hcent]
    rw [pwUpdate_pendlen]
    rw [modChan_channels_get?, if_pos rfl]
    cases hc : m.channels.get? c with
    | none => rfl
    | some ch => simp

theorem c5_impossible_arc_discard_witness :
    arcMove mathW brainXYZ 0 0 1 (some 2) 2 (fun _ => some (0 : ℚ)) (fun _ => some (0 : ℚ))
      none none (some (1/2)) 40 0 false 0 = brainXYZ :=
  (c5_impossible_arc_discard mathW brainXYZ 0 0 1 (some 2) 2
    (fun _ => some (0 : ℚ)) (fun _ => some (0 : ℚ)) none none (some (1/2)) 40 0 false 0
    0 0 0 0 rfl rfl rfl rfl).2.1 rfl rfl (1/2) rfl rfl rfl (by decide)

/-! ## Claim C6: arc sub-segment count -/

/-- The segment-count formula exactly as the claim states it: `tol = 0.005`,
`step_ang = 2·acos(clamp(1 − tol/r, −1, 1))`, `n_tol = ceil(|Δa|/step_ang)`,
`n_len = ceil(r·|Δa|/1.5)`, `n = clamp(max(n_tol, n_len), 24, 1440)` — with
no mention of the source's `r ≤ tol` and `step_ang ≤ 1e-6` fallbacks to 3.
Compared with the source-derived `arcN` by `c6_arc_segment_count`. -/
def arcNClaim (M : MathFns) (r da : ℚ) : ℕ :=
  let tol : ℚ := 1/200
  let step_ang := 2 * M.acos (clampQ (1 - tol / r) (-1) 1)
  let n_tol : ℚ := ((⌈|da| / step_ang⌉ : ℤ) : ℚ)
  let n_len : ℚ := ((⌈r * |da| / (3/2)⌉ : ℤ) : ℚ)
  (⌊clampQ (max n_tol n_len) 24 1440⌋).toNat

/-- Claim C6, confirmed: for a non-degenerate expanded arc (radius above the
`1e-9` discard guard, non-zero sweep normalised into `[−2π, 2π]`), the
source's segment count (`arcN`, which falls back to `n_tol = 3` when
`r ≤ tol` or when `step_ang` underflows `1e-6`) agrees with the claim's
formula `clamp(max(ceil(|Δa|/step_ang), ceil(r·|Δa|/1.5)), 24, 1440)`
(the fallback branches are absorbed by the clamp), and the expansion
appends exactly that many sub-segments to the channel's queue, the `k`-th
(counting from 1) at parameter `k/n`, i.e. at angle `a0 + Δa·(k/n)`.  The
hypotheses on `M.acos` and `M.pi` are the standard facts of the real
`arccos` and π: positivity below 1, the value at non-positive arguments
exceeding 1.5707, the concavity bound `arccos(y)² ≥ 2(1−y)`, and rational
bounds on π. -/
theorem c6_arc_segment_count (M : MathFns) (m : MachineBrain) (c : ℕ) (ch : Channel)
    (xid yid : ℕ) (z_id : Option ℕ) (cur_work end_work : ℕ → Option ℚ) (cc : ℤ)
    (tr : ℚ) (lca : Bool) (tl : ℚ) (cx cy r a0 da : ℚ)
    (hch : m.channels.get? c = some ch)
    (hacos_pos : ∀ y : ℚ, -1 ≤ y → y < 1 → 0 < M.acos y)
    (hacos_half : ∀ y : ℚ, -1 ≤ y → y ≤ 0 → 15707/10000 ≤ M.acos y)
    (hacos_sq : ∀ y : ℚ, -1 ≤ y → y ≤ 1 → 2 * (1 - y) ≤ M.acos y ^ 2)
    (hpi_lo : 31415/10000 ≤ M.pi) (hpi_hi : M.pi ≤ 31416/10000)
    (hr : 1/10^9 < r) (hda0 : da ≠ 0) (hda : |da| ≤ 2 * M.pi) :
    arcN M r da = arcNClaim M r da ∧
    (arcExpand M m c xid yid z_id cur_work end_work cc tr lca tl
        cx cy r a0 da).channels.get? c
      = some { ch with pending := ch.pending ++
          (List.range (arcNClaim M r da)).map (fun k =>
            arcSegAt M m xid yid z_id cur_work end_work cc tr lca tl cx cy r a0 da
              (((k + 1 : ℕ) : ℚ) / ((arcNClaim M r da : ℕ) : ℚ))) } := by
  have hr0 : (0 : ℚ) < r := lt_trans (by norm_num) hr
  have hmain : arcN M r da = arcNClaim M r da := by
    simp only [arcN, arcNClaim]
    set y := clampQ (1 - 1/200 / r) (-1) 1 with hy
    set s := 2 * M.acos y with hs
    set nt : ℚ := ((⌈|da| / s⌉ : ℤ) : ℚ) with hnt
    set nl : ℚ := ((⌈r * |da| / (3/2)⌉ : ℤ) : ℚ) with hnl
    have hda_pos : 0 < |da| := abs_pos.mpr hda0
    have hpi6 : |da| ≤ 62832/10000 := by linarith
    have hnl1 : (1 : ℚ) ≤ nl := by
      have h1 : (0 : ℚ) < r * |da| / (3/2) :=
        div_pos (mul_pos hr0 hda_pos) (by norm_num)
      have h2 : (1 : ℤ) ≤ ⌈r * |da| / (3/2)⌉ := Int.ceil_pos.mpr h1
      rw [hnl]; exact_mod_cast h2
    have hy_lo : (-1 : ℚ) ≤ y := by rw [hy]; unfold clampQ; exact le_max_left _ _
    suffices key : clampQ (max (if r ≤ 1/200 then 3
        else if s > 1/10^6 then nt else 3) nl) 24 1440
        = clampQ (max nt nl) 24 1440 by rw [key]
    by_cases hrt : r ≤ 1/200
    · rw [if_pos hrt]
      have h1r : 1 ≤ (1/200) / r := (one_le_div hr0).mpr hrt
      have hy0 : y ≤ 0 := by
        rw [hy]; unfold clampQ
        exact max_le (by norm_num) (le_trans (min_le_right _ _) (by linarith))
      have hacos1 : 15707/10000 ≤ M.acos y := hacos_half y hy_lo hy0
      have hs_lo : 31414/10000 ≤ s := by rw [hs]; linarith
      have hs_pos : (0 : ℚ) < s := by linarith
      have hnt3 : nt ≤ 3 := by
        have h1 : |da| / s ≤ 3 := by
          rw [div_le_iff hs_pos]; linarith
        have h2 : (⌈|da| / s⌉ : ℤ) ≤ 3 := Int.ceil_le.mpr (by exact_mod_cast h1)
        rw [hnt]; exact_mod_cast h2
      have hnl3 : nl ≤ 3 := by
        have h1 : r * |da| ≤ (1/200) * (62832/10000) :=
          mul_le_mul hrt hpi6 (abs_nonneg da) (by norm_num)
        have h2 : r * |da| / (3/2) ≤ 3 := by
          rw [div_le_iff (by norm_num : (0:ℚ) < 3/2)]; linarith
        have h3 : (⌈r * |da| / (3/2)⌉ : ℤ) ≤ 3 := Int.ceil_le.mpr (by exact_mod_cast h2)
        rw [hnl]; exact_mod_cast h3
      rw [max_eq_left hnl3]
      have hmx : max nt nl ≤ 3 := max_le hnt3 hnl3
      unfold clampQ
      rw [min_eq_right (by linarith : max nt nl ≤ (1440 : ℚ)),
        min_eq_right (by norm_num : (3 : ℚ) ≤ 1440),
        max_eq_left (by linarith : max nt nl ≤ (24 : ℚ)),
        max_eq_left (by norm_num : (3 : ℚ) ≤ 24)]
    · rw [if_neg hrt]
      have hr200 : 1/200 < r := lt_of_not_le hrt
      have hdr1 : (1/200) / r < 1 := (div_lt_one hr0).mpr hr200
      have hdr0 : (0 : ℚ) < (1/200) / r := div_pos (by norm_num) hr0
      have hy_eq : y = 1 - 1/200 / r := by
        rw [hy]; unfold clampQ
        rw [min_eq_right (by linarith), max_eq_right (by linarith)]
      have hy_lt1 : y < 1 := by rw [hy_eq]; linarith
      have hs_pos : (0 : ℚ) < s := by
        have := hacos_pos y hy_lo hy_lt1
        rw [hs]; linarith
      by_cases hstep : s > 1/10^6
      · rw [if_pos hstep]
      · rw [if_neg hstep]
        have hsle : s ≤ 1/10^6 := le_of_not_lt hstep
        have hrs : (1/25 : ℚ) ≤ r * s^2 := by
          have hsq := hacos_sq y hy_lo (le_of_lt hy_lt1)
          have h1y : 2 * (1 - y) = (1/100) / r := by rw [hy_eq]; ring
          rw [h1y] at hsq
          have hacos2 : M.acos y = s / 2 := by rw [hs]; ring
          rw [hacos2, div_le_iff hr0] at hsq
          have e : (s/2)^2 * r = r * s^2 / 4 := by ring
          linarith
        have hr40 : (4 * 10^10 : ℚ) ≤ r := by
          have hs2 : s^2 ≤ 1/10^12 := by
            have h := mul_le_mul hsle hsle hs_pos.le (by norm_num : (0:ℚ) ≤ 1/10^6)
            rw [pow_two]
            linarith
          have h2 : r * s^2 ≤ r * (1/10^12) := mul_le_mul_of_nonneg_left hs2 hr0.le
          linarith
        by_cases hbig : (1440 : ℚ) ≤ nl
        · have l1 : (1440 : ℚ) ≤ max 3 nl := le_trans hbig (le_max_right _ _)
          have l2 : (1440 : ℚ) ≤ max nt nl := le_trans hbig (le_max_right _ _)
          unfold clampQ
          rw [min_eq_left l1, min_eq_left l2]
        · have hsmall : nl < 1440 := lt_of_not_le hbig
          have hA : r * |da| ≤ 4317/2 := by
            rw [hnl] at hsmall
            have h1 : (⌈r * |da| / (3/2)⌉ : ℤ) < 1440 := by exact_mod_cast hsmall
            have h2 : (⌈r * |da| / (3/2)⌉ : ℤ) ≤ 1439 := by omega
            have h3 : r * |da| / (3/2) ≤ ((1439 : ℤ) : ℚ) := Int.ceil_le.mp h2
            rw [div_le_iff (by norm_num : (0:ℚ) < 3/2)] at h3
            push_cast at h3
            linarith
          have hdas : |da| < s := by
            have hq1 : (r * |da|)^2 ≤ ((4317:ℚ)/2)^2 :=
              pow_le_pow_left (mul_nonneg hr0.le (abs_nonneg da)) hA 2
            have hq2 : ((4317:ℚ)/2)^2 < r^2 * s^2 := by
              have h1 : r * (1/25) ≤ r * (r * s^2) :=
                mul_le_mul_of_nonneg_left hrs hr0.le
              have e1 : r^2 * s^2 = r * (r * s^2) := by ring
              rw [e1]
              linarith
            have hq3 : (r * |da|)^2 < (r * s)^2 := by
              have e2 : (r * s)^2 = r^2 * s^2 := by ring
              rw [e2]
              linarith
            have hq4 : r * |da| < r * s := by
              by_contra hcon
              push_neg at hcon
              have := pow_le_pow_left (mul_nonneg hr0.le hs_pos.le) hcon 2
              linarith
            exact lt_of_mul_lt_mul_left hq4 hr0.le
          have hnt1 : nt ≤ 1 := by
            have h1 : |da| / s ≤ 1 := le_of_lt ((div_lt_one hs_pos).mpr hdas)
            have h2 : (⌈|da| / s⌉ : ℤ) ≤ 1 := Int.ceil_le.mpr (by exact_mod_cast h1)
            rw [hnt]; exact_mod_cast h2
          have hmax2 : max nt nl = nl := max_eq_right (le_trans hnt1 hnl1)
          rw [hmax2]
          by_cases h3nl : (3 : ℚ) ≤ nl
          · rw [max_eq_right h3nl]
          · have hnl3 : nl < 3 := lt_of_not_le h3nl
            rw [max_eq_left (le_of_lt hnl3)]
            unfold clampQ
            rw [min_eq_right (by norm_num : (3 : ℚ) ≤ 1440),
              min_eq_right (by linarith : nl ≤ (1440 : ℚ)),
              max_eq_left (by norm_num : (3 : ℚ) ≤ 24),
              max_eq_left (by linarith : nl ≤ (24 : ℚ))]
  refine ⟨hmain, ?_⟩
  simp only [arcExpand]
  rw [hmain]
  exact modChan_get?_self m c _ ch hch

theorem c6_arc_segment_count_witness :
    arcN mathW 1 1 = arcNClaim mathW 1 1 ∧
    (arcExpand mathW brainXYZ 0 0 1 (some 2) (fun _ => some (0 : ℚ))
        (fun _ => some (0 : ℚ)) 40 0 false 0 0 0 1 0 1).channels.get? 0
      = some { getCh brainXYZ 0 with pending := (getCh brainXYZ 0).pending ++
          (List.range (arcNClaim mathW 1 1)).map (fun k =>
            arcSegAt mathW brainXYZ 0 1 (some 2) (fun _ => some (0 : ℚ))
              (fun _ => some (0 : ℚ)) 40 0 false 0 0 0 1 0 1
              (((k + 1 : ℕ) : ℚ) / ((arcNClaim mathW 1 1 : ℕ) : ℚ))) } :=
  c6_arc_segment_count mathW brainXYZ 0 (getCh brainXYZ 0) 0 1 (some 2)
    (fun _ => some (0 : ℚ)) (fun _ => some (0 : ℚ)) 40 0 false 0 0 0 1 0 1
    rfl
    (fun y _ h2 => by show (0 : ℚ) < 2 - y; linarith)
    (fun y _ h2 => by show (15707/10000 : ℚ) ≤ 2 - y; linarith)
    (fun y _ _ => by show 2 * (1 - y) ≤ (2 - y)^2; nlinarith [sq_nonneg (y - 1)])
    (by decide) (by decide) (by decide) one_ne_zero (by decide)

/-! ## Claim C3: G40 on a motion block -/

/-- The word record produced by scanning a `G1 G40 X.. Y..` block (axis
values already unit-scaled): the block shape of the claim, with `G40`
together with axis motion words. -/
def g40Words (px py : ℚ) (units_mm : Bool) : Words :=
  { Words.init units_mm with
    g_words := [1, 40], x := some px, x_set := true,
    y := some py, y_set := true }

theorem machine_target_with_limits_modAxis_ne (m : MachineBrain) (i : ℕ) (f : Axis → Axis)
    (j : ℕ) (hj : j ≠ i) (v : ℚ) :
    machine_target_with_limits (modAxis m i f) j v = machine_target_with_limits m j v := by
  unfold machine_target_with_limits
  rw [show (modAxis m i f).axes.get? j = m.axes.get? j by rw [modAxis_axes_get?, if_neg hj]]

theorem updMap_self {α β : Type} [DecidableEq α] (f : α → Option β) (k : α) (v : β) :
    updMap f k v k = some v := by simp [updMap]

theorem updMap_ne {α β : Type} [DecidableEq α] (f : α → Option β) (k : α) (v : β)
    (k' : α) (h : k' ≠ k) : updMap f k v k' = f k' := by simp [updMap, h]

theorem pwUpdate_ssn (m : MachineBrain) (c : ℕ) (a b : ℕ) (ew : ℕ → Option ℚ)
    (va vb : ℚ) (h1 : ew a = some va) (h2 : ew b = some vb) :
    pwUpdate m c (some a) (some b) none ew =
      modChan (modChan m c (fun ch =>
          { ch with programmed_work := updMap ch.programmed_work a va })) c
        (fun ch => { ch with programmed_work := updMap ch.programmed_work b vb }) := by
  unfold pwUpdate
  simp only [List.foldl, h1, h2]

/-- `pwUpdate` only rewrites the `programmed_work` field of channel `c`:
whatever the three axis slots contain, the channel keeps every other field. -/
theorem pwUpdate_get?_pw (m : MachineBrain) (c : ℕ) (x y z : Option ℕ)
    (ew : ℕ → Option ℚ) (ch0 : Channel) (h : m.channels.get? c = some ch0) :
    ∃ pw2, (pwUpdate m c x y z ew).channels.get? c
      = some { ch0 with programmed_work := pw2 } := by
  have hstep : ∀ (mm : MachineBrain) (o : Option ℕ) (pw : ℕ → Option ℚ),
      mm.channels.get? c = some { ch0 with programmed_work := pw } →
      ∃ pw2, ((match o with
        | some id =>
          match ew id with
          | some vw => modChan mm c (fun ch =>
              { ch with programmed_work := updMap ch.programmed_work id vw })
          | none => mm
        | none => mm : MachineBrain)).channels.get? c
        = some { ch0 with programmed_work := pw2 } := by
    intro mm o pw hmm
    cases o with
    | none => exact ⟨pw, hmm⟩
    | some id =>
      show ∃ pw2, ((match ew id with
        | some vw => modChan mm c (fun ch =>
            { ch with programmed_work := updMap ch.programmed_work id vw })
        | none => mm : MachineBrain)).channels.get? c
        = some { ch0 with programmed_work := pw2 }
      cases hv : ew id with
      | none => exact ⟨pw, hmm⟩
      | some vw => exact ⟨updMap pw id vw, modChan_get?_self _ c _ _ hmm⟩
  unfold pwUpdate
  simp only [List.foldl]
  have h0 : m.channels.get? c
      = some { ch0 with programmed_work := ch0.programmed_work } := by rw [h]
  obtain ⟨p1, h1⟩ := hstep m x ch0.programmed_work h0
  obtain ⟨p2, h2⟩ := hstep _ y p1 h1
  obtain ⟨p3, h3⟩ := hstep _ z p2 h2
  exact ⟨p3, h3⟩

/-- Claim C3, confirmed: in a channel with cutter compensation 41 or 42
active and `tool_radius > 0`, a `G1 G40 X.. Y..` block (G40 together with
axis motion words) executes its geometry with the *previous* compensation
side — the XY axis targets are set to the endpoint offset by `tool_radius`
along the left/right normal picked by the old `cutter_comp`, exactly as if
G40 were absent — and afterwards the channel has `cutter_comp = 40` and no
linear-continuity record, so the next motion block runs uncompensated.
All other axes (a mapped Z axis included) are untouched and nothing is
queued.  The label table is arbitrary (X, Y and any further axes such as Z
mapped); the channel may be mid-program (`is_running` true): the only
look-ahead hypothesis is that the next-line peek for a same-side re-engage
comes back empty (`hpk`), which holds automatically when the channel is
idle and whenever the next program line does not itself contain a G41/G42
word. -/
theorem c3_g40_motion_block (M : MathFns) (m : MachineBrain) (c : ℕ) (ch : Channel)
    (labels : List (String × ℕ)) (cur_work : ℕ → Option ℚ) (xid yid : ℕ)
    (px py sx sy : ℚ)
    (hch : m.channels.get? c = some ch)
    (hcc : ch.cutter_comp = 41 ∨ ch.cutter_comp = 42)
    (htr : 0 < ch.tool_radius)
    (habs : ch.abs_mode = true)
    (hx : axis_id_for "X" labels = some xid)
    (hy : axis_id_for "Y" labels = some yid)
    (hxy : xid ≠ yid)
    (hzd : ∀ zid, axis_id_for "Z" labels = some zid → zid ≠ xid ∧ zid ≠ yid)
    (hpk : ∀ mm : MachineBrain, mm.channels.get? c = some { ch with
        cutter_comp := 40, comp_linear_prev := none, comp_entry_pending := false,
        current_motion := 1 } →
      peek_next_comp_linear_xy mm c px py 1 ch.abs_mode ch.units_mm 40 = none)
    (hsx : (cur_work xid).getD 0 = sx) (hsy : (cur_work yid).getD 0 = sy)
    (hlen : M.sqrt ((px - sx) * (px - sx) + (py - sy) * (py - sy)) > 1/10^9) :
    (((applyWords M m c labels cur_work ch.cutter_comp ch.comp_entry_pending
        (g40Words px py ch.units_mm)).channels.get? c).map Channel.cutter_comp
      = some 40) ∧
    (((applyWords M m c labels cur_work ch.cutter_comp ch.comp_entry_pending
        (g40Words px py ch.units_mm)).channels.get? c).map Channel.comp_linear_prev
      = some none) ∧
    (((applyWords M m c labels cur_work ch.cutter_comp ch.comp_entry_pending
        (g40Words px py ch.units_mm)).channels.get? c).map Channel.pending
      = some ch.pending) ∧
    ((applyWords M m c labels cur_work ch.cutter_comp ch.comp_entry_pending
        (g40Words px py ch.units_mm)).axes.get? xid
      = (m.axes.get? xid).map (fun ax =>
          { ax with target := machine_target_with_limits m xid (work_to_machine m xid
              (px + -((py - sy) / M.sqrt ((px - sx) * (px - sx) + (py - sy) * (py - sy)))
                * ch.tool_radius * (if ch.cutter_comp = 41 then 1 else -1))) })) ∧
    ((applyWords M m c labels cur_work ch.cutter_comp ch.comp_entry_pending
        (g40Words px py ch.units_mm)).axes.get? yid
      = (m.axes.get? yid).map (fun ax =>
          { ax with target := machine_target_with_limits m yid (work_to_machine m yid
              (py + (px - sx) / M.sqrt ((px - sx) * (px - sx) + (py - sy) * (py - sy))
                * ch.tool_radius * (if ch.cutter_comp = 41 then 1 else -1))) })) ∧
    (∀ j, j ≠ xid → j ≠ yid →
      (applyWords M m c labels cur_work ch.cutter_comp ch.comp_entry_pending
        (g40Words px py ch.units_mm)).axes.get? j = m.axes.get? j) := by
  have hW : applyWords M m c labels cur_work ch.cutter_comp ch.comp_entry_pending
      (g40Words px py ch.units_mm)
      = motionPart M
          (modChan (modChan m c (fun ch => { ch with
              cutter_comp := 40, comp_linear_prev := none, comp_entry_pending := false })) c
            (fun ch => { ch with comp_entry_pending := false }))
          c labels cur_work ch.cutter_comp (g40Words px py ch.units_mm) 1 := by
    simp only [applyWords]
    rw [hch]
    rfl
  have hch1 := modChan_get?_self m c (fun ch => { ch with
      cutter_comp := 40, comp_linear_prev := none, comp_entry_pending := false }) ch hch
  have hch2 := modChan_get?_self _ c (fun ch => { ch with comp_entry_pending := false }) _ hch1
  have hch3 := modChan_get?_self _ c (fun ch => { ch with current_motion := (1 : ℤ) }) _ hch2
  have hg40 : (g40Words px py ch.units_mm).g_words.contains 40
      ∧ (((g40Words px py ch.units_mm).x_set || (g40Words px py ch.units_mm).y_set
          || (g40Words px py ch.units_mm).z_set) = true)
      ∧ (ch.cutter_comp = 41 ∨ ch.cutter_comp = 42) := ⟨rfl, rfl, hcc⟩
  have hgc : getCh (modChan (modChan (modChan m c (fun ch => { ch with
      cutter_comp := 40, comp_linear_prev := none, comp_entry_pending := false })) c
      (fun ch => { ch with comp_entry_pending := false })) c
      (fun ch => { ch with current_motion := (1 : ℤ) })) c
      = { ch with
          cutter_comp := 40, comp_linear_prev := none, comp_entry_pending := false,
          current_motion := 1 } := by
    unfold getCh
    rw [hch3]
    rfl
  have htr2 : max ch.tool_radius 0 = ch.tool_radius := max_eq_left htr.le
  have hend : ∀ zo : Option ℕ,
      endWorkOf true cur_work (some xid) (some yid) zo (g40Words px py ch.units_mm)
      = updMap (updMap cur_work xid px) yid py := by
    intro zo
    cases zo <;> simp [endWorkOf, g40Words, Words.init]
  have hcomp : ∀ (mm : MachineBrain) (jen : Bool),
      mm.channels.get? c = some { ch with
        cutter_comp := 40, comp_linear_prev := none,
        comp_entry_pending := false, current_motion := 1 } →
      compXY M mm c xid yid cur_work (updMap (updMap cur_work xid px) yid py) 1
          ch.cutter_comp ch.tool_radius jen false (g40Words px py ch.units_mm)
        = (updMap (updMap (updMap (updMap cur_work xid px) yid py) xid
              (px + -((py - sy) / M.sqrt ((px - sx) * (px - sx) + (py - sy) * (py - sy)))
                * ch.tool_radius * (if ch.cutter_comp = 41 then 1 else -1))) yid
              (py + (px - sx) / M.sqrt ((px - sx) * (px - sx) + (py - sy) * (py - sy))
                * ch.tool_radius * (if ch.cutter_comp = 41 then 1 else -1)),
           [],
           some ⟨px, py,
              px + -((py - sy) / M.sqrt ((px - sx) * (px - sx) + (py - sy) * (py - sy)))
                * ch.tool_radius * (if ch.cutter_comp = 41 then 1 else -1),
              py + (px - sx) / M.sqrt ((px - sx) * (px - sx) + (py - sy) * (py - sy))
                * ch.tool_radius * (if ch.cutter_comp = 41 then 1 else -1),
              (px - sx) / M.sqrt ((px - sx) * (px - sx) + (py - sy) * (py - sy)),
              (py - sy) / M.sqrt ((px - sx) * (px - sx) + (py - sy) * (py - sy)),
              ch.cutter_comp, ch.tool_radius⟩) := by
    intro mm jen hsome
    have hgc2 : getCh mm c = { ch with
        cutter_comp := 40, comp_linear_prev := none,
        comp_entry_pending := false, current_motion := 1 } := by
      unfold getCh; rw [hsome]; rfl
    simp only [compXY, hgc2, updMap_self, Option.getD_some, hsx, hsy,
      updMap_ne (updMap cur_work xid px) yid py xid hxy, updMap_self cur_work xid px,
      eq_self_iff_true, if_true, hlen, g40Words, Words.init,
      hpk mm hsome,
      Bool.xor_self, and_false, false_and, or_false, false_or, and_true, true_and, if_false]
    simp only [Bool.false_eq_true, and_false, or_false, if_false]
  rw [hW]
  simp only [motionPart]
  rw [if_pos hg40]
  rw [hx, hy, hgc]
  simp only [habs, htr2, htr, hcc, hend, eq_self_iff_true, if_true, true_or, or_true,
    true_and, and_true, gt_iff_lt]
  rw [hcomp _ _ hch3]
  have hyx : yid ≠ xid := Ne.symm hxy
  have h10 : ((1 : ℤ) = 0) = False := by simp
  have hdecv : (decide ((g40Words px py ch.units_mm).g_words.contains 40 = true
      ∧ ((g40Words px py ch.units_mm).x_set || (g40Words px py ch.units_mm).y_set
          || (g40Words px py ch.units_mm).z_set) = true)) = true := rfl
  rw [hdecv]
  have hfin : ∀ (X : MachineBrain) (Z : Option ℕ),
      X.channels.get? c = some { ch with
        cutter_comp := 40, comp_linear_prev := none, comp_entry_pending := false,
        current_motion := 1 } →
      (Option.map Channel.cutter_comp ((modChan (modChan (pwUpdate X c (some xid) (some yid)
          Z (updMap (updMap cur_work xid px) yid py)) c
          (fun ch => { ch with comp_entry_pending := false })) c
          (fun ch => { ch with comp_linear_prev := none })).channels.get? c) = some 40)
      ∧ (Option.map Channel.comp_linear_prev ((modChan (modChan (pwUpdate X c (some xid) (some yid)
          Z (updMap (updMap cur_work xid px) yid py)) c
          (fun ch => { ch with comp_entry_pending := false })) c
          (fun ch => { ch with comp_linear_prev := none })).channels.get? c) = some none)
      ∧ (Option.map Channel.pending ((modChan (modChan (pwUpdate X c (some xid) (some yid)
          Z (updMap (updMap cur_work xid px) yid py)) c
          (fun ch => { ch with comp_entry_pending := false })) c
          (fun ch => { ch with comp_linear_prev := none })).channels.get? c) = some ch.pending) := by
    intro X Z hX
    obtain ⟨pw2, hpw⟩ := pwUpdate_get?_pw X c (some xid) (some yid) Z
      (updMap (updMap cur_work xid px) yid py) _ hX
    rw [modChan_get?_self _ c _ _ (modChan_get?_self _ c _ _ hpw)]
    exact ⟨rfl, rfl, rfl⟩
  cases hzc : axis_id_for "Z" labels with
  | none =>
    simp only [linearMove, updMap, g40Words, Words.init, hxy, hyx, eq_self_iff_true,
      if_true, if_false, ite_self, ite_true, ite_false, htr, hcc, gt_iff_lt, true_and,
      and_true, and_false, false_and, h10, ne_eq, not_true, not_false_iff,
      Option.isSome_some, Option.getD_some, List.cons_append, List.nil_append,
      List.append_nil, List.foldl, Option.some.injEq, reduceCtorEq, Bool.false_eq_true]
    refine ⟨(hfin _ _ ?_).1, (hfin _ _ ?_).2.1, (hfin _ _ ?_).2.2, ?_, ?_, ?_⟩
    · exact hch3
    · exact hch3
    · exact hch3
    · simp only [modChan_axes, pwUpdate_axes]
      rw [modAxis_axes_get?, if_neg hxy, modAxis_axes_get?, if_pos rfl]
      rfl
    · simp only [modChan_axes, pwUpdate_axes]
      rw [modAxis_axes_get?, if_pos rfl, modAxis_axes_get?, if_neg hyx]
      rfl
    · intro j hjx hjy
      simp only [modChan_axes, pwUpdate_axes]
      rw [modAxis_axes_get?, if_neg hjy, modAxis_axes_get?, if_neg hjx]
      rfl
  | some zid =>
    obtain ⟨hzx, hzy⟩ := hzd zid hzc
    simp only [linearMove, updMap, g40Words, Words.init, hxy, hyx, Ne.symm hzx,
      Ne.symm hzy, eq_self_iff_true, if_true, if_false, ite_self, ite_true, ite_false,
      htr, hcc, gt_iff_lt, true_and, and_true, and_false, false_and, h10, ne_eq,
      not_true, not_false_iff, Option.isSome_some, Option.getD_some, List.cons_append,
      List.nil_append, List.append_nil, List.foldl, Option.some.injEq, reduceCtorEq,
      Bool.false_eq_true]
    refine ⟨(hfin _ _ ?_).1, (hfin _ _ ?_).2.1, (hfin _ _ ?_).2.2, ?_, ?_, ?_⟩
    · exact hch3
    · exact hch3
    · exact hch3
    · simp only [modChan_axes, pwUpdate_axes]
      rw [modAxis_axes_get?, if_neg hxy, modAxis_axes_get?, if_pos rfl]
      rfl
    · simp only [modChan_axes, pwUpdate_axes]
      rw [modAxis_axes_get?, if_pos rfl, modAxis_axes_get?, if_neg hyx]
      rfl
    · intro j hjx hjy
      simp only [modChan_axes, pwUpdate_axes]
      rw [modAxis_axes_get?, if_neg hjy, modAxis_axes_get?, if_neg hjx]
      rfl

/-- Concrete machine for the C3 witness: the XYZ machine of the source's
test fixture, with cutter compensation 41 engaged at radius 2 on channel 0,
running a two-line program (the G40 cancel block and a plain follow-up
move). -/
def c3Brain : MachineBrain :=
  modChan brainXYZ 0 (fun ch => { ch with
    cutter_comp := 41, tool_radius := 2, is_running := true,
    program := ["G1 G40 X20 Y0", "G1 X30 Y0"], pc := 0 })

/-- Witness for `c3_g40_motion_block` on the XYZ fixture: the label table is
the channel's own `knownLabels` (X, Y and Z all mapped), the channel is
running mid-program, and the untouched-axis conclusion is read off at the
mapped Z axis. -/
theorem c3_g40_motion_block_witness :
    (((applyWords mathW c3Brain 0 (knownLabels (getCh c3Brain 0)) (fun _ => some (0 : ℚ))
        (getCh c3Brain 0).cutter_comp (getCh c3Brain 0).comp_entry_pending
        (g40Words 20 0 (getCh c3Brain 0).units_mm)).channels.get? 0).map Channel.cutter_comp = some 40) ∧
    (((applyWords mathW c3Brain 0 (knownLabels (getCh c3Brain 0)) (fun _ => some (0 : ℚ))
        (getCh c3Brain 0).cutter_comp (getCh c3Brain 0).comp_entry_pending
        (g40Words 20 0 (getCh c3Brain 0).units_mm)).channels.get? 0).map Channel.comp_linear_prev = some none) ∧
    (((applyWords mathW c3Brain 0 (knownLabels (getCh c3Brain 0)) (fun _ => some (0 : ℚ))
        (getCh c3Brain 0).cutter_comp (getCh c3Brain 0).comp_entry_pending
        (g40Words 20 0 (getCh c3Brain 0).units_mm)).channels.get? 0).map Channel.pending = some (getCh c3Brain 0).pending) ∧
    ((applyWords mathW c3Brain 0 (knownLabels (getCh c3Brain 0)) (fun _ => some (0 : ℚ))
        (getCh c3Brain 0).cutter_comp (getCh c3Brain 0).comp_entry_pending
        (g40Words 20 0 (getCh c3Brain 0).units_mm)).axes.get? 0
      = (c3Brain.axes.get? 0).map (fun ax =>
          { ax with target := machine_target_with_limits c3Brain 0 (work_to_machine c3Brain 0
              (20 + -((0 - 0) / mathW.sqrt ((20 - 0) * (20 - 0) + (0 - 0) * (0 - 0)))
              * (getCh c3Brain 0).tool_radius
              * (if (getCh c3Brain 0).cutter_comp = 41 then 1 else -1))) })) ∧
    ((applyWords mathW c3Brain 0 (knownLabels (getCh c3Brain 0)) (fun _ => some (0 : ℚ))
        (getCh c3Brain 0).cutter_comp (getCh c3Brain 0).comp_entry_pending
        (g40Words 20 0 (getCh c3Brain 0).units_mm)).axes.get? 1
      = (c3Brain.axes.get? 1).map (fun ax =>
          { ax with target := machine_target_with_limits c3Brain 1 (work_to_machine c3Brain 1
              (0 + (20 - 0) / mathW.sqrt ((20 - 0) * (20 - 0) + (0 - 0) * (0 - 0))
              * (getCh c3Brain 0).tool_radius
              * (if (getCh c3Brain 0).cutter_comp = 41 then 1 else -1))) })) ∧
    (applyWords mathW c3Brain 0 (knownLabels (getCh c3Brain 0)) (fun _ => some (0 : ℚ))
        (getCh c3Brain 0).cutter_comp (getCh c3Brain 0).comp_entry_pending
        (g40Words 20 0 (getCh c3Brain 0).units_mm)).axes.get? 2 = c3Brain.axes.get? 2 :=
  (fun T => ⟨T.1, T.2.1, T.2.2.1, T.2.2.2.1, T.2.2.2.2.1,
      T.2.2.2.2.2 2 (by decide) (by decide)⟩)
    (c3_g40_motion_block mathW c3Brain 0 (getCh c3Brain 0) (knownLabels (getCh c3Brain 0))
      (fun _ => some (0 : ℚ)) 0 1 20 0 0 0 rfl (by decide) (by decide) (by decide)
      (by decide) (by decide) (by decide)
      (fun zid hz => by
        rw [show axis_id_for "Z" (knownLabels (getCh c3Brain 0)) = some 2 by decide] at hz
        injection hz with h2
        subst h2
        exact ⟨by decide, by decide⟩)
      (fun mm hmm => by
        unfold peek_next_comp_linear_xy
        rw [hmm]
        decide)
      rfl rfl (by decide))

/-! ## Claim C10: work-offset frame shape invariant -/

/-- The frame-shape invariant (claim C10): every work-offset frame holds
exactly one `AxisOffset` per configured axis, in axis order, with matching
`axis_id`. -/
def WorkOffsetsInv (m : MachineBrain) : Prop :=
  ∀ w ∈ m.work_offsets, w.offsets.map AxisOffset.axis_id = m.axes.map Axis.id

/-- A machine step that changes neither the axis-id sequence nor the
work-offset table (the shape on both sides of the invariant). -/
def ShapeKept (m m' : MachineBrain) : Prop :=
  m'.axes.map Axis.id = m.axes.map Axis.id ∧ m'.work_offsets = m.work_offsets

theorem shapeKept_refl (m : MachineBrain) : ShapeKept m m := ⟨rfl, rfl⟩

theorem shapeKept_trans (m1 m2 m3 : MachineBrain) (h1 : ShapeKept m1 m2)
    (h2 : ShapeKept m2 m3) : ShapeKept m1 m3 :=
  ⟨h2.1.trans h1.1, h2.2.trans h1.2⟩

theorem workOffsetsInv_of_shapeKept (m m' : MachineBrain) (h : ShapeKept m m')
    (hinv : WorkOffsetsInv m) : WorkOffsetsInv m' := by
  intro w hw
  rw [h.2] at hw
  rw [h.1]
  exact hinv w hw

theorem listModify_map_pres {α β : Type} (l : List α) (i : ℕ) (f : α → α) (g : α → β)
    (h : ∀ a, l.get? i = some a → g (f a) = g a) :
    (listModify l i f).map g = l.map g := by
  induction l generalizing i with
  | nil => rfl
  | cons a l ih =>
    cases i with
    | zero =>
      have ha := h a (by simp)
      simp [listModify, ha]
    | succ i =>
      have hl := ih i (fun b hb => h b (by simpa using hb))
      simp [listModify, hl]

theorem map_axes_id (f : Axis → Axis) (h : ∀ a, (f a).id = a.id) (l : List Axis) :
    (l.map f).map Axis.id = l.map Axis.id := by
  rw [List.map_map]
  exact List.map_congr_left (fun a _ => h a)

theorem shapeKept_modChan (m : MachineBrain) (c : ℕ) (f : Channel → Channel) :
    ShapeKept m (modChan m c f) := ⟨rfl, rfl⟩

theorem shapeKept_modAxis (m : MachineBrain) (i : ℕ) (f : Axis → Axis)
    (h : ∀ a, m.axes.get? i = some a → (f a).id = a.id) :
    ShapeKept m (modAxis m i f) :=
  ⟨listModify_map_pres m.axes i f Axis.id h, rfl⟩

theorem shapeKept_ite (m : MachineBrain) (c : Prop) [inst : Decidable c]
    (a b : MachineBrain) (ha : ShapeKept m a) (hb : ShapeKept m b) :
    ShapeKept m (if c then a else b) := by
  cases inst with
  | isTrue h => rw [if_pos h]; exact ha
  | isFalse h => rw [if_neg h]; exact hb

theorem foldl_shapeKept {α β : Type} (proj : β → MachineBrain) (F : β → α → β)
    (l : List α) (hF : ∀ b a, ShapeKept (proj b) (proj (F b a))) (b : β) :
    ShapeKept (proj b) (proj (l.foldl F b)) := by
  induction l generalizing b with
  | nil => exact shapeKept_refl _
  | cons a l ih => exact shapeKept_trans _ _ _ (hF b a) (ih (F b a))

theorem move_axis_id (ax : Axis) (feed dt_sec : ℚ) (stop : Bool) :
    ((move_axis ax feed dt_sec stop).1).id = ax.id := by
  simp only [move_axis]
  repeat' split
  all_goals rfl

theorem shapeKept_scanLabelWrite (m : MachineBrain) (c : ℕ) (cw : ℕ → Option ℚ)
    (aid : ℕ) (u : Bool) (v : ℚ) : ShapeKept m (scanLabelWrite m c cw aid u v) :=
  shapeKept_modAxis _ _ _ (fun _ _ => rfl)

theorem shapeKept_scanAux (fuel : ℕ) :
    ∀ (bytes : List Char) (c : ℕ) (labels : List (String × ℕ)) (cw : ℕ → Option ℚ)
      (m : MachineBrain) (w : Words),
      ShapeKept m (scanAux fuel c labels cw m w bytes).1 := by
  induction fuel with
  | zero => intro bytes c labels cw m w; exact shapeKept_refl m
  | succ fuel ih =>
    intro bytes c labels cw m w
    unfold scanAux
    cases hstep : scanStep labels bytes with
    | stop => exact shapeKept_refl m
    | skip rest => exact ih rest c labels cw m w
    | label aid val rest =>
      cases val with
      | none => exact ih rest c labels cw m w
      | some v =>
        exact shapeKept_trans _ _ _ (shapeKept_scanLabelWrite m c cw aid w.units_mm_word v)
          (ih rest c labels cw _ w)
    | word uc val rest => exact ih rest c labels cw m _

theorem shapeKept_pwUpdate (m : MachineBrain) (c : ℕ) (x y z : Option ℕ)
    (ew : ℕ → Option ℚ) : ShapeKept m (pwUpdate m c x y z ew) := by
  unfold pwUpdate
  refine foldl_shapeKept id _ _ ?_ m
  intro b a
  rcases a with _ | id
  · exact shapeKept_refl _
  · change ShapeKept b ((match ew id with
      | some vw => modChan b c (fun ch : Channel =>
          { ch with programmed_work := updMap ch.programmed_work id vw })
      | none => b : MachineBrain))
    cases ew id with
    | none => exact shapeKept_refl b
    | some vw => exact shapeKept_modChan b c _

theorem shapeKept_applyFST (m : MachineBrain) (c : ℕ) (w : Words) :
    ShapeKept m (applyFST m c w) := by
  unfold applyFST
  cases w.f_word <;> cases w.s_word <;> cases w.t_word <;> exact ⟨rfl, rfl⟩

theorem shapeKept_applyModalG (m : MachineBrain) (c : ℕ) (w : Words) :
    ShapeKept m (applyModalG m c w) := by
  unfold applyModalG
  refine foldl_shapeKept id _ _ ?_ m
  intro b g
  cases w.d_word <;> cases w.h_word <;>
    repeat'
      first
        | exact ⟨rfl, rfl⟩
        | refine shapeKept_ite _ _ _ _ ?_ ?_

theorem shapeKept_applyModalM (m : MachineBrain) (c : ℕ) (w : Words) :
    ShapeKept m (applyModalM m c w) := by
  unfold applyModalM
  refine foldl_shapeKept id _ _ ?_ m
  intro b g
  repeat'
    first
      | exact ⟨rfl, rfl⟩
      | refine shapeKept_ite _ _ _ _ ?_ ?_

theorem shapeKept_applyPendingRule (m : MachineBrain) (c : ℕ) (b0 : Bool) (w : Words) :
    ShapeKept m (applyPendingRule m c b0 w) := by
  unfold applyPendingRule
  repeat'
    first
      | exact ⟨rfl, rfl⟩
      | refine shapeKept_ite _ _ _ _ ?_ ?_

theorem shapeKept_applyDH (m : MachineBrain) (c : ℕ) (w : Words) :
    ShapeKept m (applyDH m c w) := by
  unfold applyDH
  cases w.d_word <;> cases w.h_word <;> exact ⟨rfl, rfl⟩

theorem shapeKept_arcExpand (M : MathFns) (m : MachineBrain) (c : ℕ) (xid yid : ℕ)
    (z_id : Option ℕ) (cur_work end_work : ℕ → Option ℚ) (cc : ℤ) (tr : ℚ) (lca : Bool)
    (tl cx cy r a0 da : ℚ) :
    ShapeKept m (arcExpand M m c xid yid z_id cur_work end_work cc tr lca tl cx cy r a0 da) :=
  shapeKept_modChan _ _ _

theorem shapeKept_arcMove (M : MathFns) (m : MachineBrain) (c : ℕ) (xid yid : ℕ)
    (z_id : Option ℕ) (motion : ℤ) (cur_work end_work : ℕ → Option ℚ)
    (i_off j_off r_word : Option ℚ) (cc : ℤ) (tr : ℚ) (lca : Bool) (tl : ℚ) :
    ShapeKept m (arcMove M m c xid yid z_id motion cur_work end_work i_off j_off r_word
      cc tr lca tl) := by
  simp only [arcMove]
  split
  · exact shapeKept_refl m
  · refine shapeKept_trans _ _ _ ?_ (shapeKept_pwUpdate _ _ _ _ _ _)
    apply shapeKept_modChan
  · split
    · exact shapeKept_refl m
    · refine shapeKept_trans _ _ _ ?_ (shapeKept_pwUpdate _ _ _ _ _ _)
      apply shapeKept_arcExpand

theorem shapeKept_linearMove (m : MachineBrain) (c : ℕ) (x_id y_id z_id : Option ℕ)
    (cur_work end_work end_work_motion : ℕ → Option ℚ) (corner : List (ℚ × ℚ))
    (comp_next : Option CompLinearState) (motion cutter_comp : ℤ) (tool_radius : ℚ)
    (lca : Bool) (tl : ℚ) (g40 : Bool) (w : Words) :
    ShapeKept m (linearMove m c x_id y_id z_id cur_work end_work end_work_motion corner
      comp_next motion cutter_comp tool_radius lca tl g40 w) := by
  unfold linearMove
  repeat'
    first
      | refine shapeKept_ite _ _ _ _ ?_ ?_
      | refine shapeKept_trans _ _ _ ?_ (shapeKept_modChan _ _ _)
      | refine shapeKept_trans _ _ _ ?_ (shapeKept_pwUpdate _ _ _ _ _ _)
      | (refine foldl_shapeKept id _ _ ?_ m; intro b kv)
      | (refine shapeKept_trans _ _ _ (shapeKept_modAxis _ _ _ ?_)
          (shapeKept_modAxis _ _ _ ?_) <;> exact fun _ _ => rfl)
      | exact shapeKept_modChan _ _ _
      | exact shapeKept_modAxis _ _ _ (fun _ _ => rfl)
      | exact shapeKept_modAxis _ _ _ (fun a _ => by split <;> rfl)
      | exact shapeKept_refl _

theorem shapeKept_motionPart (M : MathFns) (m : MachineBrain) (c : ℕ)
    (labels : List (String × ℕ)) (cur_work : ℕ → Option ℚ) (ccb : ℤ) (w : Words)
    (motion : ℤ) : ShapeKept m (motionPart M m c labels cur_work ccb w motion) := by
  simp only [motionPart]
  refine shapeKept_trans _ _ _
    (shapeKept_modChan m c (fun ch => { ch with current_motion := motion })) ?_
  refine shapeKept_ite _ _ _ _ ?_ ?_
  · apply shapeKept_linearMove
  · refine shapeKept_ite _ _ _ _ ?_ ?_
    · apply shapeKept_modChan
    · refine shapeKept_trans _ _ _ (shapeKept_modChan
        (modChan m c (fun ch => { ch with current_motion := motion })) c
        (fun ch => { ch with comp_linear_prev := none })) ?_
      cases axis_id_for "X" labels <;> cases axis_id_for "Y" labels <;>
        first
          | exact shapeKept_refl _
          | apply shapeKept_arcMove

theorem shapeKept_applyWords (M : MathFns) (m : MachineBrain) (c : ℕ)
    (labels : List (String × ℕ)) (cur_work : ℕ → Option ℚ) (ccb : ℤ) (cepb : Bool)
    (w : Words) : ShapeKept m (applyWords M m c labels cur_work ccb cepb w) := by
  unfold applyWords
  cases m.channels.get? c with
  | none => exact shapeKept_refl m
  | some ch =>
    refine shapeKept_trans _ _ _ (shapeKept_trans _ _ _ (shapeKept_trans _ _ _
      (shapeKept_trans _ _ _ (shapeKept_trans _ _ _ (shapeKept_applyFST m c w)
        (shapeKept_applyModalG _ c w)) (shapeKept_applyModalM _ c w))
      (shapeKept_applyPendingRule _ c cepb w)) (shapeKept_applyDH _ c w)) ?_
    refine shapeKept_ite _ _ _ _ (shapeKept_refl _) ?_
    apply shapeKept_motionPart

theorem shapeKept_parse_line (M : MathFns) (m : MachineBrain) (c : ℕ) (line : String) :
    ShapeKept m (parse_line M m c line) := by
  unfold parse_line
  cases m.channels.get? c with
  | none => exact shapeKept_refl m
  | some ch =>
    refine shapeKept_trans _ _ _
      (shapeKept_scanAux (line.data.length + 1) line.data c (knownLabels ch)
        (compute_cur_work m ch (knownLabels ch)) m (Words.init ch.units_mm)) ?_
    apply shapeKept_applyWords

set_option maxHeartbeats 1000000 in
theorem shapeKept_tickHoming (m : MachineBrain) (dt_sec : ℚ) :
    ShapeKept m (tickHoming m dt_sec) := by
  unfold tickHoming
  refine shapeKept_ite _ _ _ _ ⟨rfl, rfl⟩ ?_
  cases heq : m.axes.get? ((m.homing_sequence.get? m.homing_index).getD 0) with
  | none => exact ⟨rfl, rfl⟩
  | some ax =>
    refine shapeKept_ite _ _ _ _ ?_ ?_
    · refine shapeKept_ite _ _ _ _ ?_ ?_
      · refine shapeKept_trans _ _ _ (shapeKept_trans _ _ _
          (shapeKept_modAxis _ _ _ ?_) (shapeKept_modAxis _ _ _ ?_)) ⟨rfl, rfl⟩
        · intro a ha
          rw [heq] at ha
          cases ha
          exact move_axis_id _ _ _ _
        · exact fun _ _ => rfl
      · refine shapeKept_trans _ _ _ (shapeKept_trans _ _ _
          (shapeKept_modAxis _ _ _ ?_) (shapeKept_modAxis _ _ _ ?_)) ⟨rfl, rfl⟩
        · intro a ha
          rw [heq] at ha
          cases ha
          exact move_axis_id _ _ _ _
        · exact fun _ _ => rfl
    · refine shapeKept_modAxis _ _ _ ?_
      intro a ha
      rw [heq] at ha
      cases ha
      exact move_axis_id _ _ _ _

theorem shapeKept_moveFold (m0 : MachineBrain) (l : List ChannelAxisMap) (feed dt : ℚ)
    (stop : Bool) : ∀ (acc : MachineBrain × Bool), ShapeKept m0 acc.1 →
    ShapeKept m0 ((l.foldl (fun (acc : MachineBrain × Bool) mm =>
      match acc.1.axes.get? mm.axis_id with
      | some ax =>
        let r := move_axis ax feed dt stop
        (modAxis acc.1 mm.axis_id (fun _ => r.1), acc.2 || r.2)
      | none => acc) acc).1) := by
  induction l with
  | nil => intro acc h; exact h
  | cons mm l ih =>
    intro acc h
    refine ih _ ?_
    beta_reduce
    cases hax : acc.1.axes.get? mm.axis_id with
    | none => exact h
    | some ax =>
      refine shapeKept_trans _ _ _ h ?_
      refine shapeKept_modAxis _ _ _ ?_
      intro a ha
      rw [hax] at ha
      cases ha
      exact move_axis_id _ _ _ _

set_option maxHeartbeats 4000000 in
theorem shapeKept_tickChannel (M : MathFns) (m : MachineBrain) (dt_sec : ℚ) (c_idx : ℕ) :
    ShapeKept m (tickChannel M m dt_sec c_idx) := by
  unfold tickChannel
  cases hch : m.channels.get? c_idx with
  | none => exact shapeKept_refl m
  | some ch0 =>
    refine shapeKept_ite _ _ _ _ (shapeKept_refl m) ?_
    refine shapeKept_ite _ _ _ _ ?_ ?_
    · refine foldl_shapeKept id _ _ ?_ m
      intro b mm
      exact shapeKept_modAxis _ _ _ (fun _ _ => rfl)
    · refine shapeKept_ite _ _ _ _ ?_ ?_
      · refine shapeKept_ite _ _ _ _ ?_ ?_
        · refine shapeKept_trans _ _ _ ?_ (shapeKept_modChan _ _ _)
          exact shapeKept_moveFold m ch0.axis_map _ dt_sec _ (m, false) (shapeKept_refl m)
        · cases hp : ch0.pending with
          | cons next restQ =>
            refine shapeKept_trans _ _ _ ?_ (foldl_shapeKept id _ _ ?_ _)
            · refine shapeKept_trans _ _ _ ?_ (shapeKept_modChan _ _ _)
              exact shapeKept_moveFold m ch0.axis_map _ dt_sec _ (m, false)
                (shapeKept_refl m)
            · intro b p
              exact shapeKept_modAxis _ _ _ (fun _ _ => rfl)
          | nil =>
            cases hl : ch0.program.get? ch0.pc with
            | some line =>
              refine shapeKept_trans _ _ _ ?_ (shapeKept_modChan _ _ _)
              refine shapeKept_ite _ _ _ _ ?_ ?_
              · refine shapeKept_trans _ _ _ ?_ (shapeKept_modChan _ _ _)
                refine shapeKept_trans _ _ _ ?_ (shapeKept_parse_line _ _ _ _)
                refine shapeKept_trans _ _ _ ?_ (shapeKept_modChan _ _ _)
                exact shapeKept_moveFold m ch0.axis_map _ dt_sec _ (m, false)
                  (shapeKept_refl m)
              · refine shapeKept_trans _ _ _ ?_ (shapeKept_parse_line _ _ _ _)
                refine shapeKept_trans _ _ _ ?_ (shapeKept_modChan _ _ _)
                exact shapeKept_moveFold m ch0.axis_map _ dt_sec _ (m, false)
                  (shapeKept_refl m)
            | none =>
              refine shapeKept_trans _ _ _ ?_ (shapeKept_modChan _ _ _)
              exact shapeKept_moveFold m ch0.axis_map _ dt_sec _ (m, false)
                (shapeKept_refl m)
      · exact shapeKept_moveFold m ch0.axis_map _ dt_sec _ (m, false) (shapeKept_refl m)

theorem shapeKept_tick (M : MathFns) (m : MachineBrain) (dt_ms : ℚ) :
    ShapeKept m (tick M m dt_ms) := by
  unfold tick
  split
  · exact shapeKept_refl m
  · split
    · exact shapeKept_tickHoming m _
    · refine foldl_shapeKept id _ _ ?_ m
      intro b cidx
      exact shapeKept_tickChannel M b _ cidx

theorem listModify_mem {α : Type} (l : List α) (i : ℕ) (f : α → α) (w : α)
    (hw : w ∈ listModify l i f) :
    w ∈ l ∨ ∃ a, l.get? i = some a ∧ w = f a := by
  induction l generalizing i with
  | nil => simp [listModify] at hw
  | cons a l ih =>
    cases i with
    | zero =>
      simp only [listModify, List.mem_cons] at hw
      rcases hw with rfl | hw
      · exact Or.inr ⟨a, by simp, rfl⟩
      · exact Or.inl (List.mem_cons_of_mem a hw)
    | succ i =>
      simp only [listModify, List.mem_cons] at hw
      rcases hw with rfl | hw
      · exact Or.inl (List.mem_cons_self w l)
      · rcases ih i hw with h | ⟨b, hb, rfl⟩
        · exact Or.inl (List.mem_cons_of_mem a h)
        · exact Or.inr ⟨b, by simpa using hb, rfl⟩

theorem workOffsetsInv_new : WorkOffsetsInv MachineBrain.new := by
  intro w hw
  simp only [MachineBrain.new, default_work_offsets, List.mem_cons,
    List.not_mem_nil, or_false] at hw
  rcases hw with rfl | rfl | rfl | rfl | rfl | rfl | rfl <;> rfl

theorem workOffsetsInv_clear_config (m : MachineBrain) :
    WorkOffsetsInv (clear_config m) := by
  intro w hw
  simp only [clear_config, default_work_offsets, List.mem_cons,
    List.not_mem_nil, or_false] at hw
  rcases hw with rfl | rfl | rfl | rfl | rfl | rfl | rfl <;> rfl

theorem workOffsetsInv_add_axis (m : MachineBrain) (name : String) (kind : AxisType)
    (mn mx : ℚ) (hinv : WorkOffsetsInv m) :
    WorkOffsetsInv (add_axis m name kind mn mx) := by
  intro w hw
  simp only [add_axis, List.mem_map] at hw
  obtain ⟨w0, hw0, rfl⟩ := hw
  simp [add_axis, hinv w0 hw0]

theorem workOffsetsInv_add_work_offset (m : MachineBrain) (label : String)
    (hinv : WorkOffsetsInv m) : WorkOffsetsInv (add_work_offset m label) := by
  intro w hw
  simp only [add_work_offset, List.mem_append, List.mem_singleton] at hw
  rcases hw with hw | rfl
  · exact hinv w hw
  · show (m.axes.map (fun ax => (⟨ax.id, 0⟩ : AxisOffset))).map AxisOffset.axis_id
      = (add_work_offset m label).axes.map Axis.id
    rw [List.map_map]
    rfl

theorem workOffsetsInv_set_work_zero (m : MachineBrain) (axis_id wcs_index : ℕ)
    (pos : ℚ) (hinv : WorkOffsetsInv m) :
    WorkOffsetsInv (set_work_zero m axis_id wcs_index pos) := by
  intro w hw
  simp only [set_work_zero] at hw
  rcases listModify_mem _ _ _ _ hw with h | ⟨a, ha, rfl⟩
  · exact hinv w h
  · show ((a.offsets.map _).map AxisOffset.axis_id) = _
    rw [List.map_map]
    have he : (AxisOffset.axis_id ∘ fun o => if o.axis_id = axis_id
        then { o with value := pos } else o) = AxisOffset.axis_id := by
      funext o
      show AxisOffset.axis_id (if _ then _ else _) = _
      split <;> rfl
    rw [he]
    exact hinv a (List.get?_mem ha)

theorem workOffsetsInv_set_estop (m : MachineBrain) (s : Bool)
    (hinv : WorkOffsetsInv m) : WorkOffsetsInv (set_estop m s) := by
  simp only [set_estop]
  split
  · exact workOffsetsInv_of_shapeKept m _
      ⟨map_axes_id (fun ax => { ax with target := ax.position, velocity := 0 })
        (fun _ => rfl) m.axes, rfl⟩ hinv
  · exact workOffsetsInv_of_shapeKept m _ ⟨rfl, rfl⟩ hinv

theorem shapeKept_start_homing_sequence (m : MachineBrain) (order : List ℕ)
    (rapid : Bool) (feed : ℚ) : ShapeKept m (start_homing_sequence m order rapid feed) := by
  unfold start_homing_sequence
  repeat'
    first
      | exact ⟨rfl, rfl⟩
      | refine shapeKept_ite _ _ _ _ ?_ ?_

theorem shapeKept_jump_blocks (m : MachineBrain) (c : ℕ) (delta : ℤ) :
    ShapeKept m (jump_blocks m c delta) := by
  unfold jump_blocks
  cases m.channels.get? c with
  | none => exact shapeKept_refl m
  | some ch =>
    refine shapeKept_ite _ _ _ _ (shapeKept_refl m) ?_
    refine shapeKept_trans _ _ _ (shapeKept_modChan _ _ _) (foldl_shapeKept id _ _ ?_ _)
    intro b mm
    exact shapeKept_modAxis _ _ _ (fun _ _ => rfl)

theorem shapeKept_jog_axis_feed (m : MachineBrain) (axis_id : ℕ) (delta feed : ℚ) :
    ShapeKept m (jog_axis_feed m axis_id delta feed) := by
  unfold jog_axis_feed
  split
  · exact shapeKept_refl m
  · refine shapeKept_trans _ _ _ (shapeKept_modAxis _ _ _ ?_) ⟨rfl, rfl⟩
    exact fun _ _ => rfl

theorem workOffsetsInv_exec (M : MathFns) (m : MachineBrain) (cmd : Command)
    (hinv : WorkOffsetsInv m) : WorkOffsetsInv (exec M m cmd) := by
  cases cmd with
  | clearConfig => exact workOffsetsInv_clear_config m
  | addAxis name kind mn mx => exact workOffsetsInv_add_axis m name kind mn mx hinv
  | addChannel id mappings => exact workOffsetsInv_of_shapeKept m _ ⟨rfl, rfl⟩ hinv
  | loadProgram c code =>
    exact workOffsetsInv_of_shapeKept m _ (shapeKept_modChan _ _ _) hinv
  | togglePause c => exact workOffsetsInv_of_shapeKept m _ (shapeKept_modChan _ _ _) hinv
  | resetProgram c => exact workOffsetsInv_of_shapeKept m _ (shapeKept_modChan _ _ _) hinv
  | setFeedOverride c ratio =>
    exact workOffsetsInv_of_shapeKept m _ (shapeKept_modChan _ _ _) hinv
  | setSingleBlock c enabled =>
    exact workOffsetsInv_of_shapeKept m _ (shapeKept_modChan _ _ _) hinv
  | stepOnce c => exact workOffsetsInv_of_shapeKept m _ (shapeKept_modChan _ _ _) hinv
  | jumpBlocks c delta =>
    exact workOffsetsInv_of_shapeKept m _ (shapeKept_jump_blocks m c delta) hinv
  | setToolLength c len =>
    exact workOffsetsInv_of_shapeKept m _ (shapeKept_modChan _ _ _) hinv
  | setToolLengthComp c active =>
    exact workOffsetsInv_of_shapeKept m _ (shapeKept_modChan _ _ _) hinv
  | setToolRadius c radius =>
    exact workOffsetsInv_of_shapeKept m _ (shapeKept_modChan _ _ _) hinv
  | setToolTableEntry c slot len radius =>
    exact workOffsetsInv_of_shapeKept m _ (shapeKept_modChan _ _ _) hinv
  | setActiveTool c slot =>
    exact workOffsetsInv_of_shapeKept m _ (shapeKept_modChan _ _ _) hinv
  | setCutterComp c mode =>
    exact workOffsetsInv_of_shapeKept m _ (shapeKept_modChan _ _ _) hinv
  | moveTo axis target =>
    exact workOffsetsInv_of_shapeKept m _
      (shapeKept_modAxis _ _ _ (fun _ _ => rfl)) hinv
  | homeAll =>
    refine workOffsetsInv_of_shapeKept m _ ?_ hinv
    show ShapeKept m (home_all m)
    unfold home_all
    split
    · exact shapeKept_refl m
    · refine shapeKept_trans _ _ _ ?_ (shapeKept_start_homing_sequence _ _ _ _)
      exact ⟨map_axes_id (fun ax => { ax with target := 0, homed := false })
        (fun _ => rfl) m.axes, rfl⟩
  | homeAllOrdered primary rapid feed =>
    refine workOffsetsInv_of_shapeKept m _ ?_ hinv
    show ShapeKept m (home_all_ordered m primary rapid feed)
    unfold home_all_ordered
    split
    · exact shapeKept_refl m
    · refine shapeKept_trans _ _ _ ?_ (shapeKept_start_homing_sequence _ _ _ _)
      exact ⟨map_axes_id (fun ax => { ax with target := 0, homed := false })
        (fun _ => rfl) m.axes, rfl⟩
  | homeAxis axis =>
    refine workOffsetsInv_of_shapeKept m _ ?_ hinv
    show ShapeKept m (home_axis m axis)
    unfold home_axis
    split
    · exact shapeKept_refl m
    · split
      · exact shapeKept_refl m
      · refine shapeKept_trans _ _ _ ?_ (shapeKept_start_homing_sequence _ _ _ _)
        exact shapeKept_modAxis _ _ _ (fun _ _ => rfl)
  | jogAxis axis delta =>
    refine workOffsetsInv_of_shapeKept m _ ?_ hinv
    show ShapeKept m (jog_axis m axis delta)
    unfold jog_axis
    split
    · exact shapeKept_refl m
    · exact shapeKept_modAxis _ _ _ (fun _ _ => rfl)
  | jogAxisFeed axis delta feed =>
    exact workOffsetsInv_of_shapeKept m _ (shapeKept_jog_axis_feed m axis delta feed) hinv
  | jogAxisRapid axis delta =>
    refine workOffsetsInv_of_shapeKept m _ ?_ hinv
    show ShapeKept m (jog_axis_rapid m axis delta)
    unfold jog_axis_rapid
    refine shapeKept_trans _ (modAxis (jog_axis_feed m axis delta
        (match m.axes.get? axis with
          | some ax => axis_rapid_feed ax
          | none => RAPID_LINEAR_MAX_MM_MIN)) axis
        (fun ax => { ax with velocity := (max ax.velocity (match m.axes.get? axis with | some a2 => axis_rapid_feed a2 | none => RAPID_LINEAR_MAX_MM_MIN)) })) _ ?_ ⟨rfl, rfl⟩
    exact shapeKept_trans _ _ _ (shapeKept_jog_axis_feed m axis delta _)
      (shapeKept_modAxis _ _ _ (fun _ _ => rfl))
  | setWorkZero axis wcs pos => exact workOffsetsInv_set_work_zero m axis wcs pos hinv
  | setActiveWcs idx =>
    refine workOffsetsInv_of_shapeKept m _ ?_ hinv
    show ShapeKept m (set_active_wcs m idx)
    unfold set_active_wcs
    split
    · exact ⟨rfl, rfl⟩
    · exact shapeKept_refl m
  | addWorkOffset label => exact workOffsetsInv_add_work_offset m label hinv
  | setEstop s => exact workOffsetsInv_set_estop m s hinv
  | tickCmd dt_ms => exact workOffsetsInv_of_shapeKept m _ (shapeKept_tick M m dt_ms) hinv
  | setAxisAccel axis accel =>
    exact workOffsetsInv_of_shapeKept m _
      (shapeKept_modAxis _ _ _ (fun _ _ => rfl)) hinv
  | setAxisMachineZero axis mz =>
    exact workOffsetsInv_of_shapeKept m _
      (shapeKept_modAxis _ _ _ (fun _ _ => rfl)) hinv
  | setAxisInvert axis invert =>
    exact workOffsetsInv_of_shapeKept m _
      (shapeKept_modAxis _ _ _ (fun _ _ => rfl)) hinv

/-- Claim C10, confirmed: after any sequence of public commands starting from
`MachineBrain::new`, every work-offset frame contains exactly one
`AxisOffset` per configured axis, in axis order, with matching `axis_id`:
`add_axis` appends a zero entry to every frame, `add_work_offset` creates
one entry per axis, and no command removes, reorders or duplicates
entries. -/
theorem c10_work_offsets_invariant (M : MathFns) (cmds : List Command) :
    WorkOffsetsInv (execList M MachineBrain.new cmds) := by
  have h : ∀ (cmds : List Command) (m : MachineBrain), WorkOffsetsInv m →
      WorkOffsetsInv (execList M m cmds) := by
    intro cmds
    induction cmds with
    | nil => intro m hm; exact hm
    | cons cmd cmds ih =>
      intro m hm
      exact ih (exec M m cmd) (workOffsetsInv_exec M m cmd hm)
  exact h cmds MachineBrain.new workOffsetsInv_new

/-! ## Claim C1: the e-stop freeze -/

/-- The frozen state the spec attributes to an e-stopped machine: e-stop set,
every axis pinned (`target == position`, `velocity == 0`), every channel with
an empty segment queue and not running. -/
def EStopFrozen (m : MachineBrain) : Prop :=
  m.estop = true ∧
  (∀ ax ∈ m.axes, ax.target = ax.position ∧ ax.velocity = 0) ∧
  (∀ ch ∈ m.channels, ch.pending = [] ∧ ch.is_running = false)

/-- Claim C1, counterexample: the claim that no later command can make an
axis target differ from its position while e-stop remains set is false.
`move_to` has no e-stop guard (source lines 956-963), so after
`set_estop(true)` a `move_to` still retargets the axis: with one linear axis,
`[add_axis, set_estop(true), move_to(0, 5)]` leaves e-stop set and the axis
with `target = 5` but `position = 0`. -/
theorem c1_counterexample :
    (execList mathW MachineBrain.new
      [Command.addAxis "X" AxisType.Linear (-10) 10, Command.setEstop true,
        Command.moveTo 0 5]).estop = true ∧
    ∃ ax ∈ (execList mathW MachineBrain.new
      [Command.addAxis "X" AxisType.Linear (-10) 10, Command.setEstop true,
        Command.moveTo 0 5]).axes, ax.target ≠ ax.position := by decide

/-- Claim C1, corrected: `set_estop(true)` does establish the frozen state —
it pins every axis (`target == position`, `velocity == 0`) and clears and
stops every channel — and while e-stop is set, `tick` and the guarded
jog/home commands (`jog_axis`, `jog_axis_feed`, `home_all`,
`home_all_ordered`, `home_axis`) leave the machine completely unchanged.
The universal part of the original claim is false (`move_to` is unguarded,
see the counterexample). -/
theorem c1_estop_freeze (M : MathFns) (m : MachineBrain) (dt_ms delta feed : ℚ)
    (axis : ℕ) (primary : ℤ) (rapid : Bool) :
    EStopFrozen (set_estop m true) ∧
    (m.estop = true →
      tick M m dt_ms = m ∧ jog_axis m axis delta = m ∧
      jog_axis_feed m axis delta feed = m ∧ home_all m = m ∧
      home_all_ordered m primary rapid feed = m ∧ home_axis m axis = m) := by
  constructor
  · refine ⟨rfl, ?_, ?_⟩
    · intro ax hax
      have hax2 : ax ∈ m.axes.map (fun a =>
          { a with target := a.position, velocity := 0 }) := hax
      rcases List.mem_map.mp hax2 with ⟨a, _, rfl⟩
      exact ⟨rfl, rfl⟩
    · intro ch hch
      have hch2 : ch ∈ m.channels.map (fun c =>
          { c with
            is_running := false, paused := false,
            pending := ([] : List (List (ℕ × ℚ))), pause_pending := false,
            step_once := false, active_pc := (-1 : ℤ) }) := hch
      rcases List.mem_map.mp hch2 with ⟨c, _, rfl⟩
      exact ⟨rfl, rfl⟩
  · intro h
    refine ⟨?_, ?_, ?_, ?_, ?_, ?_⟩
    · unfold tick
      rw [if_pos (Or.inl h)]
    · unfold jog_axis
      rw [if_pos h]
    · unfold jog_axis_feed
      rw [if_pos h]
    · unfold home_all
      rw [if_pos h]
    · unfold home_all_ordered
      rw [if_pos h]
    · unfold home_axis
      rw [if_pos h]

/-- Witness for `c1_estop_freeze` at a concrete e-stopped machine. -/
theorem c1_estop_freeze_witness :
    EStopFrozen (set_estop (set_estop brainXYZ true) true) ∧
    (tick mathW (set_estop brainXYZ true) 100 = set_estop brainXYZ true ∧
      jog_axis (set_estop brainXYZ true) 0 1 = set_estop brainXYZ true ∧
      jog_axis_feed (set_estop brainXYZ true) 0 1 2 = set_estop brainXYZ true ∧
      home_all (set_estop brainXYZ true) = set_estop brainXYZ true ∧
      home_all_ordered (set_estop brainXYZ true) 0 false 300 = set_estop brainXYZ true ∧
      home_axis (set_estop brainXYZ true) 0 = set_estop brainXYZ true) :=
  ⟨(c1_estop_freeze mathW (set_estop brainXYZ true) 100 1 2 0 0 false).1,
    (c1_estop_freeze mathW (set_estop brainXYZ true) 100 1 2 0 0 false).2 (by decide)⟩


end Vmill
